import Mathlib

/-!
# Noxim router pipeline: a shallow embedding

Sources embedded: `src/noxim_cvs/TRouter.cpp` (receive and transmit processes,
routing and selection functions) and `src/noxim_cvs/TNoC.cpp` (`getNeighborId`).

Conventions.
* C++ `int` values are `Int`. The values handled here are tile coordinates,
  tile ids and direction numbers, all far below `2^31`, so no wrap-around is
  modelled for them; where the source computes on `unsigned int`
  (`selectionBufferLevel`) the reduction modulo `2^32` is explicit.
* The C++ remainder `%` on `int` truncates towards zero: it is `Int.tmod`.
* A failed `assert`, a division by zero or an array index outside `0..4` ends
  the run: functions that can do so return `Option`, and `none` is that outcome.
* The five-cell arrays of a router (`buffer`, `reservation_table`, ...) are maps
  from the index to the cell; only the cells `0..4` exist in the source.
-/

namespace Noxim

/-! ## Constants and types of the missing headers -/

/-- Modelled from the spec: the header declaring the direction constants is not
among the sources. The spec lists the directions as NORTH, EAST, SOUTH, WEST,
LOCAL, the first four being external; the source indexes the external ones with
`0 .. DIRECTIONS-1` and sizes the arrays `DIRECTIONS+1`. -/
def DIRECTIONS : Int := 4

/-- Modelled from the spec: first external direction. -/
def DIRECTION_NORTH : Int := 0

/-- Modelled from the spec: second external direction. -/
def DIRECTION_EAST : Int := 1

/-- Modelled from the spec: third external direction. -/
def DIRECTION_SOUTH : Int := 2

/-- Modelled from the spec: fourth external direction. -/
def DIRECTION_WEST : Int := 3

/-- Modelled from the spec: the port of the processing element, the fifth cell. -/
def DIRECTION_LOCAL : Int := 4

/-- Modelled from the spec: the "no direction / no tile" value; the source
asserts `direction_choosen >= 0` after ruling it out, so it is negative. -/
def NOT_VALID : Int := -1

/-- Modelled from the spec: the NONE value of a reservation-table slot, different
from every direction. -/
def NOT_RESERVED : Int := -2

/-- Modelled from the spec: a coordinate is a pair `(x, y)`; the source reads the
components into `int` variables. -/
structure TCoord where
  x : Int
  y : Int
deriving DecidableEq, Repr

/-- Routing algorithms named by the switch of `routingFunction`. -/
inductive RoutingAlgorithm where
  | ROUTING_XY
  | ROUTING_WEST_FIRST
  | ROUTING_NORTH_LAST
  | ROUTING_NEGATIVE_FIRST
  | ROUTING_ODD_EVEN
  | ROUTING_DYAD
  | ROUTING_FULLY_ADAPTIVE
  | ROUTING_TABLE_BASED
deriving DecidableEq, Repr

/-- Selection strategies named by the switch of `selectionFunction`. -/
inductive SelectionStrategy where
  | SEL_RANDOM
  | SEL_BUFFER_LEVEL
  | SEL_NOP
deriving DecidableEq, Repr

/-- The fields of `TGlobalParams` that the embedded code reads. -/
structure TGlobalParams where
  mesh_dim_x : Int
  mesh_dim_y : Int
  buffer_depth : Int
  routing_algorithm : RoutingAlgorithm
  selection_strategy : SelectionStrategy

/-- Modelled from the spec: `id2Coord` is not among the sources; the spec gives
`id = y·X + x`, so `x` is the remainder and `y` the quotient by `X`. -/
def id2Coord (p : TGlobalParams) (id : Int) : TCoord :=
  { x := id.tmod p.mesh_dim_x, y := id.tdiv p.mesh_dim_x }

/-- Modelled from the spec: `coord2Id` is not among the sources; `id = y·X + x`. -/
def coord2Id (p : TGlobalParams) (c : TCoord) : Int :=
  c.y * p.mesh_dim_x + c.x

/-- A coordinate lies inside the mesh. -/
def inMesh (p : TGlobalParams) (c : TCoord) : Prop :=
  0 ≤ c.x ∧ c.x < p.mesh_dim_x ∧ 0 ≤ c.y ∧ c.y < p.mesh_dim_y

instance (p : TGlobalParams) (c : TCoord) : Decidable (inMesh p c) := by
  unfold inMesh; infer_instance

/-- One of the four external directions. -/
def isExternal (d : Int) : Prop :=
  d = DIRECTION_NORTH ∨ d = DIRECTION_EAST ∨ d = DIRECTION_SOUTH ∨ d = DIRECTION_WEST

instance (d : Int) : Decidable (isExternal d) := by
  unfold isExternal; infer_instance

/-! ## Routing functions (`TRouter.cpp`, lines 353-549) -/

/-- `TRouter::routingXY`. -/
def routingXY (current destination : TCoord) : List Int :=
  if destination.x > current.x then [DIRECTION_EAST]
  else if destination.x < current.x then [DIRECTION_WEST]
  else if destination.y > current.y then [DIRECTION_SOUTH]
  else [DIRECTION_NORTH]

/-- `TRouter::routingWestFirst`. -/
def routingWestFirst (current destination : TCoord) : List Int :=
  if destination.x ≤ current.x ∨ destination.y = current.y then
    routingXY current destination
  else if destination.y < current.y then [DIRECTION_NORTH, DIRECTION_EAST]
  else [DIRECTION_SOUTH, DIRECTION_EAST]

/-- `TRouter::routingNorthLast`. -/
def routingNorthLast (current destination : TCoord) : List Int :=
  if destination.x = current.x ∨ destination.y ≤ current.y then
    routingXY current destination
  else if destination.x < current.x then [DIRECTION_SOUTH, DIRECTION_WEST]
  else [DIRECTION_SOUTH, DIRECTION_EAST]

/-- `TRouter::routingNegativeFirst`. -/
def routingNegativeFirst (current destination : TCoord) : List Int :=
  if (destination.x ≤ current.x ∧ destination.y ≤ current.y) ∨
     (destination.x ≥ current.x ∧ destination.y ≥ current.y) then
    routingXY current destination
  else if destination.x > current.x ∧ destination.y < current.y then
    [DIRECTION_NORTH, DIRECTION_EAST]
  else [DIRECTION_SOUTH, DIRECTION_WEST]

/-- The list `directions` that `TRouter::routingOddEven` has built when it reaches
its closing assertion. -/
def oddEvenDirections (current source destination : TCoord) : List Int :=
  let c0 := current.x
  let c1 := current.y
  let s0 := source.x
  let d0 := destination.x
  let d1 := destination.y
  let e0 := d0 - c0
  let e1 := -(d1 - c1)
  if e0 = 0 then
    (if e1 > 0 then [DIRECTION_NORTH] else [DIRECTION_SOUTH])
  else if e0 > 0 then
    (if e1 = 0 then [DIRECTION_EAST]
     else
      (if c0.tmod 2 = 1 ∨ c0 = s0 then
        (if e1 > 0 then [DIRECTION_NORTH] else [DIRECTION_SOUTH])
       else []) ++
      (if d0.tmod 2 = 1 ∨ e0 ≠ 1 then [DIRECTION_EAST] else []))
  else
    DIRECTION_WEST ::
      (if c0.tmod 2 = 0 then
        (if e1 > 0 then [DIRECTION_NORTH] else [DIRECTION_SOUTH])
       else [])

/-- `TRouter::routingOddEven`: the list is returned when the closing
`assert(directions.size() > 0 && directions.size() <= 2)` holds. -/
def routingOddEven (current source destination : TCoord) : Option (List Int) :=
  let directions := oddEvenDirections current source destination
  if 0 < directions.length ∧ directions.length ≤ 2 then some directions else none

/-- `TRouter::routingDyAD`: `assert(false)`. -/
def routingDyAD (_current _destination : TCoord) : Option (List Int) := none

/-- `TRouter::routingFullyAdaptive`. -/
def routingFullyAdaptive (current destination : TCoord) : List Int :=
  if destination.x = current.x ∨ destination.y = current.y then
    routingXY current destination
  else if destination.x > current.x ∧ destination.y < current.y then
    [DIRECTION_NORTH, DIRECTION_EAST]
  else if destination.x > current.x ∧ destination.y > current.y then
    [DIRECTION_SOUTH, DIRECTION_EAST]
  else if destination.x < current.x ∧ destination.y > current.y then
    [DIRECTION_SOUTH, DIRECTION_WEST]
  else [DIRECTION_NORTH, DIRECTION_WEST]

/-! ## Neighbour lookup (`TNoC.cpp`, lines 163-193) -/

/-- `TNoC::getNeighborId`; `none` is the `assert(false)` of the default case. -/
def getNeighborId (p : TGlobalParams) (_id : Int) (direction : Int) : Option Int :=
  let my_coord := id2Coord p _id
  if direction = DIRECTION_NORTH then
    if my_coord.y = 0 then some NOT_VALID
    else some (coord2Id p { my_coord with y := my_coord.y - 1 })
  else if direction = DIRECTION_SOUTH then
    if my_coord.y = p.mesh_dim_y - 1 then some NOT_VALID
    else some (coord2Id p { my_coord with y := my_coord.y + 1 })
  else if direction = DIRECTION_EAST then
    if my_coord.x = p.mesh_dim_x - 1 then some NOT_VALID
    else some (coord2Id p { my_coord with x := my_coord.x + 1 })
  else if direction = DIRECTION_WEST then
    if my_coord.x = 0 then some NOT_VALID
    else some (coord2Id p { my_coord with x := my_coord.x - 1 })
  else none

/-! ## Flits, buffers and the router state -/

/-- Flit types tested by `txProcess`. -/
inductive FlitType where
  | FLIT_TYPE_HEAD
  | FLIT_TYPE_BODY
  | FLIT_TYPE_TAIL
deriving DecidableEq, Repr

/-- Modelled from the spec: the flit declaration is not among the sources. A flit
has a type, a source id, a destination id and a payload the router does not read. -/
structure TFlit where
  src_id : Int
  dst_id : Int
  flit_type : FlitType
  payload : Nat
deriving DecidableEq, Repr

/-- Modelled from the spec: `TBuffer` is not among the sources; it is a bounded
FIFO of flits, oldest flit first. -/
abbrev TBuffer := List TFlit

/-- Modelled from the spec: `IsFull`, no free slot within the configured capacity
`buffer_depth`. -/
def TBuffer.IsFull (depth : Int) (b : TBuffer) : Bool := decide (depth ≤ (b.length : Int))

/-- Modelled from the spec: `IsEmpty`. -/
def TBuffer.IsEmpty (b : TBuffer) : Bool := b.isEmpty

/-- Modelled from the spec: `Push` enqueues at the back. -/
def TBuffer.Push (b : TBuffer) (f : TFlit) : TBuffer := b ++ [f]

/-- Modelled from the spec: `Front` is the oldest flit. -/
def TBuffer.Front (b : TBuffer) : Option TFlit := b.head?

/-- Modelled from the spec: `Pop` removes the oldest flit. -/
def TBuffer.Pop (b : TBuffer) : TBuffer := b.tail

/-- Write of one cell of an array (or of one port of a port array). -/
def setCell {α : Type} (a : Int → α) (i : Int) (v : α) : Int → α :=
  fun k => if k = i then v else a k

/-- The index is one of the five cells `0 .. DIRECTIONS`. -/
def inRange (d : Int) : Prop := 0 ≤ d ∧ d < DIRECTIONS + 1

instance (d : Int) : Decidable (inRange d) := by
  unfold inRange; infer_instance

/-- The values of `i` taken by `for(int i=0; i<DIRECTIONS+1; i++)`. -/
def directionIndices : List Int := [0, 1, 2, 3, 4]

/-- The members of `TRouter` used by the receive and transmit processes, with the
value last written on each output port (`ack_rx`, `req_tx`, `flit_tx`). The
single-bit levels and lines are `Bool`, `1 - b` being `!b`. -/
structure TRouter where
  local_id : Int
  buffer : Int → TBuffer
  current_level_rx : Int → Bool
  current_level_tx : Int → Bool
  reservation_table : Int → Int
  short_circuit : Int → Int
  ack_rx : Int → Bool
  req_tx : Int → Bool
  flit_tx : Int → TFlit

/-- The record `TRouteData` filled by `txProcess`. -/
structure TRouteData where
  current_id : Int
  src_id : Int
  dst_id : Int
  dir_in : Int

/-- A push into an input buffer: the line `RECEIVED` of the verbose trace,
`(i, flit)`. -/
abbrev RxEvent := Int × TFlit

/-- A write on an output link: the line `SENDING` of the verbose trace,
`(i, dest, flit)` with `i` the input buffer the flit is taken from. -/
abbrev TxEvent := Int × Int × TFlit

/-! ## Receive process (`TRouter.cpp`, lines 11-55) -/

/-- Body of the reset loop of `rxProcess`. -/
def rxResetBody (r : TRouter) (i : Int) : TRouter :=
  { r with
    ack_rx := setCell r.ack_rx i false
    current_level_rx := setCell r.current_level_rx i false
    reservation_table := setCell r.reservation_table i NOT_RESERVED }

/-- Body of the accepting loop of `rxProcess` for input direction `i`. -/
def rxBody (depth : Int) (req_rx : Int → Bool) (flit_rx : Int → TFlit)
    (st : TRouter × List RxEvent) (i : Int) : TRouter × List RxEvent :=
  let r := st.1
  let st1 : TRouter × List RxEvent :=
    if req_rx i = (!r.current_level_rx i) ∧ ¬ (r.buffer i).IsFull depth = true then
      let received_flit := flit_rx i
      ({ r with
          buffer := setCell r.buffer i ((r.buffer i).Push received_flit)
          current_level_rx := setCell r.current_level_rx i (!r.current_level_rx i) },
        st.2 ++ [(i, received_flit)])
    else st
  ({ st1.1 with ack_rx := setCell st1.1.ack_rx i (st1.1.current_level_rx i) }, st1.2)

/-- `TRouter::rxProcess`: the new router state and the pushes made. -/
def rxProcess (depth : Int) (reset : Bool) (req_rx : Int → Bool) (flit_rx : Int → TFlit)
    (r : TRouter) : TRouter × List RxEvent :=
  if reset then (directionIndices.foldl rxResetBody r, [])
  else directionIndices.foldl (rxBody depth req_rx flit_rx) (r, [])

/-! ## Routing and selection dispatch (`TRouter.cpp`, lines 193-349) -/

/-- `TRouter::routingTableBased`; the routing table is not among the sources and
is the parameter `rtable`, giving for `(dir_in, destination id)` the admissible
outputs as a list. -/
def routingTableBased (p : TGlobalParams) (rtable : Int → Int → List Int)
    (dir_in : Int) (_current destination : TCoord) : Option (List Int) :=
  let ao := rtable dir_in (coord2Id p destination)
  if 0 < ao.length then some ao else none

/-- `TRouter::routingFunction`. -/
def routingFunction (p : TGlobalParams) (rtable : Int → Int → List Int)
    (route_data : TRouteData) : Option (List Int) :=
  let position := id2Coord p route_data.current_id
  let src_coord := id2Coord p route_data.src_id
  let dst_coord := id2Coord p route_data.dst_id
  let dir_in := route_data.dir_in
  match p.routing_algorithm with
  | .ROUTING_XY => some (routingXY position dst_coord)
  | .ROUTING_WEST_FIRST => some (routingWestFirst position dst_coord)
  | .ROUTING_NORTH_LAST => some (routingNorthLast position dst_coord)
  | .ROUTING_NEGATIVE_FIRST => some (routingNegativeFirst position dst_coord)
  | .ROUTING_ODD_EVEN => routingOddEven position src_coord dst_coord
  | .ROUTING_DYAD => routingDyAD position dst_coord
  | .ROUTING_FULLY_ADAPTIVE => some (routingFullyAdaptive position dst_coord)
  | .ROUTING_TABLE_BASED => routingTableBased p rtable dir_in position dst_coord

/-- `TRouter::selectionRandom`, `rnd` being the value returned by `rand()`. -/
def selectionRandom (rnd : Nat) (directions : List Int) : Option Int :=
  if directions.length = 0 then none else directions[rnd % directions.length]?

/-- `TRouter::selectionNoP`: the body left in the source is the random pick. -/
def selectionNoP (rnd : Nat) (directions : List Int) (_route_data : TRouteData) : Option Int :=
  if directions.length = 0 then none else directions[rnd % directions.length]?

/-- Body of the loop of `selectionBufferLevel`; the state is
`(max_free_positions, direction_choosen)`. -/
def bufferLevelBody (buffer_depth : Int) (buffer_level_neighbor : Int → Int)
    (reservation_table : Int → Int) (st : Int × Int) (d : Int) : Int × Int :=
  let free_positions := (buffer_depth - buffer_level_neighbor d) % 2 ^ 32
  if free_positions ≥ st.1 ∧ reservation_table d = NOT_RESERVED then (free_positions, d)
  else st

/-- `TRouter::selectionBufferLevel`. -/
def selectionBufferLevel (buffer_depth : Int) (buffer_level_neighbor : Int → Int)
    (reservation_table : Int → Int) (rnd : Nat) (directions : List Int) : Option Int :=
  if ¬ (∀ d ∈ directions, inRange d) then none
  else
    let looped := directions.foldl
      (bufferLevelBody buffer_depth buffer_level_neighbor reservation_table) (0, NOT_VALID)
    let direction_choosen : Option Int :=
      if looped.2 = NOT_VALID then
        (if directions.length = 0 then none else directions[rnd % directions.length]?)
      else some looped.2
    match direction_choosen with
    | none => none
    | some d => if d ≥ 0 then some d else none

/-- `TRouter::selectionFunction`. -/
def selectionFunction (p : TGlobalParams) (buffer_level_neighbor : Int → Int)
    (reservation_table : Int → Int) (rnd : Nat) (directions : List Int)
    (route_data : TRouteData) : Option Int :=
  if directions.length = 1 then directions[0]?
  else
    match p.selection_strategy with
    | .SEL_RANDOM => selectionRandom rnd directions
    | .SEL_BUFFER_LEVEL =>
        selectionBufferLevel p.buffer_depth buffer_level_neighbor reservation_table rnd directions
    | .SEL_NOP => selectionNoP rnd directions route_data

/-- `TRouter::route`. -/
def route (p : TGlobalParams) (rtable : Int → Int → List Int)
    (buffer_level_neighbor : Int → Int) (rnd : Nat) (r : TRouter)
    (route_data : TRouteData) : Option Int :=
  if route_data.dst_id = r.local_id then some DIRECTION_LOCAL
  else
    match routingFunction p rtable route_data with
    | none => none
    | some candidate_channels =>
        selectionFunction p buffer_level_neighbor r.reservation_table rnd
          candidate_channels route_data

/-! ## Transmit process (`TRouter.cpp`, lines 59-140) -/

/-- What `txProcess` reads in one call besides its own state: the latched `ack_tx`
and `buffer_level_neighbor` lines, and for each input direction the value `rand()`
returns if the routing of that input's head flit calls it. -/
structure TxInputs where
  ack_tx : Int → Bool
  buffer_level_neighbor : Int → Int
  rand : Int → Nat

/-- Body of the reset loop of `txProcess`. -/
def txResetBody (r : TRouter) (i : Int) : TRouter :=
  { r with
    req_tx := setCell r.req_tx i false
    current_level_tx := setCell r.current_level_tx i false }

/-- Lines 94-112: choice of `dest` for the flit at the front of buffer `i`, with
the reservation made for a head flit. `none` when `route` fails or `dest` is
not one of the five cells. -/
def txReserve (p : TGlobalParams) (rtable : Int → Int → List Int) (inp : TxInputs)
    (r : TRouter) (i : Int) (flit : TFlit) : Option (TRouter × Int) :=
  if flit.flit_type = FlitType.FLIT_TYPE_HEAD then
    let route_data : TRouteData :=
      { current_id := r.local_id, src_id := flit.src_id, dst_id := flit.dst_id, dir_in := i }
    match route p rtable inp.buffer_level_neighbor (inp.rand i) r route_data with
    | none => none
    | some dest =>
        if ¬ inRange dest then none
        else if r.reservation_table dest = NOT_RESERVED then
          some ({ r with
                  short_circuit := setCell r.short_circuit i dest
                  reservation_table := setCell r.reservation_table dest i }, dest)
        else some (r, dest)
  else
    if inRange (r.short_circuit i) then some (r, r.short_circuit i) else none

/-- Lines 114-134: the flit is sent when the output is reserved by input `i` and the
previous transfer on the link is acknowledged. The statistics call for a flit sent
to LOCAL changes nothing in the router and is left out. -/
def txForward (inp : TxInputs) (st : TRouter × List TxEvent) (i : Int) (flit : TFlit)
    (dest : Int) : TRouter × List TxEvent :=
  let r := st.1
  if r.reservation_table dest = i then
    if r.current_level_tx dest = inp.ack_tx dest then
      let r1 : TRouter :=
        { r with
          flit_tx := setCell r.flit_tx dest flit
          current_level_tx := setCell r.current_level_tx dest (!r.current_level_tx dest)
          req_tx := setCell r.req_tx dest (!r.current_level_tx dest)
          buffer := setCell r.buffer i (r.buffer i).Pop }
      let r2 : TRouter :=
        if flit.flit_type = FlitType.FLIT_TYPE_TAIL then
          { r1 with
            reservation_table := setCell r1.reservation_table (r1.short_circuit i) NOT_RESERVED }
        else r1
      (r2, st.2 ++ [(i, dest, flit)])
    else st
  else st

/-- Body of the transmitting loop of `txProcess` for input direction `i`. -/
def txBody (p : TGlobalParams) (rtable : Int → Int → List Int) (inp : TxInputs)
    (st : TRouter × List TxEvent) (i : Int) : Option (TRouter × List TxEvent) :=
  if (st.1.buffer i).IsEmpty then some st
  else
    match (st.1.buffer i).Front with
    | none => some st
    | some flit =>
        match txReserve p rtable inp st.1 i flit with
        | none => none
        | some (r1, dest) => some (txForward inp (r1, st.2) i flit dest)

/-- The transmitting loop over a list of input directions. -/
def txLoop (p : TGlobalParams) (rtable : Int → Int → List Int) (inp : TxInputs) :
    List Int → TRouter × List TxEvent → Option (TRouter × List TxEvent)
  | [], st => some st
  | i :: rest, st =>
      match txBody p rtable inp st i with
      | none => none
      | some st1 => txLoop p rtable inp rest st1

/-- The order `(start_from_direction + j) % (DIRECTIONS + 1)`, `j = 0 .. 4`, in which
`txProcess` visits the inputs. The static counter starts at 0 and is only
incremented, so it is a natural number. -/
def txOrder (start_from_direction : Nat) : List Int :=
  (List.range 5).map (fun j => (((start_from_direction + j) % 5 : Nat) : Int))

/-- `TRouter::txProcess`: the new router state, the flits sent and the new value of
the static `start_from_direction`. -/
def txProcess (p : TGlobalParams) (rtable : Int → Int → List Int) (reset : Bool)
    (inp : TxInputs) (start_from_direction : Nat) (r : TRouter) :
    Option (TRouter × List TxEvent × Nat) :=
  if reset then some (directionIndices.foldl txResetBody r, [], start_from_direction)
  else
    match txLoop p rtable inp (txOrder start_from_direction) (r, []) with
    | none => none
    | some (r1, sent) => some (r1, sent, start_from_direction + 1)

/-! ## Derived notions used to state the routing results -/

/-- A non-empty list of external directions, none of them LOCAL. -/
def goodDirections (l : List Int) : Prop :=
  l ≠ [] ∧ ∀ d ∈ l, isExternal d ∧ d ≠ DIRECTION_LOCAL

/-- Moving from the in-mesh coordinate `c` in direction `d` stays inside the mesh. -/
def pointsInside (p : TGlobalParams) (c : TCoord) (d : Int) : Prop :=
  (d = DIRECTION_NORTH ∧ 0 < c.y) ∨ (d = DIRECTION_SOUTH ∧ c.y + 1 < p.mesh_dim_y) ∨
  (d = DIRECTION_EAST ∧ c.x + 1 < p.mesh_dim_x) ∨ (d = DIRECTION_WEST ∧ 0 < c.x)

/-- The tile reached from `cur` in direction `d` exists: `getNeighborId` returns an
id, not NOT_VALID. -/
def neighbourValid (p : TGlobalParams) (cur : TCoord) (d : Int) : Prop :=
  ∃ n, getNeighborId p (coord2Id p cur) d = some n ∧ n ≠ NOT_VALID

/-- The XY walk of a flit from tile `cur` to tile `dst`: while the tile is not the
destination (`route` returns LOCAL there), take the single direction given by
`routingXY` and move to the tile `getNeighborId` gives. The result lists each hop as
(direction taken, tile reached); `none` when the walk leaves the mesh, a direction
is not unique, or the fuel runs out before the destination. -/
def xyWalk (p : TGlobalParams) : Nat → Int → Int → Option (List (Int × Int))
  | 0, cur, dst => if cur = dst then some [] else none
  | fuel + 1, cur, dst =>
      if cur = dst then some []
      else
        match routingXY (id2Coord p cur) (id2Coord p dst) with
        | [d] =>
            match getNeighborId p cur d with
            | some n =>
                if n = NOT_VALID then none
                else (xyWalk p fuel n dst).map (fun hops => (d, n) :: hops)
            | none => none
        | _ => none

/-- What the XY walk from `src` yields: the hops, their directions (x first,
then y), the tiles all inside the mesh, the last tile being the destination. -/
def xyWalkResult (p : TGlobalParams) (src dst : TCoord) (hops : List (Int × Int)) : Prop :=
  hops.map Prod.fst =
      List.replicate (dst.x - src.x).natAbs
          (if dst.x > src.x then DIRECTION_EAST else DIRECTION_WEST) ++
        List.replicate (dst.y - src.y).natAbs
          (if dst.y > src.y then DIRECTION_SOUTH else DIRECTION_NORTH) ∧
    (∀ h ∈ hops, ∃ c, inMesh p c ∧ h.2 = coord2Id p c) ∧
    (hops.getLast?.map Prod.snd).getD (coord2Id p src) = coord2Id p dst

/-! ## Sample configurations and states used in the examples -/

/-- A router at tile `local_id` with empty buffers, nothing reserved and all levels
and lines low. -/
def idleRouter (local_id : Int) : TRouter :=
  { local_id := local_id
    buffer := fun _ => []
    current_level_rx := fun _ => false
    current_level_tx := fun _ => false
    reservation_table := fun _ => NOT_RESERVED
    short_circuit := fun _ => 0
    ack_rx := fun _ => false
    req_tx := fun _ => false
    flit_tx := fun _ => ⟨0, 0, FlitType.FLIT_TYPE_HEAD, 0⟩ }

/-- A 3×3 mesh with XY routing and random selection, buffers of depth 4. -/
def mesh3xy : TGlobalParams :=
  { mesh_dim_x := 3, mesh_dim_y := 3, buffer_depth := 4
    routing_algorithm := RoutingAlgorithm.ROUTING_XY
    selection_strategy := SelectionStrategy.SEL_RANDOM }

/-- No routing table (the routing is not table based). -/
def noTable : Int → Int → List Int := fun _ _ => []

/-- Transmit inputs with every `ack_tx` line low. -/
def quietTx : TxInputs :=
  { ack_tx := fun _ => false, buffer_level_neighbor := fun _ => 0, rand := fun _ => 0 }

/-- The centre router (tile 4) of the 3×3 mesh with a tail flit for tile 5 at the
front of the WEST input, whose worm holds output EAST, and a head flit for
tile 5 at the front of the LOCAL input. -/
def handoverRouter : TRouter :=
  { idleRouter 4 with
    buffer := fun k =>
      if k = DIRECTION_WEST then [⟨3, 5, FlitType.FLIT_TYPE_TAIL, 7⟩]
      else if k = DIRECTION_LOCAL then [⟨4, 5, FlitType.FLIT_TYPE_HEAD, 8⟩]
      else []
    reservation_table := fun k => if k = DIRECTION_EAST then DIRECTION_WEST else NOT_RESERVED
    short_circuit := fun k => if k = DIRECTION_WEST then DIRECTION_EAST else 0 }

/-! ## Notions used to state the results on the receive and transmit processes -/

/-- The acceptance test of `rxProcess` for input direction `i`. -/
def rxAccepts (depth : Int) (req_rx : Int → Bool) (r : TRouter) (i : Int) : Prop :=
  req_rx i = (!r.current_level_rx i) ∧ ¬ (r.buffer i).IsFull depth = true

instance (depth : Int) (req_rx : Int → Bool) (r : TRouter) (i : Int) :
    Decidable (rxAccepts depth req_rx r i) := by
  unfold rxAccepts; infer_instance

/-- The pushes into buffer `i` recorded in a list of receive events. -/
def pushedInto (i : Int) (evs : List RxEvent) : List TFlit :=
  (evs.filter (fun e => decide (e.1 = i))).map Prod.snd

/-- The flits written on output `d` recorded in a list of transmit events. -/
def sentOn (d : Int) (evs : List TxEvent) : List TFlit :=
  (evs.filter (fun e => decide (e.2.1 = d))).map (fun e => e.2.2)

/-- The flits taken from input buffer `i` recorded in a list of transmit events. -/
def takenFrom (i : Int) (evs : List TxEvent) : List TFlit :=
  (evs.filter (fun e => decide (e.1 = i))).map (fun e => e.2.2)

/-- The state after the write of `flit` on output `dest` in `txForward`. -/
def txSent (st : TRouter × List TxEvent) (i : Int) (flit : TFlit) (dest : Int) :
    TRouter × List TxEvent :=
  ({ st.1 with
      flit_tx := setCell st.1.flit_tx dest flit
      current_level_tx := setCell st.1.current_level_tx dest (!st.1.current_level_tx dest)
      req_tx := setCell st.1.req_tx dest (!st.1.current_level_tx dest)
      buffer := setCell st.1.buffer i (st.1.buffer i).Pop
      reservation_table :=
        if flit.flit_type = FlitType.FLIT_TYPE_TAIL then
          setCell st.1.reservation_table (st.1.short_circuit i) NOT_RESERVED
        else st.1.reservation_table },
    st.2 ++ [(i, dest, flit)])

/-- Effect of one loop body on output port `d`: nothing, or one write. -/
def linkEffect (inp : TxInputs) (d : Int) (st st1 : TRouter × List TxEvent) : Prop :=
  (sentOn d st1.2 = sentOn d st.2 ∧ st1.1.current_level_tx d = st.1.current_level_tx d ∧
    st1.1.req_tx d = st.1.req_tx d ∧ st1.1.flit_tx d = st.1.flit_tx d) ∨
  (∃ f, st.1.current_level_tx d = inp.ack_tx d ∧ sentOn d st1.2 = sentOn d st.2 ++ [f] ∧
    st1.1.current_level_tx d = (!st.1.current_level_tx d) ∧
    st1.1.req_tx d = (!st.1.current_level_tx d) ∧ st1.1.flit_tx d = f)

/-- Effect of one loop body on input buffer `k`: nothing, or one pop of the front. -/
def inputEffect (k : Int) (st st1 : TRouter × List TxEvent) : Prop :=
  (st1.1.buffer k = st.1.buffer k ∧ takenFrom k st1.2 = takenFrom k st.2) ∨
  (∃ f, (st.1.buffer k).Front = some f ∧ st1.1.buffer k = (st.1.buffer k).Pop ∧
    takenFrom k st1.2 = takenFrom k st.2 ++ [f])

/-- Effect of one loop body for input `i` on the reservation of output `d`: nothing,
a new reservation of a free output by `i`, or the release by a tail flit of `i`
sent through `d`. -/
def reservationEffect (d i : Int) (st st1 : TRouter × List TxEvent) : Prop :=
  st1.1.reservation_table d = st.1.reservation_table d ∨
  (st.1.reservation_table d = NOT_RESERVED ∧ st1.1.reservation_table d = i) ∨
  (st.1.reservation_table d = i ∧ st1.1.reservation_table d = NOT_RESERVED ∧
    ∃ f, f.flit_type = FlitType.FLIT_TYPE_TAIL ∧ (st.1.buffer i).Front = some f ∧
      st1.2 = st.2 ++ [(i, d, f)])

/-! ## A directed link between two routers -/

/-- The state of a router after a cycle with reset high: the reset branches of
`rxProcess` and `txProcess`. -/
def resetRouter (r : TRouter) : TRouter :=
  directionIndices.foldl txResetBody (directionIndices.foldl rxResetBody r)

/-- What the surroundings drive during one cycle on the two routers of a link: for
the transmitting router its receive lines, its transmit inputs and the value of the
static `start_from_direction` at its call of `txProcess`; the same for the receiving
router. The counter is shared by all the routers of the mesh, so its value at each
call is left free. The lines of the link itself are not taken from here. -/
structure LinkCycle where
  t_req_rx : Int → Bool
  t_flit_rx : Int → TFlit
  t_inputs : TxInputs
  t_start : Nat
  r_req_rx : Int → Bool
  r_flit_rx : Int → TFlit
  r_inputs : TxInputs
  r_start : Nat

/-- Output `d` of the transmitting router is wired to input `i` of the receiving
router. `written` lists the flits the transmitter wrote on the link, `pushed` those
the receiver pushed into `buffer[i]`, oldest first. -/
structure LinkState where
  transmitter : TRouter
  receiver : TRouter
  written : List TFlit
  pushed : List TFlit

/-- One clock cycle with reset low. Every line is latched: the receiver reads the
`req` and `flit` values the transmitter had written before this cycle, and the
transmitter reads the `ack` value the receiver had written before this cycle. All
routers run `rxProcess`, then `txProcess`. -/
def linkCycle (p : TGlobalParams) (ttable rtable : Int → Int → List Int) (d i : Int)
    (e : LinkCycle) (s : LinkState) : Option LinkState :=
  let t1 := rxProcess p.buffer_depth false e.t_req_rx e.t_flit_rx s.transmitter
  let r1 := rxProcess p.buffer_depth false
    (setCell e.r_req_rx i (s.transmitter.req_tx d))
    (setCell e.r_flit_rx i (s.transmitter.flit_tx d)) s.receiver
  let t_in : TxInputs :=
    { e.t_inputs with ack_tx := setCell e.t_inputs.ack_tx d (s.receiver.ack_rx i) }
  match txProcess p ttable false t_in e.t_start t1.1 with
  | none => none
  | some (t2, sent, _) =>
      match txProcess p rtable false e.r_inputs e.r_start r1.1 with
      | none => none
      | some (r2, _, _) =>
          some { transmitter := t2
                 receiver := r2
                 written := s.written ++ sentOn d sent
                 pushed := s.pushed ++ pushedInto i r1.2 }

/-- A run of cycles, one `LinkCycle` per cycle. -/
def linkRun (p : TGlobalParams) (ttable rtable : Int → Int → List Int) (d i : Int) :
    List LinkCycle → LinkState → Option LinkState
  | [], s => some s
  | e :: es, s =>
      match linkCycle p ttable rtable d i e s with
      | none => none
      | some s1 => linkRun p ttable rtable d i es s1

/-- Both sides just out of reset, nothing written or pushed yet. -/
def linkReset (t r : TRouter) : LinkState :=
  { transmitter := resetRouter t, receiver := resetRouter r, written := [], pushed := [] }

/-- The link invariant: `req` and `ack` carry the two levels, and either the levels
agree and everything written has been pushed, or they differ and exactly the flit on
the `flit` line is still to be pushed. -/
def linkInv (d i : Int) (s : LinkState) : Prop :=
  s.transmitter.req_tx d = s.transmitter.current_level_tx d ∧
  s.receiver.ack_rx i = s.receiver.current_level_rx i ∧
  ((s.transmitter.current_level_tx d = s.receiver.current_level_rx i ∧
      s.written = s.pushed) ∨
   (s.transmitter.current_level_tx d = (!s.receiver.current_level_rx i) ∧
      s.written = s.pushed ++ [s.transmitter.flit_tx d]))

/-- A head flit from tile 3 to tile 5. -/
def headTo5 : TFlit := ⟨3, 5, FlitType.FLIT_TYPE_HEAD, 1⟩

/-- A cycle of the link from tile 3 (output EAST) to tile 4 (input WEST) of the 3×3
mesh in which the processing element of tile 3 holds `headTo5` with `req` high on
the LOCAL input, every other line being low. -/
def injectCycle : LinkCycle :=
  { t_req_rx := fun k => decide (k = DIRECTION_LOCAL)
    t_flit_rx := fun _ => headTo5
    t_inputs := quietTx
    t_start := 0
    r_req_rx := fun _ => false
    r_flit_rx := fun _ => headTo5
    r_inputs := quietTx
    r_start := 1 }

/-! ## Runs of one router -/

/-- What the surroundings drive on a router during one cycle: its receive lines, its
transmit inputs, and the value of the static `start_from_direction` at its call of
`txProcess` (the counter is shared by all the routers of the mesh). -/
structure RouterCycle where
  req_rx : Int → Bool
  flit_rx : Int → TFlit
  tx : TxInputs
  start : Nat

/-- One clock cycle of a router with reset low: `rxProcess`, then `txProcess`. The
second component accumulates the flits sent since reset. -/
def routerCycle (p : TGlobalParams) (table : Int → Int → List Int) (e : RouterCycle)
    (st : TRouter × List TxEvent) : Option (TRouter × List TxEvent) :=
  let r1 := rxProcess p.buffer_depth false e.req_rx e.flit_rx st.1
  match txProcess p table false e.tx e.start r1.1 with
  | none => none
  | some (r2, sent, _) => some (r2, st.2 ++ sent)

/-- A run of cycles of a router. -/
def routerRun (p : TGlobalParams) (table : Int → Int → List Int) :
    List RouterCycle → TRouter × List TxEvent → Option (TRouter × List TxEvent)
  | [], st => some st
  | e :: es, st =>
      match routerCycle p table e st with
      | none => none
      | some st1 => routerRun p table es st1

/-- A 3×3 mesh with fully adaptive routing and random selection, buffers of depth 4. -/
def mesh3adaptive : TGlobalParams :=
  { mesh_dim_x := 3, mesh_dim_y := 3, buffer_depth := 4
    routing_algorithm := RoutingAlgorithm.ROUTING_FULLY_ADAPTIVE
    selection_strategy := SelectionStrategy.SEL_RANDOM }

/-- Packet A, from tile 1 to tile 5: enters the centre router (tile 4) on input
NORTH and leaves through EAST. -/
def flitAH : TFlit := ⟨1, 5, FlitType.FLIT_TYPE_HEAD, 10⟩

/-- Tail of packet A. -/
def flitAT : TFlit := ⟨1, 5, FlitType.FLIT_TYPE_TAIL, 11⟩

/-- Packet B, from tile 3 to tile 7: enters on input WEST and leaves through SOUTH. -/
def flitBH : TFlit := ⟨3, 7, FlitType.FLIT_TYPE_HEAD, 20⟩

/-- Tail of packet B. -/
def flitBT : TFlit := ⟨3, 7, FlitType.FLIT_TYPE_TAIL, 21⟩

/-- Packet C, from tile 4 to tile 8: enters on input LOCAL; SOUTH and EAST are both
admissible. -/
def flitCH : TFlit := ⟨4, 8, FlitType.FLIT_TYPE_HEAD, 30⟩

/-- Tail of packet C. -/
def flitCT : TFlit := ⟨4, 8, FlitType.FLIT_TYPE_TAIL, 31⟩

/-- Packet D, from tile 4 to tile 5: enters on input LOCAL; only EAST is admissible. -/
def flitDH : TFlit := ⟨4, 5, FlitType.FLIT_TYPE_HEAD, 40⟩

/-- Tail of packet D. -/
def flitDT : TFlit := ⟨4, 5, FlitType.FLIT_TYPE_TAIL, 41⟩

/-- A cycle given by the levels of the `req` lines and the flits on inputs NORTH,
WEST and LOCAL, the levels of the `ack` lines of outputs EAST and SOUTH, the value
`rand()` returns, and the value of `start_from_direction`. All other lines are low. -/
def cycleOf (reqN : Bool) (flitN : TFlit) (reqW : Bool) (flitW : TFlit) (reqL : Bool)
    (flitL : TFlit) (ackE ackS : Bool) (rnd : Nat) (start : Nat) : RouterCycle :=
  { req_rx := fun k =>
      if k = DIRECTION_NORTH then reqN else if k = DIRECTION_WEST then reqW
      else if k = DIRECTION_LOCAL then reqL else false
    flit_rx := fun k =>
      if k = DIRECTION_NORTH then flitN else if k = DIRECTION_WEST then flitW else flitL
    tx :=
      { ack_tx := fun k =>
          if k = DIRECTION_EAST then ackE else if k = DIRECTION_SOUTH then ackS else false
        buffer_level_neighbor := fun _ => 0
        rand := fun _ => rnd }
    start := start }

/-- Six cycles of the centre router of the 3×3 mesh after reset. Packets A and B
cross the router towards EAST and SOUTH; every neighbour acknowledges each flit in
the cycle after it appears on its lines, and sends its next flit in the cycle after
it sees the acknowledge. Packet C arrives at LOCAL in the third cycle. The counter
`start_from_direction` advances by 9 per cycle (nine routers). -/
def splitWormRun : List RouterCycle :=
  [ cycleOf true flitAH true flitBH false flitCH false false 0 22,
    cycleOf true flitAH true flitBH false flitCH false false 0 31,
    cycleOf false flitAT false flitBT true flitCH true true 1 40,
    cycleOf false flitAT false flitBT true flitCH true true 0 49,
    cycleOf false flitAT false flitBT false flitCT false false 1 58,
    cycleOf false flitAT false flitBT false flitCT false false 0 67 ]

/-- Seven cycles of the centre router of the 3×3 mesh after reset. Packet A crosses
towards EAST; packets C and then D arrive at LOCAL. Same timing of the neighbours as
in `splitWormRun`. -/
def staleReservationRun : List RouterCycle :=
  [ cycleOf true flitAH false flitBH false flitCH false false 0 22,
    cycleOf true flitAH false flitBH false flitCH false false 0 31,
    cycleOf false flitAT false flitBH true flitCH true false 1 40,
    cycleOf false flitAT false flitBH true flitCH true false 0 49,
    cycleOf false flitAT false flitBH false flitCT false false 0 58,
    cycleOf false flitAT false flitBH false flitCT false true 0 67,
    cycleOf false flitAT false flitBH true flitDH false true 0 76 ]

/-! ## Notions used to state the results on routing dispatch and selection -/

/-- The routing algorithms computed from coordinates: all but DyAD (not implemented)
and the table-based one. -/
def coordinateBased : RoutingAlgorithm → Bool
  | .ROUTING_XY => true
  | .ROUTING_WEST_FIRST => true
  | .ROUTING_NORTH_LAST => true
  | .ROUTING_NEGATIVE_FIRST => true
  | .ROUTING_ODD_EVEN => true
  | .ROUTING_DYAD => false
  | .ROUTING_FULLY_ADAPTIVE => true
  | .ROUTING_TABLE_BASED => false

/-- The value `free_positions` that `selectionBufferLevel` computes for candidate
`d`, an `unsigned int`. -/
def freePositions (buffer_depth : Int) (buffer_level_neighbor : Int → Int) (d : Int) : Int :=
  (buffer_depth - buffer_level_neighbor d) % 2 ^ 32

/-- A 3×3 mesh with fully adaptive routing and buffer-level selection, buffers of
depth 4. -/
def mesh3level : TGlobalParams :=
  { mesh_dim_x := 3, mesh_dim_y := 3, buffer_depth := 4
    routing_algorithm := RoutingAlgorithm.ROUTING_FULLY_ADAPTIVE
    selection_strategy := SelectionStrategy.SEL_BUFFER_LEVEL }

/-- A 4×3 mesh with Odd-Even routing and random selection, buffers of depth 4. -/
def mesh4oddEven : TGlobalParams :=
  { mesh_dim_x := 4, mesh_dim_y := 3, buffer_depth := 4
    routing_algorithm := RoutingAlgorithm.ROUTING_ODD_EVEN
    selection_strategy := SelectionStrategy.SEL_RANDOM }

/-- The Manhattan distance between two coordinates. -/
def manhattan (a b : TCoord) : Nat := (b.x - a.x).natAbs + (b.y - a.y).natAbs

/-- A 3×1 mesh with Odd-Even routing and random selection, buffers of depth 4. -/
def mesh3x1oddEven : TGlobalParams :=
  { mesh_dim_x := 3, mesh_dim_y := 1, buffer_depth := 4
    routing_algorithm := RoutingAlgorithm.ROUTING_ODD_EVEN
    selection_strategy := SelectionStrategy.SEL_RANDOM }

/-- A head flit from tile 2 to tile 0. -/
def flitWestbound : TFlit := ⟨2, 0, FlitType.FLIT_TYPE_HEAD, 50⟩

/-- One cycle of router 2 of the 3×1 mesh after reset: its processing element holds
`flitWestbound` with `req` high on the LOCAL input, every `ack` line is low, `rand()`
returns 1, and `start_from_direction` is 2 (third of three routers). -/
def westboundRun : List RouterCycle :=
  [ cycleOf false flitWestbound false flitWestbound true flitWestbound false false 1 2 ]

/-! ## The transmit phase of a whole mesh -/

/-- The calls of `txProcess` made in one clock cycle with reset low, one per router
of the mesh, in the order of the list. `start_from_direction` is a static variable of
the function, so every call reads the value left by the previous call, whichever
router made it. For each router the result gives its new state, the flits it sent and
the value of `start_from_direction` from which its call scanned the inputs; the last
component is the value left for the next cycle. -/
def meshTxPhase (p : TGlobalParams) (table : Int → Int → List Int) :
    List (TxInputs × TRouter) → Nat → Option (List (TRouter × List TxEvent × Nat) × Nat)
  | [], start_from_direction => some ([], start_from_direction)
  | (inp, r) :: rest, start_from_direction =>
      match txProcess p table false inp start_from_direction r with
      | none => none
      | some (r1, sent, next) =>
          match meshTxPhase p table rest next with
          | none => none
          | some (out, last) => some ((r1, sent, start_from_direction) :: out, last)

/-- The input direction a call of `txProcess` visits first: `i` for `j = 0`. -/
def firstScanned (start_from_direction : Nat) : Int :=
  ((start_from_direction % 5 : Nat) : Int)

/-- A 5×1 mesh with XY routing and random selection, buffers of depth 4. -/
def mesh5x1 : TGlobalParams :=
  { mesh_dim_x := 5, mesh_dim_y := 1, buffer_depth := 4
    routing_algorithm := RoutingAlgorithm.ROUTING_XY
    selection_strategy := SelectionStrategy.SEL_RANDOM }

/-- The five routers of the 5×1 mesh, idle, with quiet inputs. -/
def fiveRouters : List (TxInputs × TRouter) :=
  [(quietTx, idleRouter 0), (quietTx, idleRouter 1), (quietTx, idleRouter 2),
   (quietTx, idleRouter 3), (quietTx, idleRouter 4)]

/-! ## Mesh assembly (`TNoC.cpp`, lines 13-147) -/

/-- The five groups of channel arrays declared for the mesh. -/
inductive Signal where
  | req
  | flit
  | ack
  | buffer_level
  | NoP_data
deriving DecidableEq, Repr

/-- One channel of the mesh: the element `[i][j]` of the array `<signal>_to_<toward>`,
for instance `req_to_south[i][j]` is `⟨Signal.req, DIRECTION_SOUTH, i, j⟩`. -/
structure Channel where
  signal : Signal
  toward : Int
  i : Int
  j : Int
deriving DecidableEq, Repr

/-- Lines 48-62, `req_rx[d]` of tile `t[i][j]`. -/
def req_rx_channel (i j d : Int) : Option Channel :=
  if d = DIRECTION_NORTH then some ⟨Signal.req, DIRECTION_SOUTH, i, j⟩
  else if d = DIRECTION_EAST then some ⟨Signal.req, DIRECTION_WEST, i + 1, j⟩
  else if d = DIRECTION_SOUTH then some ⟨Signal.req, DIRECTION_NORTH, i, j + 1⟩
  else if d = DIRECTION_WEST then some ⟨Signal.req, DIRECTION_EAST, i, j⟩
  else none

/-- Lines 48-62, `flit_rx[d]` of tile `t[i][j]`. -/
def flit_rx_channel (i j d : Int) : Option Channel :=
  if d = DIRECTION_NORTH then some ⟨Signal.flit, DIRECTION_SOUTH, i, j⟩
  else if d = DIRECTION_EAST then some ⟨Signal.flit, DIRECTION_WEST, i + 1, j⟩
  else if d = DIRECTION_SOUTH then some ⟨Signal.flit, DIRECTION_NORTH, i, j + 1⟩
  else if d = DIRECTION_WEST then some ⟨Signal.flit, DIRECTION_EAST, i, j⟩
  else none

/-- Lines 48-62, `ack_rx[d]` of tile `t[i][j]`. -/
def ack_rx_channel (i j d : Int) : Option Channel :=
  if d = DIRECTION_NORTH then some ⟨Signal.ack, DIRECTION_NORTH, i, j⟩
  else if d = DIRECTION_EAST then some ⟨Signal.ack, DIRECTION_EAST, i + 1, j⟩
  else if d = DIRECTION_SOUTH then some ⟨Signal.ack, DIRECTION_SOUTH, i, j + 1⟩
  else if d = DIRECTION_WEST then some ⟨Signal.ack, DIRECTION_WEST, i, j⟩
  else none

/-- Lines 65-79, `req_tx[d]` of tile `t[i][j]`. -/
def req_tx_channel (i j d : Int) : Option Channel :=
  if d = DIRECTION_NORTH then some ⟨Signal.req, DIRECTION_NORTH, i, j⟩
  else if d = DIRECTION_EAST then some ⟨Signal.req, DIRECTION_EAST, i + 1, j⟩
  else if d = DIRECTION_SOUTH then some ⟨Signal.req, DIRECTION_SOUTH, i, j + 1⟩
  else if d = DIRECTION_WEST then some ⟨Signal.req, DIRECTION_WEST, i, j⟩
  else none

/-- Lines 65-79, `flit_tx[d]` of tile `t[i][j]`. -/
def flit_tx_channel (i j d : Int) : Option Channel :=
  if d = DIRECTION_NORTH then some ⟨Signal.flit, DIRECTION_NORTH, i, j⟩
  else if d = DIRECTION_EAST then some ⟨Signal.flit, DIRECTION_EAST, i + 1, j⟩
  else if d = DIRECTION_SOUTH then some ⟨Signal.flit, DIRECTION_SOUTH, i, j + 1⟩
  else if d = DIRECTION_WEST then some ⟨Signal.flit, DIRECTION_WEST, i, j⟩
  else none

/-- Lines 65-79, `ack_tx[d]` of tile `t[i][j]`. -/
def ack_tx_channel (i j d : Int) : Option Channel :=
  if d = DIRECTION_NORTH then some ⟨Signal.ack, DIRECTION_SOUTH, i, j⟩
  else if d = DIRECTION_EAST then some ⟨Signal.ack, DIRECTION_WEST, i + 1, j⟩
  else if d = DIRECTION_SOUTH then some ⟨Signal.ack, DIRECTION_NORTH, i, j + 1⟩
  else if d = DIRECTION_WEST then some ⟨Signal.ack, DIRECTION_EAST, i, j⟩
  else none

/-- Lines 82-85, `buffer_level[d]` of tile `t[i][j]`. -/
def buffer_level_channel (i j d : Int) : Option Channel :=
  if d = DIRECTION_NORTH then some ⟨Signal.buffer_level, DIRECTION_NORTH, i, j⟩
  else if d = DIRECTION_EAST then some ⟨Signal.buffer_level, DIRECTION_EAST, i + 1, j⟩
  else if d = DIRECTION_SOUTH then some ⟨Signal.buffer_level, DIRECTION_SOUTH, i, j + 1⟩
  else if d = DIRECTION_WEST then some ⟨Signal.buffer_level, DIRECTION_WEST, i, j⟩
  else none

/-- Lines 87-90, `buffer_level_neighbor[d]` of tile `t[i][j]`. -/
def buffer_level_neighbor_channel (i j d : Int) : Option Channel :=
  if d = DIRECTION_NORTH then some ⟨Signal.buffer_level, DIRECTION_SOUTH, i, j⟩
  else if d = DIRECTION_EAST then some ⟨Signal.buffer_level, DIRECTION_WEST, i + 1, j⟩
  else if d = DIRECTION_SOUTH then some ⟨Signal.buffer_level, DIRECTION_NORTH, i, j + 1⟩
  else if d = DIRECTION_WEST then some ⟨Signal.buffer_level, DIRECTION_EAST, i, j⟩
  else none

/-- Lines 94-97, `NoP_data_out[d]` of tile `t[i][j]`. -/
def NoP_data_out_channel (i j d : Int) : Option Channel :=
  if d = DIRECTION_NORTH then some ⟨Signal.NoP_data, DIRECTION_NORTH, i, j⟩
  else if d = DIRECTION_EAST then some ⟨Signal.NoP_data, DIRECTION_EAST, i + 1, j⟩
  else if d = DIRECTION_SOUTH then some ⟨Signal.NoP_data, DIRECTION_SOUTH, i, j + 1⟩
  else if d = DIRECTION_WEST then some ⟨Signal.NoP_data, DIRECTION_WEST, i, j⟩
  else none

/-- Lines 99-102, `NoP_data_in[d]` of tile `t[i][j]`. -/
def NoP_data_in_channel (i j d : Int) : Option Channel :=
  if d = DIRECTION_NORTH then some ⟨Signal.NoP_data, DIRECTION_SOUTH, i, j⟩
  else if d = DIRECTION_EAST then some ⟨Signal.NoP_data, DIRECTION_WEST, i + 1, j⟩
  else if d = DIRECTION_SOUTH then some ⟨Signal.NoP_data, DIRECTION_NORTH, i, j + 1⟩
  else if d = DIRECTION_WEST then some ⟨Signal.NoP_data, DIRECTION_EAST, i, j⟩
  else none

/-- Modelled from the spec: the port declarations of a tile are not among the
sources. The transmitter drives `req` and `flit`, the receiver drives `ack`,
`buffer_level` and `NoP_data`: these five port arrays write their channel, the other
five read it. -/
inductive OutPort where
  | req_tx
  | flit_tx
  | ack_rx
  | buffer_level
  | NoP_data_out
deriving DecidableEq, Repr

/-- The channel bound to the writing port `port[d]` of tile `t[i][j]`. -/
def outChannel (port : OutPort) (i j d : Int) : Option Channel :=
  match port with
  | .req_tx => req_tx_channel i j d
  | .flit_tx => flit_tx_channel i j d
  | .ack_rx => ack_rx_channel i j d
  | .buffer_level => buffer_level_channel i j d
  | .NoP_data_out => NoP_data_out_channel i j d

/-- Modelled from the spec: `reflexDirection` is not among the sources; the reflex of
NORTH is SOUTH, of EAST is WEST, and vice versa. -/
def reflexDirection (d : Int) : Int :=
  if d = DIRECTION_NORTH then DIRECTION_SOUTH
  else if d = DIRECTION_EAST then DIRECTION_WEST
  else if d = DIRECTION_SOUTH then DIRECTION_NORTH
  else if d = DIRECTION_WEST then DIRECTION_EAST
  else NOT_VALID

/-- The values `0 .. n` of a loop `for (k = 0; k <= n; k++)`. -/
def upTo (n : Int) : List Int := (List.range (n + 1).toNat).map (fun k => (k : Int))

/-- Lines 119-145: the channels assigned 0 by the two loops "Clear the inputs on the
borders" (`req`, `ack` and `buffer_level` lines). -/
def zeroedChannels (p : TGlobalParams) : List Channel :=
  (upTo p.mesh_dim_x).flatMap (fun i =>
    [⟨Signal.req, DIRECTION_SOUTH, i, 0⟩,
     ⟨Signal.ack, DIRECTION_NORTH, i, 0⟩,
     ⟨Signal.req, DIRECTION_NORTH, i, p.mesh_dim_y⟩,
     ⟨Signal.ack, DIRECTION_SOUTH, i, p.mesh_dim_y⟩,
     ⟨Signal.buffer_level, DIRECTION_SOUTH, i, 0⟩,
     ⟨Signal.buffer_level, DIRECTION_NORTH, i, p.mesh_dim_y⟩]) ++
  (upTo p.mesh_dim_y).flatMap (fun j =>
    [⟨Signal.req, DIRECTION_EAST, 0, j⟩,
     ⟨Signal.ack, DIRECTION_WEST, 0, j⟩,
     ⟨Signal.req, DIRECTION_WEST, p.mesh_dim_x, j⟩,
     ⟨Signal.ack, DIRECTION_EAST, p.mesh_dim_x, j⟩,
     ⟨Signal.buffer_level, DIRECTION_EAST, 0, j⟩,
     ⟨Signal.buffer_level, DIRECTION_WEST, p.mesh_dim_x, j⟩])

/-- Lines 119-145: the channels on which the same two loops write `tmp_NoP`, the
record with sender NOT_VALID and every channel status at level 0, not available. -/
def emptyNoPChannels (p : TGlobalParams) : List Channel :=
  (upTo p.mesh_dim_x).flatMap (fun i =>
    [⟨Signal.NoP_data, DIRECTION_SOUTH, i, 0⟩,
     ⟨Signal.NoP_data, DIRECTION_NORTH, i, p.mesh_dim_y⟩]) ++
  (upTo p.mesh_dim_y).flatMap (fun j =>
    [⟨Signal.NoP_data, DIRECTION_EAST, 0, j⟩,
     ⟨Signal.NoP_data, DIRECTION_WEST, p.mesh_dim_x, j⟩])

/-- A 2×2 mesh with XY routing and random selection, buffers of depth 4. -/
def mesh2x2 : TGlobalParams :=
  { mesh_dim_x := 2, mesh_dim_y := 2, buffer_depth := 4
    routing_algorithm := RoutingAlgorithm.ROUTING_XY
    selection_strategy := SelectionStrategy.SEL_RANDOM }

/-- The group of channel arrays a writing port array is bound to. -/
def signalOf : OutPort → Signal
  | .req_tx => Signal.req
  | .flit_tx => Signal.flit
  | .ack_rx => Signal.ack
  | .buffer_level => Signal.buffer_level
  | .NoP_data_out => Signal.NoP_data

/-! ## Turns of Negative-First routing -/

/-- The turn `(d, d1)` is taken at `current` on the way to `destination` under
Negative-First routing: both tiles are in the mesh, `d` is returned at `current`,
the neighbour of `current` in direction `d` exists and is not the destination, and
`d1` is returned at that neighbour. -/
def negativeFirstTurn (p : TGlobalParams) (current destination : TCoord) (d d1 : Int) : Prop :=
  inMesh p current ∧ inMesh p destination ∧
  d ∈ routingNegativeFirst current destination ∧
  ∃ next, getNeighborId p (coord2Id p current) d = some next ∧ next ≠ NOT_VALID ∧
    next ≠ coord2Id p destination ∧
    d1 ∈ routingNegativeFirst (id2Coord p next) destination

/-- A 3×3 mesh with Negative-First routing and random selection, buffers of depth 4. -/
def mesh3negativeFirst : TGlobalParams :=
  { mesh_dim_x := 3, mesh_dim_y := 3, buffer_depth := 4
    routing_algorithm := RoutingAlgorithm.ROUTING_NEGATIVE_FIRST
    selection_strategy := SelectionStrategy.SEL_RANDOM }

/-! ## Routing functions: results -/

/-- C7: for all current and destination coordinates `routingXY` returns a list of
exactly one direction: EAST if `dst.x > cur.x`, else WEST if `dst.x < cur.x`, else
SOUTH if `dst.y > cur.y`, else NORTH. -/
theorem routingXY_single_direction (current destination : TCoord) :
    routingXY current destination =
      [if destination.x > current.x then DIRECTION_EAST
       else if destination.x < current.x then DIRECTION_WEST
       else if destination.y > current.y then DIRECTION_SOUTH
       else DIRECTION_NORTH] ∧
    (routingXY current destination).length = 1 := by
  unfold routingXY
  split_ifs <;> simp

theorem id2Coord_coord2Id (p : TGlobalParams) (c : TCoord) (h : inMesh p c) :
    id2Coord p (coord2Id p c) = c := by
  obtain ⟨hx0, hx1, hy0, hy1⟩ := h
  have hX : 0 < p.mesh_dim_x := by omega
  have hid : 0 ≤ c.y * p.mesh_dim_x + c.x := by positivity
  unfold id2Coord coord2Id
  rw [Int.tmod_eq_emod hid hX.le, Int.tdiv_eq_ediv hid hX.le]
  have h1 : (c.y * p.mesh_dim_x + c.x) % p.mesh_dim_x = c.x := by
    rw [add_comm, Int.add_mul_emod_self]; exact Int.emod_eq_of_lt hx0 hx1
  have h2 : (c.y * p.mesh_dim_x + c.x) / p.mesh_dim_x = c.y := by
    rw [add_comm, Int.add_mul_ediv_right _ _ hX.ne', Int.ediv_eq_zero_of_lt hx0 hx1]; simp
  rw [h1, h2]

theorem coord2Id_nonneg (p : TGlobalParams) (c : TCoord) (h : inMesh p c) :
    0 ≤ coord2Id p c := by
  obtain ⟨hx0, hx1, hy0, hy1⟩ := h
  have hX : 0 < p.mesh_dim_x := by omega
  unfold coord2Id; positivity

theorem getNeighborId_of_pointsInside (p : TGlobalParams) (c : TCoord) (h : inMesh p c)
    (d : Int) (hd : pointsInside p c d) :
    ∃ c1 : TCoord, inMesh p c1 ∧ getNeighborId p (coord2Id p c) d = some (coord2Id p c1) ∧
      c1 = (if d = DIRECTION_NORTH then { c with y := c.y - 1 }
            else if d = DIRECTION_SOUTH then { c with y := c.y + 1 }
            else if d = DIRECTION_EAST then { c with x := c.x + 1 }
            else { c with x := c.x - 1 }) := by
  obtain ⟨hx0, hx1, hy0, hy1⟩ := h
  unfold getNeighborId
  rw [id2Coord_coord2Id p c ⟨hx0, hx1, hy0, hy1⟩]
  rcases hd with ⟨rfl, h1⟩ | ⟨rfl, h1⟩ | ⟨rfl, h1⟩ | ⟨rfl, h1⟩
  · refine ⟨{ c with y := c.y - 1 }, ⟨hx0, hx1, by simp; omega, by simp; omega⟩, ?_, by simp⟩
    simp [DIRECTION_NORTH]; omega
  · refine ⟨{ c with y := c.y + 1 }, ⟨hx0, hx1, by simp; omega, by simp; omega⟩, ?_, by simp [DIRECTION_SOUTH, DIRECTION_NORTH]⟩
    simp [DIRECTION_NORTH, DIRECTION_SOUTH]; omega
  · refine ⟨{ c with x := c.x + 1 }, ⟨by simp; omega, by simp; omega, hy0, hy1⟩, ?_, by simp [DIRECTION_SOUTH, DIRECTION_NORTH, DIRECTION_EAST]⟩
    simp [DIRECTION_NORTH, DIRECTION_SOUTH, DIRECTION_EAST]; omega
  · refine ⟨{ c with x := c.x - 1 }, ⟨by simp; omega, by simp; omega, hy0, hy1⟩, ?_, by simp [DIRECTION_SOUTH, DIRECTION_NORTH, DIRECTION_EAST, DIRECTION_WEST]⟩
    simp [DIRECTION_NORTH, DIRECTION_SOUTH, DIRECTION_EAST, DIRECTION_WEST]; omega

theorem tmod_two_of_nonneg (a : Int) (h : 0 ≤ a) : a.tmod 2 = a % 2 :=
  Int.tmod_eq_emod h (by decide)

theorem goodDirections_routingXY (c d : TCoord) : goodDirections (routingXY c d) := by
  unfold goodDirections routingXY isExternal
  split_ifs <;> simp [DIRECTION_NORTH, DIRECTION_EAST, DIRECTION_SOUTH, DIRECTION_WEST, DIRECTION_LOCAL]

theorem goodDirections_routingWestFirst (c d : TCoord) : goodDirections (routingWestFirst c d) := by
  unfold routingWestFirst
  split_ifs
  · exact goodDirections_routingXY c d
  all_goals
    simp [goodDirections, isExternal, DIRECTION_NORTH, DIRECTION_EAST, DIRECTION_SOUTH, DIRECTION_WEST, DIRECTION_LOCAL]

theorem goodDirections_routingNorthLast (c d : TCoord) : goodDirections (routingNorthLast c d) := by
  unfold routingNorthLast
  split_ifs
  · exact goodDirections_routingXY c d
  all_goals
    simp [goodDirections, isExternal, DIRECTION_NORTH, DIRECTION_EAST, DIRECTION_SOUTH, DIRECTION_WEST, DIRECTION_LOCAL]

theorem goodDirections_routingNegativeFirst (c d : TCoord) :
    goodDirections (routingNegativeFirst c d) := by
  unfold routingNegativeFirst
  split_ifs
  · exact goodDirections_routingXY c d
  all_goals
    simp [goodDirections, isExternal, DIRECTION_NORTH, DIRECTION_EAST, DIRECTION_SOUTH, DIRECTION_WEST, DIRECTION_LOCAL]

theorem goodDirections_routingFullyAdaptive (c d : TCoord) :
    goodDirections (routingFullyAdaptive c d) := by
  unfold routingFullyAdaptive
  split_ifs
  · exact goodDirections_routingXY c d
  all_goals
    simp [goodDirections, isExternal, DIRECTION_NORTH, DIRECTION_EAST, DIRECTION_SOUTH, DIRECTION_WEST, DIRECTION_LOCAL]

theorem oddEvenDirections_external (c s d : TCoord) :
    ∀ x ∈ oddEvenDirections c s d, isExternal x ∧ x ≠ DIRECTION_LOCAL := by
  unfold oddEvenDirections
  intro x hx
  simp only at hx
  split_ifs at hx <;>
    simp [DIRECTION_NORTH, DIRECTION_EAST, DIRECTION_SOUTH, DIRECTION_WEST] at hx <;>
    (try rcases hx with rfl | rfl) <;>
    simp [isExternal, DIRECTION_NORTH, DIRECTION_EAST, DIRECTION_SOUTH, DIRECTION_WEST, DIRECTION_LOCAL]

theorem oddEvenDirections_length (c s d : TCoord) (h : 0 ≤ c.x) :
    0 < (oddEvenDirections c s d).length ∧ (oddEvenDirections c s d).length ≤ 2 := by
  have hc := tmod_two_of_nonneg c.x h
  unfold oddEvenDirections
  simp only
  split_ifs with h1 h2 h3 h4 h5 h6 h7 <;> simp
  all_goals
    have hd := tmod_two_of_nonneg d.x (by omega)
    omega

theorem routingOddEven_good (c s d : TCoord) (h : 0 ≤ c.x) :
    ∃ l, routingOddEven c s d = some l ∧ goodDirections l := by
  have hl := oddEvenDirections_length c s d h
  refine ⟨oddEvenDirections c s d, ?_, ?_, oddEvenDirections_external c s d⟩
  · unfold routingOddEven; simp only; rw [if_pos hl]
  · intro h0; rw [h0] at hl; simp at hl

theorem routingXY_pointsInside (p : TGlobalParams) (c d : TCoord) (hc : inMesh p c)
    (hd : inMesh p d) (hne : c ≠ d) : ∀ x ∈ routingXY c d, pointsInside p c x := by
  obtain ⟨hc0, hc1, hc2, hc3⟩ := hc
  obtain ⟨hd0, hd1, hd2, hd3⟩ := hd
  have hne2 : c.x ≠ d.x ∨ c.y ≠ d.y := by
    by_contra hcon
    push_neg at hcon
    exact hne (by cases c; cases d; simp_all)
  intro x hx
  unfold routingXY at hx
  unfold pointsInside
  split_ifs at hx <;> simp at hx <;> subst hx <;>
    simp [DIRECTION_NORTH, DIRECTION_EAST, DIRECTION_SOUTH, DIRECTION_WEST] <;> omega

theorem routingWestFirst_pointsInside (p : TGlobalParams) (c d : TCoord) (hc : inMesh p c)
    (hd : inMesh p d) (hne : c ≠ d) : ∀ x ∈ routingWestFirst c d, pointsInside p c x := by
  unfold routingWestFirst
  split_ifs
  · exact routingXY_pointsInside p c d hc hd hne
  all_goals
    obtain ⟨hc0, hc1, hc2, hc3⟩ := hc
    obtain ⟨hd0, hd1, hd2, hd3⟩ := hd
    intro x hx
    simp at hx
    unfold pointsInside
    rcases hx with rfl | rfl <;>
      simp [DIRECTION_NORTH, DIRECTION_EAST, DIRECTION_SOUTH, DIRECTION_WEST] <;> omega

theorem routingNorthLast_pointsInside (p : TGlobalParams) (c d : TCoord) (hc : inMesh p c)
    (hd : inMesh p d) (hne : c ≠ d) : ∀ x ∈ routingNorthLast c d, pointsInside p c x := by
  unfold routingNorthLast
  split_ifs
  · exact routingXY_pointsInside p c d hc hd hne
  all_goals
    obtain ⟨hc0, hc1, hc2, hc3⟩ := hc
    obtain ⟨hd0, hd1, hd2, hd3⟩ := hd
    intro x hx
    simp at hx
    unfold pointsInside
    rcases hx with rfl | rfl <;>
      simp [DIRECTION_NORTH, DIRECTION_EAST, DIRECTION_SOUTH, DIRECTION_WEST] <;> omega

theorem routingNegativeFirst_pointsInside (p : TGlobalParams) (c d : TCoord)
    (hc : inMesh p c) (hd : inMesh p d) (hne : c ≠ d) :
    ∀ x ∈ routingNegativeFirst c d, pointsInside p c x := by
  unfold routingNegativeFirst
  split_ifs
  · exact routingXY_pointsInside p c d hc hd hne
  all_goals
    obtain ⟨hc0, hc1, hc2, hc3⟩ := hc
    obtain ⟨hd0, hd1, hd2, hd3⟩ := hd
    intro x hx
    simp at hx
    unfold pointsInside
    rcases hx with rfl | rfl <;>
      simp [DIRECTION_NORTH, DIRECTION_EAST, DIRECTION_SOUTH, DIRECTION_WEST] <;> omega

theorem routingFullyAdaptive_pointsInside (p : TGlobalParams) (c d : TCoord)
    (hc : inMesh p c) (hd : inMesh p d) (hne : c ≠ d) :
    ∀ x ∈ routingFullyAdaptive c d, pointsInside p c x := by
  unfold routingFullyAdaptive
  split_ifs
  · exact routingXY_pointsInside p c d hc hd hne
  all_goals
    obtain ⟨hc0, hc1, hc2, hc3⟩ := hc
    obtain ⟨hd0, hd1, hd2, hd3⟩ := hd
    intro x hx
    simp at hx
    unfold pointsInside
    rcases hx with rfl | rfl <;>
      simp [DIRECTION_NORTH, DIRECTION_EAST, DIRECTION_SOUTH, DIRECTION_WEST] <;> omega

theorem oddEvenDirections_pointsInside (p : TGlobalParams) (c s d : TCoord)
    (hc : inMesh p c) (hd : inMesh p d) (hne : c ≠ d)
    (hslip : ¬ (d.x < c.x ∧ d.y = c.y ∧ c.x.tmod 2 = 0 ∧ c.y + 1 = p.mesh_dim_y)) :
    ∀ x ∈ oddEvenDirections c s d, pointsInside p c x := by
  obtain ⟨hc0, hc1, hc2, hc3⟩ := hc
  obtain ⟨hd0, hd1, hd2, hd3⟩ := hd
  have hne2 : c.x ≠ d.x ∨ c.y ≠ d.y := by
    by_contra hcon
    push_neg at hcon
    exact hne (by cases c; cases d; simp_all)
  intro x hx
  unfold oddEvenDirections at hx
  simp only at hx
  unfold pointsInside
  split_ifs at hx <;> simp at hx <;> (try rcases hx with rfl | rfl) <;>
    simp [DIRECTION_NORTH, DIRECTION_EAST, DIRECTION_SOUTH, DIRECTION_WEST] <;> omega

theorem coord2Id_injective (p : TGlobalParams) (a b : TCoord) (ha : inMesh p a)
    (hb : inMesh p b) (h : coord2Id p a = coord2Id p b) : a = b := by
  rw [← id2Coord_coord2Id p a ha, ← id2Coord_coord2Id p b hb, h]

theorem coord2Id_ne_NOT_VALID (p : TGlobalParams) (c : TCoord) (h : inMesh p c) :
    coord2Id p c ≠ NOT_VALID := by
  have := coord2Id_nonneg p c h
  unfold NOT_VALID; omega

theorem replicate_ite_eq {α : Type} (n : Nat) (c : Prop) [Decidable c] (a b : α)
    (h : n ≠ 0 → c) : List.replicate n (if c then a else b) = List.replicate n a := by
  cases n with
  | zero => rfl
  | succ m => rw [if_pos (h (Nat.succ_ne_zero m))]

theorem replicate_ite_eq_neg {α : Type} (n : Nat) (c : Prop) [Decidable c] (a b : α)
    (h : n ≠ 0 → ¬ c) : List.replicate n (if c then a else b) = List.replicate n b := by
  cases n with
  | zero => rfl
  | succ m => rw [if_neg (h (Nat.succ_ne_zero m))]

theorem xyWalk_step (p : TGlobalParams) (src dst c1 : TCoord) (hs : inMesh p src)
    (hd : inMesh p dst) (hc1 : inMesh p c1) (hsd : src ≠ dst) (d : Int)
    (hr : routingXY src dst = [d])
    (hn : getNeighborId p (coord2Id p src) d = some (coord2Id p c1)) (fuel : Nat) :
    xyWalk p (fuel + 1) (coord2Id p src) (coord2Id p dst) =
      (xyWalk p fuel (coord2Id p c1) (coord2Id p dst)).map
        (fun hops => (d, coord2Id p c1) :: hops) := by
  have hid : coord2Id p src ≠ coord2Id p dst :=
    fun h => hsd (coord2Id_injective p src dst hs hd h)
  rw [xyWalk, if_neg hid, id2Coord_coord2Id p src hs, id2Coord_coord2Id p dst hd, hr]
  simp only [hn, if_neg (coord2Id_ne_NOT_VALID p c1 hc1)]

theorem xyWalkResult_cons (p : TGlobalParams) (src dst c1 : TCoord) (d : Int)
    (hops : List (Int × Int)) (hc1 : inMesh p c1) (h : xyWalkResult p c1 dst hops)
    (hdirs : d :: (List.replicate (dst.x - c1.x).natAbs
          (if dst.x > c1.x then DIRECTION_EAST else DIRECTION_WEST) ++
        List.replicate (dst.y - c1.y).natAbs
          (if dst.y > c1.y then DIRECTION_SOUTH else DIRECTION_NORTH)) =
        List.replicate (dst.x - src.x).natAbs
          (if dst.x > src.x then DIRECTION_EAST else DIRECTION_WEST) ++
        List.replicate (dst.y - src.y).natAbs
          (if dst.y > src.y then DIRECTION_SOUTH else DIRECTION_NORTH)) :
    xyWalkResult p src dst ((d, coord2Id p c1) :: hops) := by
  obtain ⟨h1, h2, h3⟩ := h
  refine ⟨?_, ?_, ?_⟩
  · rw [List.map_cons, h1]; exact hdirs
  · intro h hh
    rcases List.mem_cons.1 hh with rfl | hh
    · exact ⟨c1, hc1, rfl⟩
    · exact h2 h hh
  · cases hops with
    | nil => simpa using h3
    | cons a t => simpa [List.getLast?_cons_cons] using h3

theorem xyWalk_spec (p : TGlobalParams) (dst : TCoord) (hd : inMesh p dst) :
    ∀ (fuel : Nat) (src : TCoord), inMesh p src →
      (dst.x - src.x).natAbs + (dst.y - src.y).natAbs ≤ fuel →
      ∃ hops, xyWalk p fuel (coord2Id p src) (coord2Id p dst) = some hops ∧
        xyWalkResult p src dst hops := by
  intro fuel
  induction fuel with
  | zero =>
    intro src hs hf
    have hx : dst.x = src.x := by omega
    have hy : dst.y = src.y := by omega
    have : src = dst := by cases src; cases dst; simp_all
    subst this
    exact ⟨[], by simp [xyWalk], by simp, by simp, by simp⟩
  | succ fuel ih =>
    intro src hs hf
    by_cases hsd : src = dst
    · subst hsd
      exact ⟨[], by simp [xyWalk], by simp, by simp, by simp⟩
    · have hne2 : src.x ≠ dst.x ∨ src.y ≠ dst.y := by
        by_contra hcon
        push_neg at hcon
        exact hsd (by cases src; cases dst; simp_all)
      obtain ⟨hs0, hs1, hs2, hs3⟩ := hs
      obtain ⟨hd0, hd1, hd2, hd3⟩ := hd
      have hs : inMesh p src := ⟨hs0, hs1, hs2, hs3⟩
      have hd : inMesh p dst := ⟨hd0, hd1, hd2, hd3⟩
      have key : ∀ (d : Int) (c1 : TCoord), routingXY src dst = [d] → pointsInside p src d →
          c1 = (if d = DIRECTION_NORTH then { src with y := src.y - 1 }
            else if d = DIRECTION_SOUTH then { src with y := src.y + 1 }
            else if d = DIRECTION_EAST then { src with x := src.x + 1 }
            else { src with x := src.x - 1 }) →
          (dst.x - c1.x).natAbs + (dst.y - c1.y).natAbs ≤ fuel →
          (d :: (List.replicate (dst.x - c1.x).natAbs
              (if dst.x > c1.x then DIRECTION_EAST else DIRECTION_WEST) ++
            List.replicate (dst.y - c1.y).natAbs
              (if dst.y > c1.y then DIRECTION_SOUTH else DIRECTION_NORTH)) =
            List.replicate (dst.x - src.x).natAbs
              (if dst.x > src.x then DIRECTION_EAST else DIRECTION_WEST) ++
            List.replicate (dst.y - src.y).natAbs
              (if dst.y > src.y then DIRECTION_SOUTH else DIRECTION_NORTH)) →
          ∃ hops, xyWalk p (fuel + 1) (coord2Id p src) (coord2Id p dst) = some hops ∧
            xyWalkResult p src dst hops := by
        intro d c1 hr hpi hc1v hdist hdirs
        obtain ⟨c2, hc2, hn, hc2v⟩ := getNeighborId_of_pointsInside p src hs d hpi
        have : c2 = c1 := by rw [hc2v, hc1v]
        subst this
        obtain ⟨hops, hw, hres⟩ := ih c2 hc2 hdist
        refine ⟨(d, coord2Id p c2) :: hops, ?_, xyWalkResult_cons p src dst c2 d hops hc2 hres hdirs⟩
        rw [xyWalk_step p src dst c2 hs hd hc2 hsd d hr hn fuel, hw]; rfl
      by_cases h1 : dst.x > src.x
      · refine key DIRECTION_EAST { src with x := src.x + 1 } ?_ ?_ ?_ ?_ ?_
        · simp [routingXY, h1]
        · right; right; left; exact ⟨rfl, by omega⟩
        · simp [DIRECTION_NORTH, DIRECTION_EAST, DIRECTION_SOUTH]
        · simp only; omega
        · simp only
          rw [if_pos h1, replicate_ite_eq _ _ _ _ (by omega)]
          have : (dst.x - src.x).natAbs = (dst.x - (src.x + 1)).natAbs + 1 := by omega
          rw [this, List.replicate_succ]; rfl
      · by_cases h2 : dst.x < src.x
        · refine key DIRECTION_WEST { src with x := src.x - 1 } ?_ ?_ ?_ ?_ ?_
          · simp [routingXY, h1, h2]
          · right; right; right; exact ⟨rfl, by omega⟩
          · simp [DIRECTION_NORTH, DIRECTION_EAST, DIRECTION_SOUTH, DIRECTION_WEST]
          · simp only; omega
          · simp only
            rw [if_neg h1, replicate_ite_eq_neg _ _ _ _ (by omega)]
            have : (dst.x - src.x).natAbs = (dst.x - (src.x - 1)).natAbs + 1 := by omega
            rw [this, List.replicate_succ]; rfl
        · have hxe : dst.x = src.x := by omega
          by_cases h3 : dst.y > src.y
          · refine key DIRECTION_SOUTH { src with y := src.y + 1 } ?_ ?_ ?_ ?_ ?_
            · simp [routingXY, h1, h2, h3]
            · right; left; exact ⟨rfl, by omega⟩
            · simp [DIRECTION_NORTH, DIRECTION_SOUTH]
            · simp only; omega
            · simp only
              rw [if_pos h3, replicate_ite_eq (dst.y - (src.y + 1)).natAbs _ _ _ (by omega)]
              have h0 : (dst.x - src.x).natAbs = 0 := by omega
              have : (dst.y - src.y).natAbs = (dst.y - (src.y + 1)).natAbs + 1 := by omega
              rw [h0, this, List.replicate_succ]; rfl
          · refine key DIRECTION_NORTH { src with y := src.y - 1 } ?_ ?_ ?_ ?_ ?_
            · simp [routingXY, h1, h2, h3]
            · left; exact ⟨rfl, by omega⟩
            · simp [DIRECTION_NORTH]
            · simp only; omega
            · simp only
              rw [if_neg h3, replicate_ite_eq_neg (dst.y - (src.y - 1)).natAbs _ _ _ (by omega)]
              have h0 : (dst.x - src.x).natAbs = 0 := by omega
              have : (dst.y - src.y).natAbs = (dst.y - (src.y - 1)).natAbs + 1 := by omega
              rw [h0, this, List.replicate_succ]; rfl

theorem xyWalk_fuel_succ (p : TGlobalParams) (dst : Int) :
    ∀ (fuel : Nat) (cur : Int) (hops : List (Int × Int)),
      xyWalk p fuel cur dst = some hops → xyWalk p (fuel + 1) cur dst = some hops := by
  intro fuel
  induction fuel with
  | zero =>
    intro cur hops h
    by_cases hc : cur = dst
    · simp [xyWalk, hc] at h ⊢; exact h
    · simp [xyWalk, hc] at h
  | succ fuel ih =>
    intro cur hops h
    by_cases hc : cur = dst
    · simp [xyWalk, hc] at h ⊢; exact h
    · rw [xyWalk, if_neg hc] at h
      rw [xyWalk, if_neg hc]
      split at h
      · rename_i d hd
        split at h
        · rename_i n hn
          split_ifs at h with hv
          cases hw : xyWalk p fuel n dst with
          | none => rw [hw] at h; simp at h
          | some hs =>
            rw [hw] at h
            simp only [if_neg hv, ih n hs hw]
            exact h
        · simp at h
      · simp at h

theorem xyWalk_fuel_le (p : TGlobalParams) (cur dst : Int) (hops : List (Int × Int))
    (n fuel : Nat) (hle : n ≤ fuel) (h : xyWalk p n cur dst = some hops) :
    xyWalk p fuel cur dst = some hops := by
  induction hle with
  | refl => exact h
  | step _ ih => exact xyWalk_fuel_succ p dst _ cur hops ih

theorem neighbourValid_of_pointsInside (p : TGlobalParams) (c : TCoord) (h : inMesh p c)
    (d : Int) (hd : pointsInside p c d) : neighbourValid p c d := by
  obtain ⟨c1, hc1, hn, _⟩ := getNeighborId_of_pointsInside p c h d hd
  exact ⟨coord2Id p c1, hn, coord2Id_ne_NOT_VALID p c1 hc1⟩

/-- C8: under XY routing, for every mesh and every source and destination inside it,
the walk that repeatedly moves to the neighbour (`getNeighborId`) in the single
direction returned by `routingXY` is the same for every sufficient fuel, never leaves
the mesh and reaches the destination after exactly `|dst.x - src.x| + |dst.y - src.y|`
hops, the hops along x coming before the hops along y. -/
theorem xy_path_unique_minimal (p : TGlobalParams) (src dst : TCoord)
    (hs : inMesh p src) (hd : inMesh p dst) :
    ∃ hops : List (Int × Int),
      (∀ fuel, (dst.x - src.x).natAbs + (dst.y - src.y).natAbs ≤ fuel →
        xyWalk p fuel (coord2Id p src) (coord2Id p dst) = some hops) ∧
      hops.length = (dst.x - src.x).natAbs + (dst.y - src.y).natAbs ∧
      xyWalkResult p src dst hops := by
  obtain ⟨hops, hw, hres⟩ := xyWalk_spec p dst hd _ src hs (le_refl _)
  refine ⟨hops, fun fuel hf => xyWalk_fuel_le p _ _ hops _ fuel hf hw, ?_, hres⟩
  have := congrArg List.length hres.1
  simpa using this

theorem xy_path_unique_minimal_witness :
    inMesh ⟨2, 2, 4, .ROUTING_XY, .SEL_RANDOM⟩ ⟨0, 0⟩ ∧
    inMesh ⟨2, 2, 4, .ROUTING_XY, .SEL_RANDOM⟩ ⟨1, 1⟩ ∧
    xyWalk ⟨2, 2, 4, .ROUTING_XY, .SEL_RANDOM⟩ 2 0 3 =
      some [(DIRECTION_EAST, 1), (DIRECTION_SOUTH, 3)] ∧
    ∃ hops : List (Int × Int),
      (∀ fuel, ((1 : Int) - 0).natAbs + ((1 : Int) - 0).natAbs ≤ fuel →
        xyWalk ⟨2, 2, 4, .ROUTING_XY, .SEL_RANDOM⟩ fuel
          (coord2Id ⟨2, 2, 4, .ROUTING_XY, .SEL_RANDOM⟩ ⟨0, 0⟩)
          (coord2Id ⟨2, 2, 4, .ROUTING_XY, .SEL_RANDOM⟩ ⟨1, 1⟩) = some hops) ∧
      hops.length = ((1 : Int) - 0).natAbs + ((1 : Int) - 0).natAbs ∧
      xyWalkResult ⟨2, 2, 4, .ROUTING_XY, .SEL_RANDOM⟩ ⟨0, 0⟩ ⟨1, 1⟩ hops :=
  ⟨by decide, by decide, by decide,
    xy_path_unique_minimal ⟨2, 2, 4, .ROUTING_XY, .SEL_RANDOM⟩ ⟨0, 0⟩ ⟨1, 1⟩
      (by decide) (by decide)⟩

theorem id2Coord_x_nonneg (p : TGlobalParams) (id : Int) (h : 0 ≤ id) :
    0 ≤ (id2Coord p id).x := by
  unfold id2Coord
  exact Int.tmod_nonneg _ h

/-- C9: for all current, source and destination coordinates, the current one being
the coordinate of a tile (`current.x ≥ 0`, which holds for `id2Coord` of every tile
id), each of `routingXY`, `routingWestFirst`, `routingNorthLast`,
`routingNegativeFirst`, `routingOddEven` and `routingFullyAdaptive` returns a
non-empty list whose elements are all external directions, never DIRECTION_LOCAL. -/
theorem routing_nonempty_external (current source destination : TCoord)
    (hx : 0 ≤ current.x) :
    goodDirections (routingXY current destination) ∧
    goodDirections (routingWestFirst current destination) ∧
    goodDirections (routingNorthLast current destination) ∧
    goodDirections (routingNegativeFirst current destination) ∧
    (∃ l, routingOddEven current source destination = some l ∧ goodDirections l) ∧
    goodDirections (routingFullyAdaptive current destination) :=
  ⟨goodDirections_routingXY _ _, goodDirections_routingWestFirst _ _,
    goodDirections_routingNorthLast _ _, goodDirections_routingNegativeFirst _ _,
    routingOddEven_good _ _ _ hx, goodDirections_routingFullyAdaptive _ _⟩

theorem routing_nonempty_external_witness :
    id2Coord mesh4oddEven 6 = ⟨2, 1⟩ ∧
    (0 : Int) ≤ (id2Coord mesh4oddEven 6).x ∧
    routingOddEven (id2Coord mesh4oddEven 6) ⟨0, 0⟩ ⟨3, 0⟩ = some [DIRECTION_EAST] ∧
    (goodDirections (routingXY (id2Coord mesh4oddEven 6) ⟨3, 0⟩) ∧
    goodDirections (routingWestFirst (id2Coord mesh4oddEven 6) ⟨3, 0⟩) ∧
    goodDirections (routingNorthLast (id2Coord mesh4oddEven 6) ⟨3, 0⟩) ∧
    goodDirections (routingNegativeFirst (id2Coord mesh4oddEven 6) ⟨3, 0⟩) ∧
    (∃ l, routingOddEven (id2Coord mesh4oddEven 6) ⟨0, 0⟩ ⟨3, 0⟩ = some l ∧
      goodDirections l) ∧
    goodDirections (routingFullyAdaptive (id2Coord mesh4oddEven 6) ⟨3, 0⟩)) :=
  ⟨by decide, by decide, by decide,
    routing_nonempty_external (id2Coord mesh4oddEven 6) ⟨0, 0⟩ ⟨3, 0⟩
      (id2Coord_x_nonneg mesh4oddEven 6 (by decide))⟩

/-- Why the current coordinate has to be that of a tile: at a negative odd column the
C++ remainder `c0 % 2` is `-1`, not `1`. At current `(-1, 0)`, source `(0, 0)` and
destination `(0, 1)`, which no tile id gives, neither append of `routingOddEven` fires
and the closing assertion fails. -/
theorem routingOddEven_empty_at_negative_column :
    oddEvenDirections ⟨-1, 0⟩ ⟨0, 0⟩ ⟨0, 1⟩ = [] ∧
    ¬ ∃ l, routingOddEven ⟨-1, 0⟩ ⟨0, 0⟩ ⟨0, 1⟩ = some l ∧ goodDirections l := by
  refine ⟨by decide, ?_⟩
  rintro ⟨l, hl, _⟩
  have : routingOddEven ⟨-1, 0⟩ ⟨0, 0⟩ ⟨0, 1⟩ = none := by decide
  rw [this] at hl
  exact Option.noConfusion hl

/-- Where the returned directions stay in the mesh. For current and destination
inside the mesh and different from each other, every direction returned by XY,
West-First, North-Last, Negative-First and Fully-Adaptive has a neighbour tile, and so
has every direction returned by Odd-Even except in one case: destination strictly
west in the same row, `current.x` even, current in the last row. -/
theorem routing_directions_in_mesh (p : TGlobalParams) (current source destination : TCoord)
    (hc : inMesh p current) (hd : inMesh p destination) (hne : current ≠ destination) :
    (∀ d ∈ routingXY current destination, neighbourValid p current d) ∧
    (∀ d ∈ routingWestFirst current destination, neighbourValid p current d) ∧
    (∀ d ∈ routingNorthLast current destination, neighbourValid p current d) ∧
    (∀ d ∈ routingNegativeFirst current destination, neighbourValid p current d) ∧
    (∀ d ∈ routingFullyAdaptive current destination, neighbourValid p current d) ∧
    (¬ (destination.x < current.x ∧ destination.y = current.y ∧ current.x.tmod 2 = 0 ∧
        current.y + 1 = p.mesh_dim_y) →
      ∃ l, routingOddEven current source destination = some l ∧
        ∀ d ∈ l, neighbourValid p current d) := by
  refine ⟨?_, ?_, ?_, ?_, ?_, ?_⟩
  · exact fun d hd1 => neighbourValid_of_pointsInside p current hc d
      (routingXY_pointsInside p current destination hc hd hne d hd1)
  · exact fun d hd1 => neighbourValid_of_pointsInside p current hc d
      (routingWestFirst_pointsInside p current destination hc hd hne d hd1)
  · exact fun d hd1 => neighbourValid_of_pointsInside p current hc d
      (routingNorthLast_pointsInside p current destination hc hd hne d hd1)
  · exact fun d hd1 => neighbourValid_of_pointsInside p current hc d
      (routingNegativeFirst_pointsInside p current destination hc hd hne d hd1)
  · exact fun d hd1 => neighbourValid_of_pointsInside p current hc d
      (routingFullyAdaptive_pointsInside p current destination hc hd hne d hd1)
  · intro hslip
    obtain ⟨l, hl, _⟩ := routingOddEven_good current source destination hc.1
    refine ⟨l, hl, fun d hd1 => neighbourValid_of_pointsInside p current hc d ?_⟩
    have hl2 : l = oddEvenDirections current source destination := by
      unfold routingOddEven at hl
      simp only at hl
      split_ifs at hl
      exact (Option.some.inj hl).symm
    rw [hl2] at hd1
    exact oddEvenDirections_pointsInside p current source destination hc hd hne hslip d hd1

/-! ## Receive and transmit processes: results -/

theorem setCell_same {α : Type} (a : Int → α) (i : Int) (v : α) : setCell a i v i = v := by
  simp [setCell]

theorem setCell_other {α : Type} (a : Int → α) (i k : Int) (v : α) (h : k ≠ i) :
    setCell a i v k = a k := by
  simp [setCell, h]

theorem rxBody_other (depth : Int) (req_rx : Int → Bool) (flit_rx : Int → TFlit)
    (st : TRouter × List RxEvent) (i k : Int) (h : k ≠ i) :
    (rxBody depth req_rx flit_rx st i).1.buffer k = st.1.buffer k ∧
    (rxBody depth req_rx flit_rx st i).1.current_level_rx k = st.1.current_level_rx k ∧
    (rxBody depth req_rx flit_rx st i).1.ack_rx k = st.1.ack_rx k ∧
    pushedInto k (rxBody depth req_rx flit_rx st i).2 = pushedInto k st.2 := by
  unfold rxBody
  simp only
  split_ifs <;> simp [setCell, h, pushedInto, List.filter_append, Ne.symm h]

theorem rxBody_frame (depth : Int) (req_rx : Int → Bool) (flit_rx : Int → TFlit)
    (st : TRouter × List RxEvent) (i : Int) :
    (rxBody depth req_rx flit_rx st i).1.local_id = st.1.local_id ∧
    (rxBody depth req_rx flit_rx st i).1.current_level_tx = st.1.current_level_tx ∧
    (rxBody depth req_rx flit_rx st i).1.reservation_table = st.1.reservation_table ∧
    (rxBody depth req_rx flit_rx st i).1.short_circuit = st.1.short_circuit ∧
    (rxBody depth req_rx flit_rx st i).1.req_tx = st.1.req_tx ∧
    (rxBody depth req_rx flit_rx st i).1.flit_tx = st.1.flit_tx := by
  unfold rxBody
  simp only
  split_ifs <;> simp

theorem rxBody_same (depth : Int) (req_rx : Int → Bool) (flit_rx : Int → TFlit)
    (st : TRouter × List RxEvent) (i : Int) :
    (rxBody depth req_rx flit_rx st i).1.buffer i =
      (if rxAccepts depth req_rx st.1 i then (st.1.buffer i).Push (flit_rx i)
       else st.1.buffer i) ∧
    (rxBody depth req_rx flit_rx st i).1.current_level_rx i =
      (if rxAccepts depth req_rx st.1 i then !st.1.current_level_rx i
       else st.1.current_level_rx i) ∧
    (rxBody depth req_rx flit_rx st i).1.ack_rx i =
      (rxBody depth req_rx flit_rx st i).1.current_level_rx i ∧
    pushedInto i (rxBody depth req_rx flit_rx st i).2 =
      pushedInto i st.2 ++ (if rxAccepts depth req_rx st.1 i then [flit_rx i] else []) := by
  unfold rxBody rxAccepts
  simp only
  split_ifs <;> simp [setCell, pushedInto, List.filter_append]

theorem rxLoop_other (depth : Int) (req_rx : Int → Bool) (flit_rx : Int → TFlit) (k : Int) :
    ∀ (l : List Int) (st : TRouter × List RxEvent), k ∉ l →
      (l.foldl (rxBody depth req_rx flit_rx) st).1.buffer k = st.1.buffer k ∧
      (l.foldl (rxBody depth req_rx flit_rx) st).1.current_level_rx k =
        st.1.current_level_rx k ∧
      (l.foldl (rxBody depth req_rx flit_rx) st).1.ack_rx k = st.1.ack_rx k ∧
      pushedInto k (l.foldl (rxBody depth req_rx flit_rx) st).2 = pushedInto k st.2 := by
  intro l
  induction l with
  | nil => intro st _; simp
  | cons j l ih =>
    intro st hk
    have hkj : k ≠ j := fun h => hk (by simp [h])
    have hkl : k ∉ l := fun h => hk (by simp [h])
    obtain ⟨h1, h2, h3, h4⟩ := rxBody_other depth req_rx flit_rx st j k hkj
    obtain ⟨g1, g2, g3, g4⟩ := ih (rxBody depth req_rx flit_rx st j) hkl
    rw [List.foldl_cons, g1, g2, g3, g4, h1, h2, h3, h4]
    exact ⟨rfl, rfl, rfl, rfl⟩

theorem rxLoop_frame (depth : Int) (req_rx : Int → Bool) (flit_rx : Int → TFlit) :
    ∀ (l : List Int) (st : TRouter × List RxEvent),
      (l.foldl (rxBody depth req_rx flit_rx) st).1.local_id = st.1.local_id ∧
      (l.foldl (rxBody depth req_rx flit_rx) st).1.current_level_tx = st.1.current_level_tx ∧
      (l.foldl (rxBody depth req_rx flit_rx) st).1.reservation_table =
        st.1.reservation_table ∧
      (l.foldl (rxBody depth req_rx flit_rx) st).1.short_circuit = st.1.short_circuit ∧
      (l.foldl (rxBody depth req_rx flit_rx) st).1.req_tx = st.1.req_tx ∧
      (l.foldl (rxBody depth req_rx flit_rx) st).1.flit_tx = st.1.flit_tx := by
  intro l
  induction l with
  | nil => intro st; simp
  | cons j l ih =>
    intro st
    obtain ⟨h1, h2, h3, h4, h5, h6⟩ := rxBody_frame depth req_rx flit_rx st j
    obtain ⟨g1, g2, g3, g4, g5, g6⟩ := ih (rxBody depth req_rx flit_rx st j)
    rw [List.foldl_cons, g1, g2, g3, g4, g5, g6, h1, h2, h3, h4, h5, h6]
    exact ⟨rfl, rfl, rfl, rfl, rfl, rfl⟩

theorem rxLoop_same (depth : Int) (req_rx : Int → Bool) (flit_rx : Int → TFlit) (i : Int) :
    ∀ (l : List Int) (st : TRouter × List RxEvent), l.Nodup → i ∈ l →
      (l.foldl (rxBody depth req_rx flit_rx) st).1.buffer i =
        (if rxAccepts depth req_rx st.1 i then (st.1.buffer i).Push (flit_rx i)
         else st.1.buffer i) ∧
      (l.foldl (rxBody depth req_rx flit_rx) st).1.current_level_rx i =
        (if rxAccepts depth req_rx st.1 i then !st.1.current_level_rx i
         else st.1.current_level_rx i) ∧
      (l.foldl (rxBody depth req_rx flit_rx) st).1.ack_rx i =
        (l.foldl (rxBody depth req_rx flit_rx) st).1.current_level_rx i ∧
      pushedInto i (l.foldl (rxBody depth req_rx flit_rx) st).2 =
        pushedInto i st.2 ++ (if rxAccepts depth req_rx st.1 i then [flit_rx i] else []) := by
  intro l
  induction l with
  | nil => intro st _ hi; simp at hi
  | cons j l ih =>
    intro st hnd hi
    rw [List.nodup_cons] at hnd
    rw [List.foldl_cons]
    by_cases hij : i = j
    · subst hij
      obtain ⟨g1, g2, g3, g4⟩ := rxLoop_other depth req_rx flit_rx i l
        (rxBody depth req_rx flit_rx st i) hnd.1
      obtain ⟨h1, h2, h3, h4⟩ := rxBody_same depth req_rx flit_rx st i
      rw [g1, g2, g3, g4, h1, h2]
      rw [h2] at h3
      exact ⟨rfl, rfl, h3, h4⟩
    · have hil : i ∈ l := by
        rcases List.mem_cons.1 hi with h | h
        · exact absurd h hij
        · exact h
      obtain ⟨h1, h2, h3, h4⟩ := rxBody_other depth req_rx flit_rx st j i hij
      obtain ⟨g1, g2, g3, g4⟩ := ih (rxBody depth req_rx flit_rx st j) hnd.2 hil
      have hacc : rxAccepts depth req_rx (rxBody depth req_rx flit_rx st j).1 i ↔
          rxAccepts depth req_rx st.1 i := by
        unfold rxAccepts; rw [h1, h2]
      rw [g1, g2, g4, h1, h2, h4]
      simp only [hacc]
      refine ⟨trivial, trivial, ?_, trivial⟩
      rw [g3, g2, h2]
      simp only [hacc]

/-- C2: for every router state with reset low and every input direction `i`,
`rxProcess` pushes the incoming flit into `buffer[i]` and toggles
`current_level_rx[i]` if and only if `req_rx[i] = 1 - current_level_rx[i]` and
`buffer[i]` is not full; otherwise both are unchanged; in both cases `ack_rx[i]` is
driven to the resulting `current_level_rx[i]`. -/
theorem rxProcess_accepts_iff (depth : Int) (req_rx : Int → Bool) (flit_rx : Int → TFlit)
    (r : TRouter) (i : Int) (hi : inRange i) :
    ((rxProcess depth false req_rx flit_rx r).1.buffer i =
      (if req_rx i = (!r.current_level_rx i) ∧ ¬ (r.buffer i).IsFull depth = true
       then (r.buffer i).Push (flit_rx i) else r.buffer i)) ∧
    ((rxProcess depth false req_rx flit_rx r).1.current_level_rx i =
      (if req_rx i = (!r.current_level_rx i) ∧ ¬ (r.buffer i).IsFull depth = true
       then !r.current_level_rx i else r.current_level_rx i)) ∧
    (pushedInto i (rxProcess depth false req_rx flit_rx r).2 =
      (if req_rx i = (!r.current_level_rx i) ∧ ¬ (r.buffer i).IsFull depth = true
       then [flit_rx i] else [])) ∧
    (rxProcess depth false req_rx flit_rx r).1.ack_rx i =
      (rxProcess depth false req_rx flit_rx r).1.current_level_rx i := by
  have hmem : i ∈ directionIndices := by
    obtain ⟨h0, h1⟩ := hi
    unfold DIRECTIONS at h1
    unfold directionIndices
    have : i = 0 ∨ i = 1 ∨ i = 2 ∨ i = 3 ∨ i = 4 := by omega
    simpa using this
  have hnd : directionIndices.Nodup := by decide
  obtain ⟨h1, h2, h3, h4⟩ := rxLoop_same depth req_rx flit_rx i directionIndices (r, []) hnd hmem
  unfold rxProcess
  simp only [Bool.false_eq_true, if_false]
  unfold rxAccepts at h1 h2 h4
  refine ⟨h1, h2, ?_, h3⟩
  rw [h4]; simp [pushedInto]

theorem txReserve_spec (p : TGlobalParams) (rtable : Int → Int → List Int) (inp : TxInputs)
    (r : TRouter) (i : Int) (flit : TFlit) (r1 : TRouter) (dest : Int)
    (h : txReserve p rtable inp r i flit = some (r1, dest)) :
    inRange dest ∧
    r1.local_id = r.local_id ∧ r1.buffer = r.buffer ∧
    r1.current_level_rx = r.current_level_rx ∧ r1.current_level_tx = r.current_level_tx ∧
    r1.ack_rx = r.ack_rx ∧ r1.req_tx = r.req_tx ∧ r1.flit_tx = r.flit_tx ∧
    ((r1.reservation_table = r.reservation_table ∧ r1.short_circuit = r.short_circuit ∧
        (flit.flit_type ≠ FlitType.FLIT_TYPE_HEAD → dest = r.short_circuit i) ∧
        (flit.flit_type = FlitType.FLIT_TYPE_HEAD → r.reservation_table dest ≠ NOT_RESERVED)) ∨
     (flit.flit_type = FlitType.FLIT_TYPE_HEAD ∧ r.reservation_table dest = NOT_RESERVED ∧
        r1.reservation_table = setCell r.reservation_table dest i ∧
        r1.short_circuit = setCell r.short_circuit i dest)) := by
  unfold txReserve at h
  split_ifs at h with hh hsc
  · -- head flit
    simp only at h
    split at h
    · exact Option.noConfusion h
    · rename_i dest0 hroute
      split_ifs at h with hr hres
      · simp only [Option.some.injEq, Prod.mk.injEq] at h
        obtain ⟨rfl, rfl⟩ := h
        exact ⟨hr, rfl, rfl, rfl, rfl, rfl, rfl, rfl,
          Or.inr ⟨hh, hres, rfl, rfl⟩⟩
      · simp only [Option.some.injEq, Prod.mk.injEq] at h
        obtain ⟨rfl, rfl⟩ := h
        exact ⟨hr, rfl, rfl, rfl, rfl, rfl, rfl, rfl,
          Or.inl ⟨rfl, rfl, fun hc => absurd hh hc, fun _ => hres⟩⟩
  · simp only [Option.some.injEq, Prod.mk.injEq] at h
    obtain ⟨rfl, rfl⟩ := h
    exact ⟨hsc, rfl, rfl, rfl, rfl, rfl, rfl, rfl,
      Or.inl ⟨rfl, rfl, fun _ => rfl, fun hc => absurd hc hh⟩⟩

theorem txForward_spec (inp : TxInputs) (st : TRouter × List TxEvent) (i : Int)
    (flit : TFlit) (dest : Int) :
    txForward inp st i flit dest = st ∨
    (st.1.reservation_table dest = i ∧ st.1.current_level_tx dest = inp.ack_tx dest ∧
      txForward inp st i flit dest = txSent st i flit dest) := by
  unfold txForward
  simp only
  split_ifs with h1 h2 h3
  · exact Or.inr ⟨h1, h2, by simp [txSent, h3]⟩
  · exact Or.inr ⟨h1, h2, by simp [txSent, h3]⟩
  · exact Or.inl rfl
  · exact Or.inl rfl

theorem txBody_spec (p : TGlobalParams) (rtable : Int → Int → List Int) (inp : TxInputs)
    (st st1 : TRouter × List TxEvent) (i : Int) (h : txBody p rtable inp st i = some st1) :
    st1 = st ∨
    ∃ flit r1 dest, (st.1.buffer i).Front = some flit ∧
      txReserve p rtable inp st.1 i flit = some (r1, dest) ∧
      st1 = txForward inp (r1, st.2) i flit dest := by
  unfold txBody at h
  split_ifs at h with he
  · exact Or.inl (Option.some.inj h).symm
  · split at h
    · exact Or.inl (Option.some.inj h).symm
    · rename_i flit hf
      split at h
      · exact Option.noConfusion h
      · rename_i r1 dest hres
        exact Or.inr ⟨flit, r1, dest, hf, hres, (Option.some.inj h).symm⟩

theorem txLoop_nil (p : TGlobalParams) (rtable : Int → Int → List Int) (inp : TxInputs)
    (st : TRouter × List TxEvent) : txLoop p rtable inp [] st = some st := rfl

theorem txLoop_cons (p : TGlobalParams) (rtable : Int → Int → List Int) (inp : TxInputs)
    (i : Int) (l : List Int) (st st2 : TRouter × List TxEvent)
    (h : txLoop p rtable inp (i :: l) st = some st2) :
    ∃ st1, txBody p rtable inp st i = some st1 ∧ txLoop p rtable inp l st1 = some st2 := by
  rw [txLoop] at h
  split at h
  · exact Option.noConfusion h
  · rename_i st1 hb
    exact ⟨st1, hb, h⟩

theorem txBody_link (p : TGlobalParams) (rtable : Int → Int → List Int) (inp : TxInputs)
    (d : Int) (st st1 : TRouter × List TxEvent) (i : Int)
    (h : txBody p rtable inp st i = some st1) : linkEffect inp d st st1 := by
  rcases txBody_spec p rtable inp st st1 i h with rfl | ⟨flit, r1, dest, _, hres, rfl⟩
  · exact Or.inl ⟨rfl, rfl, rfl, rfl⟩
  · obtain ⟨_, _, _, _, hclt, _, hreq, hflit, _⟩ := txReserve_spec p rtable inp st.1 i flit r1 dest hres
    rcases txForward_spec inp (r1, st.2) i flit dest with he | ⟨_, hack, he⟩
    · rw [he]
      exact Or.inl ⟨rfl, by simp [hclt], by simp [hreq], by simp [hflit]⟩
    · rw [he]
      by_cases hd : dest = d
      · subst hd
        refine Or.inr ⟨flit, ?_, ?_, ?_, ?_, ?_⟩
        · rw [← hclt]; exact hack
        · simp [txSent, sentOn, List.filter_append]
        · simp [txSent, setCell, hclt]
        · simp [txSent, setCell, hclt]
        · simp [txSent, setCell]
      · have hd2 : d ≠ dest := fun h => hd h.symm
        refine Or.inl ⟨?_, ?_, ?_, ?_⟩
        · simp [txSent, sentOn, List.filter_append, hd]
        · simp [txSent, setCell, hclt, hd2]
        · simp [txSent, setCell, hreq, hd2]
        · simp [txSent, setCell, hflit, hd2]

theorem txLoop_link (p : TGlobalParams) (rtable : Int → Int → List Int) (inp : TxInputs)
    (d : Int) : ∀ (l : List Int) (st st1 : TRouter × List TxEvent),
      txLoop p rtable inp l st = some st1 → linkEffect inp d st st1 := by
  intro l
  induction l with
  | nil =>
    intro st st1 h
    rw [txLoop_nil] at h
    obtain rfl := Option.some.inj h
    exact Or.inl ⟨rfl, rfl, rfl, rfl⟩
  | cons i l ih =>
    intro st st2 h
    obtain ⟨st1, hb, hl⟩ := txLoop_cons p rtable inp i l st st2 h
    rcases txBody_link p rtable inp d st st1 i hb with ⟨a1, a2, a3, a4⟩ | ⟨f, a0, a1, a2, a3, a4⟩
    · rcases ih st1 st2 hl with ⟨b1, b2, b3, b4⟩ | ⟨g, b0, b1, b2, b3, b4⟩
      · exact Or.inl ⟨by rw [b1, a1], by rw [b2, a2], by rw [b3, a3], by rw [b4, a4]⟩
      · exact Or.inr ⟨g, by rw [← a2, b0], by rw [b1, a1], by rw [b2, a2], by rw [b3, a2], b4⟩
    · rcases ih st1 st2 hl with ⟨b1, b2, b3, b4⟩ | ⟨g, b0, b1, b2, b3, b4⟩
      · exact Or.inr ⟨f, a0, by rw [b1, a1], by rw [b2, a2], by rw [b3, a3], by rw [b4, a4]⟩
      · exfalso
        rw [a2, ← a0] at b0
        cases hc : st.1.current_level_tx d <;> rw [hc] at b0 <;> simp at b0

theorem txBody_input (p : TGlobalParams) (rtable : Int → Int → List Int) (inp : TxInputs)
    (k : Int) (st st1 : TRouter × List TxEvent) (i : Int)
    (h : txBody p rtable inp st i = some st1) :
    inputEffect k st st1 ∧
    (k ≠ i → st1.1.buffer k = st.1.buffer k ∧ takenFrom k st1.2 = takenFrom k st.2) := by
  rcases txBody_spec p rtable inp st st1 i h with rfl | ⟨flit, r1, dest, hfront, hres, rfl⟩
  · exact ⟨Or.inl ⟨rfl, rfl⟩, fun _ => ⟨rfl, rfl⟩⟩
  · obtain ⟨_, _, hbuf, _⟩ := txReserve_spec p rtable inp st.1 i flit r1 dest hres
    rcases txForward_spec inp (r1, st.2) i flit dest with he | ⟨_, _, he⟩
    · rw [he]
      exact ⟨Or.inl ⟨by simp [hbuf], rfl⟩, fun _ => ⟨by simp [hbuf], rfl⟩⟩
    · rw [he]
      by_cases hk : k = i
      · subst hk
        refine ⟨Or.inr ⟨flit, hfront, ?_, ?_⟩, fun hc => absurd rfl hc⟩
        · simp [txSent, setCell, hbuf]
        · simp [txSent, takenFrom, List.filter_append]
      · have hk2 : i ≠ k := fun h => hk h.symm
        refine ⟨Or.inl ⟨?_, ?_⟩, fun _ => ⟨?_, ?_⟩⟩
        · simp [txSent, setCell, hbuf, hk]
        · simp [txSent, takenFrom, List.filter_append, hk2]
        · simp [txSent, setCell, hbuf, hk]
        · simp [txSent, takenFrom, List.filter_append, hk2]

theorem txLoop_input_other (p : TGlobalParams) (rtable : Int → Int → List Int)
    (inp : TxInputs) (k : Int) : ∀ (l : List Int) (st st1 : TRouter × List TxEvent),
      k ∉ l → txLoop p rtable inp l st = some st1 →
      st1.1.buffer k = st.1.buffer k ∧ takenFrom k st1.2 = takenFrom k st.2 := by
  intro l
  induction l with
  | nil =>
    intro st st1 _ h
    rw [txLoop_nil] at h
    obtain rfl := Option.some.inj h
    exact ⟨rfl, rfl⟩
  | cons i l ih =>
    intro st st2 hk h
    obtain ⟨st1, hb, hl⟩ := txLoop_cons p rtable inp i l st st2 h
    have hki : k ≠ i := fun h => hk (by simp [h])
    have hkl : k ∉ l := fun h => hk (by simp [h])
    obtain ⟨a1, a2⟩ := (txBody_input p rtable inp k st st1 i hb).2 hki
    obtain ⟨b1, b2⟩ := ih st1 st2 hkl hl
    exact ⟨by rw [b1, a1], by rw [b2, a2]⟩

theorem txLoop_input (p : TGlobalParams) (rtable : Int → Int → List Int)
    (inp : TxInputs) (k : Int) : ∀ (l : List Int) (st st1 : TRouter × List TxEvent),
      l.Nodup → txLoop p rtable inp l st = some st1 → inputEffect k st st1 := by
  intro l
  induction l with
  | nil =>
    intro st st1 _ h
    rw [txLoop_nil] at h
    obtain rfl := Option.some.inj h
    exact Or.inl ⟨rfl, rfl⟩
  | cons i l ih =>
    intro st st2 hnd h
    rw [List.nodup_cons] at hnd
    obtain ⟨st1, hb, hl⟩ := txLoop_cons p rtable inp i l st st2 h
    by_cases hki : k = i
    · subst hki
      obtain ⟨b1, b2⟩ := txLoop_input_other p rtable inp k l st1 st2 hnd.1 hl
      rcases (txBody_input p rtable inp k st st1 k hb).1 with ⟨a1, a2⟩ | ⟨f, a0, a1, a2⟩
      · exact Or.inl ⟨by rw [b1, a1], by rw [b2, a2]⟩
      · exact Or.inr ⟨f, a0, by rw [b1, a1], by rw [b2, a2]⟩
    · obtain ⟨a1, a2⟩ := (txBody_input p rtable inp k st st1 i hb).2 hki
      rcases ih st1 st2 hnd.2 hl with ⟨b1, b2⟩ | ⟨f, b0, b1, b2⟩
      · exact Or.inl ⟨by rw [b1, a1], by rw [b2, a2]⟩
      · exact Or.inr ⟨f, by rw [← a1]; exact b0, by rw [b1, a1], by rw [b2, a2]⟩

theorem txOrder_eq (start : Nat) :
    txOrder start = [((start % 5 : Nat) : Int), (((start + 1) % 5 : Nat) : Int),
      (((start + 2) % 5 : Nat) : Int), (((start + 3) % 5 : Nat) : Int),
      (((start + 4) % 5 : Nat) : Int)] := by
  simp [txOrder, List.range_succ]

theorem txOrder_mod (start : Nat) : txOrder start = txOrder (start % 5) := by
  rw [txOrder_eq, txOrder_eq]
  simp [Nat.add_mod]

theorem txOrder_nodup (start : Nat) : (txOrder start).Nodup := by
  rw [txOrder_mod]
  have h : start % 5 < 5 := Nat.mod_lt _ (by decide)
  interval_cases (start % 5) <;> decide

theorem txOrder_mem (start : Nat) (i : Int) : i ∈ txOrder start ↔ inRange i := by
  rw [txOrder_mod]
  have h : start % 5 < 5 := Nat.mod_lt _ (by decide)
  unfold inRange DIRECTIONS
  interval_cases (start % 5) <;> simp [txOrder, List.range_succ] <;> omega

theorem txBody_log (p : TGlobalParams) (rtable : Int → Int → List Int) (inp : TxInputs)
    (st st1 : TRouter × List TxEvent) (i : Int) (h : txBody p rtable inp st i = some st1) :
    ∀ e ∈ st.2, e ∈ st1.2 := by
  rcases txBody_spec p rtable inp st st1 i h with rfl | ⟨flit, r1, dest, _, _, rfl⟩
  · exact fun e he => he
  · rcases txForward_spec inp (r1, st.2) i flit dest with he | ⟨_, _, he⟩
    · rw [he]; exact fun e he => he
    · rw [he]; intro e he; simp [txSent, he]

theorem txBody_reservation (p : TGlobalParams) (rtable : Int → Int → List Int)
    (inp : TxInputs) (d : Int) (st st1 : TRouter × List TxEvent) (i : Int)
    (h : txBody p rtable inp st i = some st1) : reservationEffect d i st st1 := by
  rcases txBody_spec p rtable inp st st1 i h with rfl | ⟨flit, r1, dest, hfront, hres, rfl⟩
  · exact Or.inl rfl
  · obtain ⟨_, _, _, _, _, _, _, _, hcase⟩ := txReserve_spec p rtable inp st.1 i flit r1 dest hres
    rcases hcase with ⟨hrt, hsc, hbody, _⟩ | ⟨hhead, hfree, hrt, hsc⟩
    · -- no new reservation
      rcases txForward_spec inp (r1, st.2) i flit dest with he | ⟨hown, _, he⟩
      · rw [he]; exact Or.inl (by simp [hrt])
      · rw [he]
        by_cases htail : flit.flit_type = FlitType.FLIT_TYPE_TAIL
        · have hnh : flit.flit_type ≠ FlitType.FLIT_TYPE_HEAD := by rw [htail]; decide
          have hdest : dest = st.1.short_circuit i := hbody hnh
          by_cases hd : d = dest
          · subst hd
            refine Or.inr (Or.inr ⟨?_, ?_, flit, htail, hfront, ?_⟩)
            · rw [← hrt]; exact hown
            · simp [txSent, htail, hsc, ← hdest, setCell]
            · simp [txSent]
          · refine Or.inl ?_
            simp [txSent, htail, hsc, ← hdest, setCell, hd, hrt]
        · exact Or.inl (by simp [txSent, htail, hrt])
    · -- the head flit reserves `dest`
      have hnt : flit.flit_type ≠ FlitType.FLIT_TYPE_TAIL := by rw [hhead]; decide
      have hfinal : (txForward inp (r1, st.2) i flit dest).1.reservation_table =
          setCell st.1.reservation_table dest i := by
        rcases txForward_spec inp (r1, st.2) i flit dest with he | ⟨_, _, he⟩
        · rw [he]; exact hrt
        · rw [he]; simp [txSent, hnt, hrt]
      rw [reservationEffect, hfinal]
      by_cases hd : d = dest
      · subst hd
        exact Or.inr (Or.inl ⟨hfree, by simp [setCell]⟩)
      · exact Or.inl (by simp [setCell, hd])

theorem txLoop_reservation_kept (p : TGlobalParams) (rtable : Int → Int → List Int)
    (inp : TxInputs) (d i0 : Int) (hi0 : i0 ≠ NOT_RESERVED) :
    ∀ (l : List Int) (st st1 : TRouter × List TxEvent),
      txLoop p rtable inp l st = some st1 →
      (st.1.reservation_table d = i0 ∨
        ∃ f, f.flit_type = FlitType.FLIT_TYPE_TAIL ∧ (i0, d, f) ∈ st.2) →
      (st1.1.reservation_table d = i0 ∨
        ∃ f, f.flit_type = FlitType.FLIT_TYPE_TAIL ∧ (i0, d, f) ∈ st1.2) := by
  intro l
  induction l with
  | nil =>
    intro st st1 h hq
    rw [txLoop_nil] at h
    obtain rfl := Option.some.inj h
    exact hq
  | cons i l ih =>
    intro st st2 h hq
    obtain ⟨st1, hb, hl⟩ := txLoop_cons p rtable inp i l st st2 h
    apply ih st1 st2 hl
    rcases hq with hq | ⟨f, hf, hmem⟩
    · rcases txBody_reservation p rtable inp d st st1 i hb with h1 | ⟨h1, _⟩ | ⟨h1, _, f, hf, _, hlog⟩
      · exact Or.inl (by rw [h1, hq])
      · exact absurd (hq.symm.trans h1) hi0
      · refine Or.inr ⟨f, hf, ?_⟩
        rw [hlog, ← hq, h1]; simp
    · exact Or.inr ⟨f, hf, txBody_log p rtable inp st st1 i hb _ hmem⟩

theorem txProcess_spec (p : TGlobalParams) (rtable : Int → Int → List Int)
    (inp : TxInputs) (start : Nat) (r r1 : TRouter) (sent : List TxEvent) (start1 : Nat)
    (h : txProcess p rtable false inp start r = some (r1, sent, start1)) :
    txLoop p rtable inp (txOrder start) (r, []) = some (r1, sent) ∧ start1 = start + 1 := by
  unfold txProcess at h
  simp only [Bool.false_eq_true, if_false] at h
  split at h
  · exact Option.noConfusion h
  · rename_i ra senta hl
    simp only [Option.some.injEq, Prod.mk.injEq] at h
    obtain ⟨rfl, rfl, rfl⟩ := h
    exact ⟨hl, rfl⟩

theorem txProcess_reset (p : TGlobalParams) (rtable : Int → Int → List Int)
    (inp : TxInputs) (start : Nat) (r : TRouter) :
    txProcess p rtable true inp start r =
      some (directionIndices.foldl txResetBody r, [], start) := by
  simp [txProcess]

/-- C4: a wormhole in flight is never pre-empted. In a single call of `txProcess`,
if `reservation_table[d] = i` (an input, not NOT_RESERVED) before the call, then after
the call it is still `i` unless a TAIL flit taken from input `i` was forwarded through
output `d` during the call; each loop body assigns an output to an input only when
the output was NOT_RESERVED; and `rxProcess` with reset low leaves the table as it is. -/
theorem reservation_not_preempted (p : TGlobalParams) (rtable : Int → Int → List Int)
    (inp : TxInputs) (start : Nat) (r r1 : TRouter) (sent : List TxEvent) (start1 : Nat)
    (reset : Bool)
    (h : txProcess p rtable reset inp start r = some (r1, sent, start1)) :
    (∀ d i, r.reservation_table d = i → i ≠ NOT_RESERVED →
      r1.reservation_table d = i ∨
        ∃ f, f.flit_type = FlitType.FLIT_TYPE_TAIL ∧ (i, d, f) ∈ sent) ∧
    (∀ (st st1 : TRouter × List TxEvent) (i d : Int),
      txBody p rtable inp st i = some st1 →
      st1.1.reservation_table d ≠ st.1.reservation_table d →
      st1.1.reservation_table d ≠ NOT_RESERVED →
      st.1.reservation_table d = NOT_RESERVED ∧ st1.1.reservation_table d = i) ∧
    (∀ (depth : Int) (req_rx : Int → Bool) (flit_rx : Int → TFlit),
      (rxProcess depth false req_rx flit_rx r).1.reservation_table = r.reservation_table) := by
  refine ⟨?_, ?_, ?_⟩
  · intro d i hd hi
    cases reset with
    | true =>
      have hr := txProcess_reset p rtable inp start r
      rw [h] at hr
      simp only [Option.some.injEq, Prod.mk.injEq] at hr
      obtain ⟨rfl, _, _⟩ := hr
      left
      rw [← hd]
      simp [directionIndices, txResetBody]
    | false =>
      obtain ⟨hl, _⟩ := txProcess_spec p rtable inp start r r1 sent start1 h
      exact txLoop_reservation_kept p rtable inp d i hi (txOrder start) (r, []) (r1, sent) hl
        (Or.inl hd)
  · intro st st1 i d hb hne hnr
    rcases txBody_reservation p rtable inp d st st1 i hb with h1 | ⟨h1, h2⟩ | ⟨_, h2, _⟩
    · exact absurd h1 hne
    · exact ⟨h1, h2⟩
    · exact absurd h2 hnr
  · intro depth req_rx flit_rx
    unfold rxProcess
    simp only [Bool.false_eq_true, if_false]
    exact (rxLoop_frame depth req_rx flit_rx directionIndices (r, [])).2.2.1

/-- C6: in one call of `txProcess` with reset low, for every router state and any
latched `ack_tx`, at most one flit is written to each output direction (with one
toggle of `current_level_tx[d]`), and at most one flit is popped from each input
buffer. -/
theorem txProcess_one_flit_per_port (p : TGlobalParams) (rtable : Int → Int → List Int)
    (inp : TxInputs) (start : Nat) (r r1 : TRouter) (sent : List TxEvent) (start1 : Nat)
    (h : txProcess p rtable false inp start r = some (r1, sent, start1)) :
    (∀ d, (sentOn d sent).length ≤ 1 ∧
      ((sentOn d sent = [] ∧ r1.current_level_tx d = r.current_level_tx d ∧
          r1.req_tx d = r.req_tx d ∧ r1.flit_tx d = r.flit_tx d) ∨
       (∃ f, sentOn d sent = [f] ∧ r.current_level_tx d = inp.ack_tx d ∧
          r1.current_level_tx d = (!r.current_level_tx d) ∧
          r1.req_tx d = (!r.current_level_tx d) ∧ r1.flit_tx d = f))) ∧
    (∀ i, (takenFrom i sent).length ≤ 1 ∧
      ((takenFrom i sent = [] ∧ r1.buffer i = r.buffer i) ∨
       (∃ f, takenFrom i sent = [f] ∧ (r.buffer i).Front = some f ∧
          r1.buffer i = (r.buffer i).Pop))) := by
  obtain ⟨hl, _⟩ := txProcess_spec p rtable inp start r r1 sent start1 h
  constructor
  · intro d
    rcases txLoop_link p rtable inp d (txOrder start) (r, []) (r1, sent) hl with
      ⟨a1, a2, a3, a4⟩ | ⟨f, a0, a1, a2, a3, a4⟩
    · have a1' : sentOn d sent = [] := by simpa [sentOn] using a1
      exact ⟨by rw [a1']; simp, Or.inl ⟨a1', a2, a3, a4⟩⟩
    · have a1' : sentOn d sent = [f] := by simpa [sentOn] using a1
      exact ⟨by rw [a1']; simp, Or.inr ⟨f, a1', a0, a2, a3, a4⟩⟩
  · intro i
    rcases txLoop_input p rtable inp i (txOrder start) (r, []) (r1, sent)
      (txOrder_nodup start) hl with ⟨a1, a2⟩ | ⟨f, a0, a1, a2⟩
    · have a2' : takenFrom i sent = [] := by simpa [takenFrom] using a2
      exact ⟨by rw [a2']; simp, Or.inl ⟨a2', a1⟩⟩
    · have a2' : takenFrom i sent = [f] := by simpa [takenFrom] using a2
      exact ⟨by rw [a2']; simp, Or.inr ⟨f, a2', a0, a1⟩⟩

theorem rxProcess_accepts_iff_witness :
    inRange DIRECTION_WEST ∧
    (rxProcess 4 false (fun _ => true) (fun _ => ⟨3, 5, FlitType.FLIT_TYPE_TAIL, 7⟩)
      (idleRouter 4)).1.buffer DIRECTION_WEST = [⟨3, 5, FlitType.FLIT_TYPE_TAIL, 7⟩] ∧
    (((rxProcess 4 false (fun _ => true) (fun _ => ⟨3, 5, FlitType.FLIT_TYPE_TAIL, 7⟩)
        (idleRouter 4)).1.buffer DIRECTION_WEST =
      (if (fun _ => true) DIRECTION_WEST = (!(idleRouter 4).current_level_rx DIRECTION_WEST) ∧
          ¬ ((idleRouter 4).buffer DIRECTION_WEST).IsFull 4 = true
       then ((idleRouter 4).buffer DIRECTION_WEST).Push
          ((fun _ => ⟨3, 5, FlitType.FLIT_TYPE_TAIL, 7⟩) DIRECTION_WEST)
       else (idleRouter 4).buffer DIRECTION_WEST)) ∧
    ((rxProcess 4 false (fun _ => true) (fun _ => ⟨3, 5, FlitType.FLIT_TYPE_TAIL, 7⟩)
        (idleRouter 4)).1.current_level_rx DIRECTION_WEST =
      (if (fun _ => true) DIRECTION_WEST = (!(idleRouter 4).current_level_rx DIRECTION_WEST) ∧
          ¬ ((idleRouter 4).buffer DIRECTION_WEST).IsFull 4 = true
       then !(idleRouter 4).current_level_rx DIRECTION_WEST
       else (idleRouter 4).current_level_rx DIRECTION_WEST)) ∧
    (pushedInto DIRECTION_WEST
        (rxProcess 4 false (fun _ => true) (fun _ => ⟨3, 5, FlitType.FLIT_TYPE_TAIL, 7⟩)
          (idleRouter 4)).2 =
      (if (fun _ => true) DIRECTION_WEST = (!(idleRouter 4).current_level_rx DIRECTION_WEST) ∧
          ¬ ((idleRouter 4).buffer DIRECTION_WEST).IsFull 4 = true
       then [(fun _ => ⟨3, 5, FlitType.FLIT_TYPE_TAIL, 7⟩) DIRECTION_WEST] else [])) ∧
    (rxProcess 4 false (fun _ => true) (fun _ => ⟨3, 5, FlitType.FLIT_TYPE_TAIL, 7⟩)
        (idleRouter 4)).1.ack_rx DIRECTION_WEST =
      (rxProcess 4 false (fun _ => true) (fun _ => ⟨3, 5, FlitType.FLIT_TYPE_TAIL, 7⟩)
        (idleRouter 4)).1.current_level_rx DIRECTION_WEST) :=
  ⟨by decide, by decide,
    rxProcess_accepts_iff 4 (fun _ => true) (fun _ => ⟨3, 5, FlitType.FLIT_TYPE_TAIL, 7⟩)
      (idleRouter 4) DIRECTION_WEST (by decide)⟩

theorem handover_isSome :
    (txProcess mesh3xy noTable false quietTx 3 handoverRouter).isSome = true := by
  decide

theorem reservation_not_preempted_witness :
    (txProcess mesh3xy noTable false quietTx 3 handoverRouter).map
        (fun x => (x.2.1, x.1.reservation_table DIRECTION_EAST)) =
      some ([(DIRECTION_WEST, DIRECTION_EAST, ⟨3, 5, FlitType.FLIT_TYPE_TAIL, 7⟩)],
        DIRECTION_LOCAL) ∧
    ∃ r1 sent start1,
      txProcess mesh3xy noTable false quietTx 3 handoverRouter = some (r1, sent, start1) ∧
      (∀ d i, handoverRouter.reservation_table d = i → i ≠ NOT_RESERVED →
        r1.reservation_table d = i ∨
          ∃ f, f.flit_type = FlitType.FLIT_TYPE_TAIL ∧ (i, d, f) ∈ sent) := by
  obtain ⟨x, hx⟩ := Option.isSome_iff_exists.1 handover_isSome
  exact ⟨by decide, x.1, x.2.1, x.2.2, hx,
    (reservation_not_preempted mesh3xy noTable quietTx 3 handoverRouter x.1 x.2.1 x.2.2
      false hx).1⟩

theorem txProcess_one_flit_per_port_witness :
    (txProcess mesh3xy noTable false quietTx 3 handoverRouter).map (fun x => x.2.1) =
      some [(DIRECTION_WEST, DIRECTION_EAST, ⟨3, 5, FlitType.FLIT_TYPE_TAIL, 7⟩)] ∧
    ∃ r1 sent start1,
      txProcess mesh3xy noTable false quietTx 3 handoverRouter = some (r1, sent, start1) ∧
      (∀ d, (sentOn d sent).length ≤ 1) ∧ (∀ i, (takenFrom i sent).length ≤ 1) := by
  obtain ⟨x, hx⟩ := Option.isSome_iff_exists.1 handover_isSome
  have h := txProcess_one_flit_per_port mesh3xy noTable quietTx 3 handoverRouter
    x.1 x.2.1 x.2.2 hx
  exact ⟨by decide, x.1, x.2.1, x.2.2, hx, fun d => (h.1 d).1, fun i => (h.2 i).1⟩

/-! ## The link between two routers: results -/

theorem txBody_frame (p : TGlobalParams) (rtable : Int → Int → List Int) (inp : TxInputs)
    (st st1 : TRouter × List TxEvent) (i : Int) (h : txBody p rtable inp st i = some st1) :
    st1.1.local_id = st.1.local_id ∧ st1.1.current_level_rx = st.1.current_level_rx ∧
    st1.1.ack_rx = st.1.ack_rx := by
  rcases txBody_spec p rtable inp st st1 i h with rfl | ⟨flit, r1, dest, _, hres, rfl⟩
  · exact ⟨rfl, rfl, rfl⟩
  · obtain ⟨_, hid, _, hclr, _, hack, _⟩ := txReserve_spec p rtable inp st.1 i flit r1 dest hres
    rcases txForward_spec inp (r1, st.2) i flit dest with he | ⟨_, _, he⟩
    · rw [he]; exact ⟨hid, hclr, hack⟩
    · rw [he]; exact ⟨hid, hclr, hack⟩

theorem txLoop_frame (p : TGlobalParams) (rtable : Int → Int → List Int) (inp : TxInputs) :
    ∀ (l : List Int) (st st1 : TRouter × List TxEvent),
      txLoop p rtable inp l st = some st1 →
      st1.1.local_id = st.1.local_id ∧ st1.1.current_level_rx = st.1.current_level_rx ∧
      st1.1.ack_rx = st.1.ack_rx := by
  intro l
  induction l with
  | nil =>
    intro st st1 h
    rw [txLoop_nil] at h
    obtain rfl := Option.some.inj h
    exact ⟨rfl, rfl, rfl⟩
  | cons i l ih =>
    intro st st2 h
    obtain ⟨st1, hb, hl⟩ := txLoop_cons p rtable inp i l st st2 h
    obtain ⟨a1, a2, a3⟩ := txBody_frame p rtable inp st st1 i hb
    obtain ⟨b1, b2, b3⟩ := ih st1 st2 hl
    exact ⟨by rw [b1, a1], by rw [b2, a2], by rw [b3, a3]⟩

theorem inRange_mem_directionIndices (i : Int) (hi : inRange i) : i ∈ directionIndices := by
  obtain ⟨h0, h1⟩ := hi
  unfold DIRECTIONS at h1
  unfold directionIndices
  have : i = 0 ∨ i = 1 ∨ i = 2 ∨ i = 3 ∨ i = 4 := by omega
  simpa using this

theorem resetRouter_levels (r : TRouter) (k : Int) (hk : inRange k) :
    (resetRouter r).current_level_tx k = false ∧ (resetRouter r).req_tx k = false ∧
    (resetRouter r).current_level_rx k = false ∧ (resetRouter r).ack_rx k = false ∧
    (resetRouter r).reservation_table k = NOT_RESERVED := by
  have hm := inRange_mem_directionIndices k hk
  simp only [directionIndices, List.mem_cons, List.mem_singleton, List.not_mem_nil,
    or_false] at hm
  rcases hm with rfl | rfl | rfl | rfl | rfl <;>
    simp [resetRouter, directionIndices, txResetBody, rxResetBody, setCell]

theorem linkInv_reset (d i : Int) (hd : inRange d) (hi : inRange i) (t r : TRouter) :
    linkInv d i (linkReset t r) := by
  obtain ⟨a1, a2, _, _, _⟩ := resetRouter_levels t d hd
  obtain ⟨_, _, b3, b4, _⟩ := resetRouter_levels r i hi
  unfold linkInv linkReset
  simp only
  rw [a1, a2, b3, b4]
  simp

theorem rxProcess_low (depth : Int) (req_rx : Int → Bool) (flit_rx : Int → TFlit)
    (r : TRouter) :
    rxProcess depth false req_rx flit_rx r =
      directionIndices.foldl (rxBody depth req_rx flit_rx) (r, []) := by
  simp [rxProcess]

/-- One cycle of a router seen from its output port `d`: nothing changes on the
port, or one flit is written, which requires the latched `ack` to equal the level. -/
theorem router_cycle_output (p : TGlobalParams) (table : Int → Int → List Int)
    (inp : TxInputs) (start : Nat) (req_rx : Int → Bool) (flit_rx : Int → TFlit)
    (r r2 : TRouter) (sent : List TxEvent) (start1 : Nat) (d : Int)
    (h : txProcess p table false inp start
      (rxProcess p.buffer_depth false req_rx flit_rx r).1 = some (r2, sent, start1)) :
    (sentOn d sent = [] ∧ r2.current_level_tx d = r.current_level_tx d ∧
      r2.req_tx d = r.req_tx d ∧ r2.flit_tx d = r.flit_tx d) ∨
    (∃ f, r.current_level_tx d = inp.ack_tx d ∧ sentOn d sent = [f] ∧
      r2.current_level_tx d = (!r.current_level_tx d) ∧
      r2.req_tx d = (!r.current_level_tx d) ∧ r2.flit_tx d = f) := by
  obtain ⟨hl, _⟩ := txProcess_spec p table inp start _ r2 sent start1 h
  rw [rxProcess_low] at hl
  obtain ⟨_, f1, _, _, f2, f3⟩ := rxLoop_frame p.buffer_depth req_rx flit_rx directionIndices
    (r, [])
  have hlink := txLoop_link p table inp d _ _ _ hl
  unfold linkEffect at hlink
  rw [f1, f2, f3] at hlink
  rcases hlink with ⟨a1, a2, a3, a4⟩ | ⟨f, a0, a1, a2, a3, a4⟩
  · exact Or.inl ⟨by simpa [sentOn] using a1, a2, a3, a4⟩
  · exact Or.inr ⟨f, a0, by simpa [sentOn] using a1, a2, a3, a4⟩

/-- One cycle of a router seen from its input port `i`: the flit on the latched
lines is pushed exactly when the acceptance test holds. -/
theorem router_cycle_input (p : TGlobalParams) (table : Int → Int → List Int)
    (inp : TxInputs) (start : Nat) (req_rx : Int → Bool) (flit_rx : Int → TFlit)
    (r r2 : TRouter) (sent : List TxEvent) (start1 : Nat) (i : Int) (hi : inRange i)
    (h : txProcess p table false inp start
      (rxProcess p.buffer_depth false req_rx flit_rx r).1 = some (r2, sent, start1)) :
    r2.current_level_rx i =
      (if rxAccepts p.buffer_depth req_rx r i then !r.current_level_rx i
       else r.current_level_rx i) ∧
    r2.ack_rx i = r2.current_level_rx i ∧
    pushedInto i (rxProcess p.buffer_depth false req_rx flit_rx r).2 =
      (if rxAccepts p.buffer_depth req_rx r i then [flit_rx i] else []) := by
  obtain ⟨hl, _⟩ := txProcess_spec p table inp start _ r2 sent start1 h
  rw [rxProcess_low] at hl ⊢
  obtain ⟨_, g1, g2⟩ := txLoop_frame p table inp _ _ _ hl
  obtain ⟨_, b2, b3, b4⟩ := rxLoop_same p.buffer_depth req_rx flit_rx i directionIndices
    (r, []) (by decide) (inRange_mem_directionIndices i hi)
  simp only at g1 g2
  rw [g1, g2]
  refine ⟨b2, b3, ?_⟩
  rw [b4]; simp [pushedInto]

/-- What one cycle does to a link that satisfies the invariant: the invariant
holds again, and the transmitter writes at most one flit on the link, and only when
everything written before has been pushed. -/
theorem linkCycle_step (p : TGlobalParams) (ttable rtable : Int → Int → List Int)
    (d i : Int) (hi : inRange i) (e : LinkCycle) (s s1 : LinkState)
    (hinv : linkInv d i s) (h : linkCycle p ttable rtable d i e s = some s1) :
    linkInv d i s1 ∧
    (s1.written = s.written ∨ (s.pushed = s.written ∧ ∃ f, s1.written = s.written ++ [f])) := by
  unfold linkCycle at h
  simp only at h
  split at h
  · exact Option.noConfusion h
  · rename_i t2 sent tstart htx
    split at h
    · exact Option.noConfusion h
    · rename_i r2 rsent rstart hrx
      obtain rfl := Option.some.inj h
      obtain ⟨hreq, hack, hcase⟩ := hinv
      have hout := router_cycle_output p ttable _ _ _ _ _ _ _ _ d htx
      obtain ⟨hin1, hin2, hin3⟩ := router_cycle_input p rtable _ _ _ _ _ _ _ _ i hi hrx
      simp only [setCell_same] at hout
      simp only [rxAccepts, setCell_same] at hin1 hin3
      unfold linkInv
      simp only
      rw [hin2, hin1, hin3]
      rcases hcase with ⟨hlev, hwp⟩ | ⟨hlev, hwp⟩
      · -- levels agree: the receiver sees no request
        have hno : ¬ (s.transmitter.req_tx d = (!s.receiver.current_level_rx i) ∧
            ¬ (s.receiver.buffer i).IsFull p.buffer_depth = true) := by
          rw [hreq, hlev]; intro hc; cases hx : s.receiver.current_level_rx i <;> simp [hx] at hc
        rw [if_neg hno, if_neg hno]
        rcases hout with ⟨a1, a2, a3, a4⟩ | ⟨f, _, a1, a2, a3, a4⟩
        · rw [a1, a2, a3, a4]
          refine ⟨⟨hreq, rfl, Or.inl ⟨hlev, ?_⟩⟩, Or.inl ?_⟩
          · rw [List.append_nil, List.append_nil, hwp]
          · rw [List.append_nil]
        · rw [a1, a2, a3, a4]
          refine ⟨⟨rfl, rfl, Or.inr ⟨by rw [hlev], ?_⟩⟩, Or.inr ⟨hwp.symm, f, rfl⟩⟩
          rw [List.append_nil, hwp]
      · -- levels differ: the transmitter sees no acknowledge
        rcases hout with ⟨a1, a2, a3, a4⟩ | ⟨f, a0, _⟩
        · rw [a1, a2, a3, a4]
          by_cases hacc : s.transmitter.req_tx d = (!s.receiver.current_level_rx i) ∧
              ¬ (s.receiver.buffer i).IsFull p.buffer_depth = true
          · rw [if_pos hacc, if_pos hacc]
            refine ⟨⟨hreq, rfl, Or.inl ⟨hlev, ?_⟩⟩, Or.inl ?_⟩
            · rw [List.append_nil, hwp]
            · rw [List.append_nil]
          · rw [if_neg hacc, if_neg hacc]
            refine ⟨⟨hreq, rfl, Or.inr ⟨hlev, ?_⟩⟩, Or.inl ?_⟩
            · rw [List.append_nil, List.append_nil, hwp]
            · rw [List.append_nil]
        · exfalso
          rw [hack, hlev] at a0
          cases hx : s.receiver.current_level_rx i <;> simp [hx] at a0

theorem linkRun_inv (p : TGlobalParams) (ttable rtable : Int → Int → List Int)
    (d i : Int) (hi : inRange i) : ∀ (es : List LinkCycle) (s s1 : LinkState),
      linkInv d i s → linkRun p ttable rtable d i es s = some s1 → linkInv d i s1 := by
  intro es
  induction es with
  | nil =>
    intro s s1 hinv h
    obtain rfl := Option.some.inj h
    exact hinv
  | cons e es ih =>
    intro s s2 hinv h
    rw [linkRun] at h
    split at h
    · exact Option.noConfusion h
    · rename_i s1 hc
      exact ih s1 s2 (linkCycle_step p ttable rtable d i hi e s s1 hinv hc).1 h

/-- C1: on a directed link from output `d` of a transmitting router to input `i` of
a receiving router, with latched lines and both sides started from reset, in every
reachable state the flits pushed into the receiver's buffer are the flits written on
the link, in order, missing at most the last one; and in every further cycle the
transmitter writes at most one flit, and none unless every flit written before has
been pushed. -/
theorem link_never_drops_or_duplicates (p : TGlobalParams)
    (ttable rtable : Int → Int → List Int) (d i : Int) (hd : inRange d) (hi : inRange i)
    (t r : TRouter) (es : List LinkCycle) (s : LinkState)
    (h : linkRun p ttable rtable d i es (linkReset t r) = some s) :
    (s.written = s.pushed ∨ ∃ f, s.written = s.pushed ++ [f]) ∧
    s.pushed <+: s.written ∧
    (∀ e s1, linkCycle p ttable rtable d i e s = some s1 →
      s1.written = s.written ∨
        (s.pushed = s.written ∧ ∃ f, s1.written = s.written ++ [f])) := by
  have hinv := linkRun_inv p ttable rtable d i hi es _ s (linkInv_reset d i hd hi t r) h
  have hpre : s.written = s.pushed ∨ ∃ f, s.written = s.pushed ++ [f] := by
    rcases hinv.2.2 with ⟨_, hw⟩ | ⟨_, hw⟩
    · exact Or.inl hw
    · exact Or.inr ⟨_, hw⟩
  refine ⟨hpre, ?_, fun e s1 hc => (linkCycle_step p ttable rtable d i hi e s s1 hinv hc).2⟩
  rcases hpre with hw | ⟨f, hw⟩
  · rw [hw]
  · rw [hw]; exact List.prefix_append _ _

theorem injectRun_isSome :
    (linkRun mesh3xy noTable noTable DIRECTION_EAST DIRECTION_WEST [injectCycle, injectCycle]
      (linkReset (idleRouter 3) (idleRouter 4))).isSome = true := by
  decide

theorem link_never_drops_or_duplicates_witness :
    inRange DIRECTION_EAST ∧ inRange DIRECTION_WEST ∧
    (linkRun mesh3xy noTable noTable DIRECTION_EAST DIRECTION_WEST [injectCycle]
      (linkReset (idleRouter 3) (idleRouter 4))).map (fun s => (s.written, s.pushed)) =
        some ([headTo5], []) ∧
    (linkRun mesh3xy noTable noTable DIRECTION_EAST DIRECTION_WEST [injectCycle, injectCycle]
      (linkReset (idleRouter 3) (idleRouter 4))).map (fun s => (s.written, s.pushed)) =
        some ([headTo5], [headTo5]) ∧
    ∃ s, linkRun mesh3xy noTable noTable DIRECTION_EAST DIRECTION_WEST
        [injectCycle, injectCycle] (linkReset (idleRouter 3) (idleRouter 4)) = some s ∧
      (s.written = s.pushed ∨ ∃ f, s.written = s.pushed ++ [f]) ∧
      s.pushed <+: s.written ∧
      (∀ e s1, linkCycle mesh3xy noTable noTable DIRECTION_EAST DIRECTION_WEST e s = some s1 →
        s1.written = s.written ∨
          (s.pushed = s.written ∧ ∃ f, s1.written = s.written ++ [f])) := by
  obtain ⟨s, hs⟩ := Option.isSome_iff_exists.1 injectRun_isSome
  exact ⟨by decide, by decide, by decide, by decide, s, hs,
    link_never_drops_or_duplicates mesh3xy noTable noTable DIRECTION_EAST DIRECTION_WEST
      (by decide) (by decide) (idleRouter 3) (idleRouter 4) [injectCycle, injectCycle] s hs⟩

/-! ## Runs in which a stalled head flit is routed again -/

/-- C3 (failing run): fully adaptive routing with random selection, centre router of
a 3×3 mesh, run `splitWormRun` from reset. The head of packet C, stalled on the link
handshake, is routed again in each cycle: it reserves EAST, then SOUTH (which
overwrites `short_circuit[LOCAL]`), and is finally forwarded through EAST; its tail
follows `short_circuit[LOCAL]` and is forwarded through SOUTH. -/
theorem tail_leaves_through_other_output_than_head :
    (routerRun mesh3adaptive noTable (splitWormRun.take 4)
        (resetRouter (idleRouter 4), [])).map
        (fun st => (st.2, st.1.reservation_table DIRECTION_EAST,
          st.1.reservation_table DIRECTION_SOUTH, st.1.short_circuit DIRECTION_LOCAL,
          st.1.buffer DIRECTION_LOCAL)) =
      some ([(DIRECTION_WEST, DIRECTION_SOUTH, flitBH), (DIRECTION_NORTH, DIRECTION_EAST, flitAH),
          (DIRECTION_NORTH, DIRECTION_EAST, flitAT), (DIRECTION_WEST, DIRECTION_SOUTH, flitBT)],
        DIRECTION_LOCAL, DIRECTION_LOCAL, DIRECTION_SOUTH, [flitCH]) ∧
    (routerRun mesh3adaptive noTable splitWormRun (resetRouter (idleRouter 4), [])).map
        (fun st => st.2) =
      some [(DIRECTION_WEST, DIRECTION_SOUTH, flitBH), (DIRECTION_NORTH, DIRECTION_EAST, flitAH),
        (DIRECTION_NORTH, DIRECTION_EAST, flitAT), (DIRECTION_WEST, DIRECTION_SOUTH, flitBT),
        (DIRECTION_LOCAL, DIRECTION_EAST, flitCH), (DIRECTION_LOCAL, DIRECTION_SOUTH, flitCT)] := by
  constructor <;> decide

/-- C5 (failing run): fully adaptive routing with random selection, centre router of
a 3×3 mesh, run `staleReservationRun` from reset. The head of packet C reserves EAST,
stalls, is routed again to SOUTH and leaves through SOUTH with its tail, which
releases SOUTH only. The head of the next packet D is then forwarded through EAST,
still reserved by LOCAL; after that, and before the tail of D is forwarded,
`short_circuit[LOCAL]` is SOUTH and `reservation_table[SOUTH]` is NOT_RESERVED. -/
theorem reservation_of_short_circuit_lost :
    (routerRun mesh3adaptive noTable staleReservationRun (resetRouter (idleRouter 4), [])).map
        (fun st => (st.2, st.1.short_circuit DIRECTION_LOCAL,
          st.1.reservation_table (st.1.short_circuit DIRECTION_LOCAL),
          st.1.reservation_table DIRECTION_EAST)) =
      some ([(DIRECTION_NORTH, DIRECTION_EAST, flitAH), (DIRECTION_NORTH, DIRECTION_EAST, flitAT),
          (DIRECTION_LOCAL, DIRECTION_SOUTH, flitCH), (DIRECTION_LOCAL, DIRECTION_SOUTH, flitCT),
          (DIRECTION_LOCAL, DIRECTION_EAST, flitDH)],
        DIRECTION_SOUTH, NOT_RESERVED, DIRECTION_LOCAL) := by
  decide

/-! ## Routing dispatch and selection: results -/

theorem getElem?_mod_mem (l : List Int) (rnd : Nat) (h : l ≠ []) :
    ∃ d, l[rnd % l.length]? = some d ∧ d ∈ l := by
  have hlen : 0 < l.length := List.length_pos.2 h
  have hlt : rnd % l.length < l.length := Nat.mod_lt _ hlen
  exact ⟨l[rnd % l.length], List.getElem?_eq_getElem hlt, List.getElem_mem hlt⟩

theorem selectionRandom_mem (rnd : Nat) (l : List Int) (h : l ≠ []) :
    ∃ d, selectionRandom rnd l = some d ∧ d ∈ l := by
  unfold selectionRandom
  rw [if_neg (fun hc => h (List.length_eq_zero.1 hc))]
  exact getElem?_mod_mem l rnd h

theorem selectionNoP_mem (rnd : Nat) (l : List Int) (rd : TRouteData) (h : l ≠ []) :
    ∃ d, selectionNoP rnd l rd = some d ∧ d ∈ l := by
  unfold selectionNoP
  rw [if_neg (fun hc => h (List.length_eq_zero.1 hc))]
  exact getElem?_mod_mem l rnd h

theorem freePositions_nonneg (depth : Int) (lvl : Int → Int) (d : Int) :
    0 ≤ freePositions depth lvl d := by
  unfold freePositions
  exact Int.emod_nonneg _ (by norm_num)

theorem bufferLevelBody_eq (depth : Int) (lvl rt : Int → Int) (st : Int × Int) (d : Int) :
    bufferLevelBody depth lvl rt st d =
      if freePositions depth lvl d ≥ st.1 ∧ rt d = NOT_RESERVED
      then (freePositions depth lvl d, d) else st := rfl

/-- The loop of `selectionBufferLevel` from state `(m, c)`: either no candidate was
taken, or the state is the last unreserved candidate among those with the most free
positions. -/
theorem bufferLevel_fold (depth : Int) (lvl rt : Int → Int) :
    ∀ (l : List Int) (m c : Int),
      ((l.foldl (bufferLevelBody depth lvl rt) (m, c)) = (m, c) ∧
        ∀ d ∈ l, rt d = NOT_RESERVED → freePositions depth lvl d < m) ∨
      (∃ pre x post, l = pre ++ x :: post ∧
        (l.foldl (bufferLevelBody depth lvl rt) (m, c)) = (freePositions depth lvl x, x) ∧
        rt x = NOT_RESERVED ∧ m ≤ freePositions depth lvl x ∧
        (∀ d ∈ pre, rt d = NOT_RESERVED → freePositions depth lvl d ≤ freePositions depth lvl x) ∧
        (∀ d ∈ post, rt d = NOT_RESERVED →
          freePositions depth lvl d < freePositions depth lvl x)) := by
  intro l
  induction l with
  | nil => intro m c; exact Or.inl ⟨rfl, by simp⟩
  | cons d l ih =>
    intro m c
    rw [List.foldl_cons, bufferLevelBody_eq]
    by_cases hd : freePositions depth lvl d ≥ m ∧ rt d = NOT_RESERVED
    · rw [if_pos hd]
      rcases ih (freePositions depth lvl d) d with ⟨he, hall⟩ | ⟨pre, x, post, hl, he, hx, hm, hpre, hpost⟩
      · exact Or.inr ⟨[], d, l, rfl, he, hd.2, hd.1, by simp, hall⟩
      · refine Or.inr ⟨d :: pre, x, post, by rw [hl]; rfl, he, hx, le_trans hd.1 hm, ?_, hpost⟩
        intro y hy hy2
        rcases List.mem_cons.1 hy with rfl | hy
        · exact hm
        · exact hpre y hy hy2
    · rw [if_neg hd]
      have hdlt : rt d = NOT_RESERVED → freePositions depth lvl d < m := by
        intro h; by_contra hc; exact hd ⟨not_lt.1 hc, h⟩
      rcases ih m c with ⟨he, hall⟩ | ⟨pre, x, post, hl, he, hx, hm, hpre, hpost⟩
      · refine Or.inl ⟨he, ?_⟩
        intro y hy hy2
        rcases List.mem_cons.1 hy with rfl | hy
        · exact hdlt hy2
        · exact hall y hy hy2
      · refine Or.inr ⟨d :: pre, x, post, by rw [hl]; rfl, he, hx, hm, ?_, hpost⟩
        intro y hy hy2
        rcases List.mem_cons.1 hy with rfl | hy
        · exact le_of_lt (lt_of_lt_of_le (hdlt hy2) hm)
        · exact hpre y hy hy2

theorem inRange_ne_NOT_VALID (d : Int) (h : inRange d) : d ≠ NOT_VALID ∧ 0 ≤ d := by
  obtain ⟨h0, _⟩ := h
  unfold NOT_VALID
  exact ⟨by omega, h0⟩

/-- What `selectionBufferLevel` returns on a non-empty list of directions: the last
unreserved candidate among those with the most free positions, or, when every
candidate is reserved, the random pick. -/
theorem selectionBufferLevel_spec (depth : Int) (lvl rt : Int → Int) (rnd : Nat)
    (l : List Int) (hne : l ≠ []) (hr : ∀ d ∈ l, inRange d) :
    ((∀ d ∈ l, rt d ≠ NOT_RESERVED) ∧
      ∃ d, selectionBufferLevel depth lvl rt rnd l = some d ∧ d ∈ l) ∨
    (∃ pre x post, l = pre ++ x :: post ∧
      selectionBufferLevel depth lvl rt rnd l = some x ∧ rt x = NOT_RESERVED ∧
      (∀ d ∈ pre, rt d = NOT_RESERVED → freePositions depth lvl d ≤ freePositions depth lvl x) ∧
      (∀ d ∈ post, rt d = NOT_RESERVED →
        freePositions depth lvl d < freePositions depth lvl x)) := by
  unfold selectionBufferLevel
  rw [if_neg (not_not.2 hr)]
  simp only
  rcases bufferLevel_fold depth lvl rt l 0 NOT_VALID with ⟨he, hall⟩ | ⟨pre, x, post, hl, he, hx, _, hpre, hpost⟩
  · left
    refine ⟨fun d hd hc => absurd (hall d hd hc) (not_lt.2 (freePositions_nonneg depth lvl d)), ?_⟩
    rw [he]
    simp only [if_true, if_neg (fun hc => hne (List.length_eq_zero.1 hc))]
    obtain ⟨d, hd, hmem⟩ := getElem?_mod_mem l rnd hne
    refine ⟨d, ?_, hmem⟩
    rw [hd]
    simp only
    rw [if_pos (inRange_ne_NOT_VALID d (hr d hmem)).2]
  · right
    have hxl : x ∈ l := by rw [hl]; simp
    obtain ⟨hxv, hx0⟩ := inRange_ne_NOT_VALID x (hr x hxl)
    refine ⟨pre, x, post, hl, ?_, hx, hpre, hpost⟩
    rw [he]
    simp only [if_neg hxv]
    rw [if_pos hx0]

theorem selectionBufferLevel_mem (depth : Int) (lvl rt : Int → Int) (rnd : Nat)
    (l : List Int) (hne : l ≠ []) (hr : ∀ d ∈ l, inRange d) :
    ∃ d, selectionBufferLevel depth lvl rt rnd l = some d ∧ d ∈ l := by
  rcases selectionBufferLevel_spec depth lvl rt rnd l hne hr with ⟨_, h⟩ | ⟨pre, x, post, hl, h, _⟩
  · exact h
  · exact ⟨x, h, by rw [hl]; simp⟩

theorem selectionFunction_mem (p : TGlobalParams) (lvl rt : Int → Int) (rnd : Nat)
    (l : List Int) (rd : TRouteData) (hne : l ≠ []) (hr : ∀ d ∈ l, inRange d) :
    ∃ d, selectionFunction p lvl rt rnd l rd = some d ∧ d ∈ l := by
  unfold selectionFunction
  split_ifs with h1
  · match l, h1 with
    | [x], _ => exact ⟨x, rfl, by simp⟩
  · cases hs : p.selection_strategy with
    | SEL_RANDOM => exact selectionRandom_mem rnd l hne
    | SEL_BUFFER_LEVEL => exact selectionBufferLevel_mem p.buffer_depth lvl rt rnd l hne hr
    | SEL_NOP => exact selectionNoP_mem rnd l rd hne

/-- C19: for every non-empty list of candidate directions, every selection strategy,
every router state and every value returned by the random source,
`selectionFunction` returns an element of the candidate list, never NOT_VALID; and
when the list has exactly one element it returns that element. -/
theorem selectionFunction_returns_candidate (p : TGlobalParams)
    (buffer_level_neighbor : Int → Int) (r : TRouter) (rnd : Nat) (directions : List Int)
    (route_data : TRouteData) (hne : directions ≠ []) (hr : ∀ d ∈ directions, inRange d) :
    (∃ d, selectionFunction p buffer_level_neighbor r.reservation_table rnd directions
        route_data = some d ∧ d ∈ directions ∧ d ≠ NOT_VALID) ∧
    (∀ x, directions = [x] →
      selectionFunction p buffer_level_neighbor r.reservation_table rnd directions
        route_data = some x) := by
  constructor
  · obtain ⟨d, hd, hmem⟩ := selectionFunction_mem p buffer_level_neighbor
      r.reservation_table rnd directions route_data hne hr
    exact ⟨d, hd, hmem, (inRange_ne_NOT_VALID d (hr d hmem)).1⟩
  · rintro x rfl
    simp [selectionFunction]

theorem selectionFunction_returns_candidate_witness :
    [DIRECTION_SOUTH, DIRECTION_EAST] ≠ [] ∧
    (∀ d ∈ [DIRECTION_SOUTH, DIRECTION_EAST], inRange d) ∧
    selectionFunction mesh3level (fun _ => 0) (idleRouter 4).reservation_table 7
      [DIRECTION_SOUTH, DIRECTION_EAST] ⟨4, 4, 8, DIRECTION_LOCAL⟩ = some DIRECTION_EAST ∧
    ((∃ d, selectionFunction mesh3level (fun _ => 0) (idleRouter 4).reservation_table 7
        [DIRECTION_SOUTH, DIRECTION_EAST] ⟨4, 4, 8, DIRECTION_LOCAL⟩ = some d ∧
        d ∈ [DIRECTION_SOUTH, DIRECTION_EAST] ∧ d ≠ NOT_VALID) ∧
    (∀ x, [DIRECTION_SOUTH, DIRECTION_EAST] = [x] →
      selectionFunction mesh3level (fun _ => 0) (idleRouter 4).reservation_table 7
        [DIRECTION_SOUTH, DIRECTION_EAST] ⟨4, 4, 8, DIRECTION_LOCAL⟩ = some x)) :=
  ⟨by decide, by decide, by decide,
    selectionFunction_returns_candidate mesh3level (fun _ => 0) (idleRouter 4) 7
      [DIRECTION_SOUTH, DIRECTION_EAST] ⟨4, 4, 8, DIRECTION_LOCAL⟩ (by decide) (by decide)⟩

theorem isExternal_inRange (d : Int) (h : isExternal d) : inRange d ∧ d ≠ DIRECTION_LOCAL := by
  unfold inRange DIRECTIONS DIRECTION_LOCAL
  rcases h with rfl | rfl | rfl | rfl <;> decide

theorem routingFunction_good (p : TGlobalParams) (rtable : Int → Int → List Int)
    (rd : TRouteData) (halg : coordinateBased p.routing_algorithm = true)
    (hid : 0 ≤ rd.current_id) :
    ∃ l, routingFunction p rtable rd = some l ∧ goodDirections l := by
  unfold routingFunction
  cases ha : p.routing_algorithm <;> rw [ha] at halg <;> simp only [coordinateBased] at halg
  · exact ⟨_, rfl, goodDirections_routingXY _ _⟩
  · exact ⟨_, rfl, goodDirections_routingWestFirst _ _⟩
  · exact ⟨_, rfl, goodDirections_routingNorthLast _ _⟩
  · exact ⟨_, rfl, goodDirections_routingNegativeFirst _ _⟩
  · apply routingOddEven_good
    unfold id2Coord
    exact Int.tmod_nonneg _ hid
  · exact absurd halg (by decide)
  · exact ⟨_, rfl, goodDirections_routingFullyAdaptive _ _⟩
  · exact absurd halg (by decide)

/-- C11: for every coordinate-based routing algorithm, every selection strategy and
every outcome of the random source, at a tile with a non-negative id, `route` returns
DIRECTION_LOCAL if and only if `route_data.dst_id` equals the router's `local_id`;
when they differ the result is an external direction. -/
theorem route_local_iff_destination (p : TGlobalParams) (rtable : Int → Int → List Int)
    (buffer_level_neighbor : Int → Int) (rnd : Nat) (r : TRouter) (route_data : TRouteData)
    (halg : coordinateBased p.routing_algorithm = true) (hid : 0 ≤ route_data.current_id) :
    (route p rtable buffer_level_neighbor rnd r route_data = some DIRECTION_LOCAL ↔
      route_data.dst_id = r.local_id) ∧
    (route_data.dst_id ≠ r.local_id →
      ∃ d, route p rtable buffer_level_neighbor rnd r route_data = some d ∧ isExternal d) := by
  obtain ⟨l, hl, hne, hext⟩ := routingFunction_good p rtable route_data halg hid
  obtain ⟨d, hd, hmem⟩ := selectionFunction_mem p buffer_level_neighbor r.reservation_table
    rnd l route_data hne (fun x hx => (isExternal_inRange x (hext x hx).1).1)
  have hroute : route_data.dst_id ≠ r.local_id →
      route p rtable buffer_level_neighbor rnd r route_data = some d := by
    intro hdst
    unfold route
    rw [if_neg hdst, hl]
    exact hd
  constructor
  · constructor
    · intro h
      by_contra hdst
      rw [hroute hdst] at h
      exact (hext d hmem).2 (Option.some.inj h)
    · intro h
      unfold route
      rw [if_pos h]
  · intro hdst
    exact ⟨d, hroute hdst, (hext d hmem).1⟩

theorem route_local_iff_destination_witness :
    coordinateBased mesh3level.routing_algorithm = true ∧
    (0 : Int) ≤ (⟨4, 4, 8, DIRECTION_LOCAL⟩ : TRouteData).current_id ∧
    route mesh3level noTable (fun _ => 0) 7 (idleRouter 4) ⟨4, 4, 8, DIRECTION_LOCAL⟩ =
      some DIRECTION_EAST ∧
    route mesh3level noTable (fun _ => 0) 7 (idleRouter 4) ⟨4, 3, 4, DIRECTION_WEST⟩ =
      some DIRECTION_LOCAL ∧
    ((route mesh3level noTable (fun _ => 0) 7 (idleRouter 4) ⟨4, 4, 8, DIRECTION_LOCAL⟩ =
        some DIRECTION_LOCAL ↔
      (⟨4, 4, 8, DIRECTION_LOCAL⟩ : TRouteData).dst_id = (idleRouter 4).local_id) ∧
    ((⟨4, 4, 8, DIRECTION_LOCAL⟩ : TRouteData).dst_id ≠ (idleRouter 4).local_id →
      ∃ d, route mesh3level noTable (fun _ => 0) 7 (idleRouter 4)
        ⟨4, 4, 8, DIRECTION_LOCAL⟩ = some d ∧ isExternal d)) :=
  ⟨by decide, by decide, by decide, by decide,
    route_local_iff_destination mesh3level noTable (fun _ => 0) 7 (idleRouter 4)
      ⟨4, 4, 8, DIRECTION_LOCAL⟩ (by decide) (by decide)⟩

/-- C12: for all current, source and destination coordinates with non-negative
components, `routingOddEven` returns between 1 and 2 directions, so its closing
assertion does not fail; and when the destination is strictly east and in another
row, at least one of the two conditional appends (vertical move, EAST) fires. -/
theorem routingOddEven_one_or_two (current source destination : TCoord)
    (hc : 0 ≤ current.x ∧ 0 ≤ current.y) (_hs : 0 ≤ source.x ∧ 0 ≤ source.y)
    (hd : 0 ≤ destination.x ∧ 0 ≤ destination.y) :
    (∃ l, routingOddEven current source destination = some l ∧
      1 ≤ l.length ∧ l.length ≤ 2) ∧
    (destination.x > current.x → destination.y ≠ current.y →
      (current.x.tmod 2 = 1 ∨ current.x = source.x) ∨
      (destination.x.tmod 2 = 1 ∨ destination.x - current.x ≠ 1)) := by
  have hl := oddEvenDirections_length current source destination hc.1
  constructor
  · refine ⟨oddEvenDirections current source destination, ?_, hl.1, hl.2⟩
    unfold routingOddEven; simp only; rw [if_pos hl]
  · intro _ _
    have h1 := tmod_two_of_nonneg current.x hc.1
    have h2 := tmod_two_of_nonneg destination.x hd.1
    omega

theorem routingOddEven_one_or_two_witness :
    routingOddEven ⟨2, 1⟩ ⟨0, 1⟩ ⟨3, 0⟩ = some [DIRECTION_EAST] ∧
    routingOddEven ⟨1, 1⟩ ⟨0, 1⟩ ⟨3, 0⟩ = some [DIRECTION_NORTH, DIRECTION_EAST] ∧
    ((∃ l, routingOddEven ⟨2, 1⟩ ⟨0, 1⟩ ⟨3, 0⟩ = some l ∧ 1 ≤ l.length ∧ l.length ≤ 2) ∧
    ((⟨3, 0⟩ : TCoord).x > (⟨2, 1⟩ : TCoord).x → (⟨3, 0⟩ : TCoord).y ≠ (⟨2, 1⟩ : TCoord).y →
      ((⟨2, 1⟩ : TCoord).x.tmod 2 = 1 ∨ (⟨2, 1⟩ : TCoord).x = (⟨0, 1⟩ : TCoord).x) ∨
      ((⟨3, 0⟩ : TCoord).x.tmod 2 = 1 ∨ (⟨3, 0⟩ : TCoord).x - (⟨2, 1⟩ : TCoord).x ≠ 1))) :=
  ⟨by decide, by decide,
    routingOddEven_one_or_two ⟨2, 1⟩ ⟨0, 1⟩ ⟨3, 0⟩ (by decide) (by decide) (by decide)⟩

theorem freePositions_eq (depth : Int) (lvl : Int → Int) (d : Int)
    (h0 : 0 ≤ lvl d) (h1 : lvl d ≤ depth) (h2 : depth < 2 ^ 32) :
    freePositions depth lvl d = depth - lvl d := by
  unfold freePositions
  exact Int.emod_eq_of_lt (by omega) (by omega)

/-- C13: for every list of candidate directions of which at least one has
`reservation_table[d] = NOT_RESERVED`, with every `buffer_level_neighbor` value between
0 and `buffer_depth`, `selectionBufferLevel` returns an unreserved candidate whose
free-slot count `buffer_depth - buffer_level_neighbor[d]` is the maximum over all
unreserved candidates. -/
theorem selectionBufferLevel_most_free (buffer_depth : Int)
    (buffer_level_neighbor reservation_table : Int → Int) (rnd : Nat)
    (directions : List Int) (hr : ∀ d ∈ directions, inRange d)
    (hfree : ∃ d ∈ directions, reservation_table d = NOT_RESERVED)
    (hlvl : ∀ d ∈ directions, 0 ≤ buffer_level_neighbor d ∧
      buffer_level_neighbor d ≤ buffer_depth)
    (hdepth : buffer_depth < 2 ^ 32) :
    ∃ d, selectionBufferLevel buffer_depth buffer_level_neighbor reservation_table rnd
        directions = some d ∧
      d ∈ directions ∧ reservation_table d = NOT_RESERVED ∧
      ∀ d1 ∈ directions, reservation_table d1 = NOT_RESERVED →
        buffer_depth - buffer_level_neighbor d1 ≤ buffer_depth - buffer_level_neighbor d := by
  obtain ⟨d0, hd0, hd0free⟩ := hfree
  have hne : directions ≠ [] := by intro h; rw [h] at hd0; simp at hd0
  rcases selectionBufferLevel_spec buffer_depth buffer_level_neighbor reservation_table rnd
    directions hne hr with ⟨hall, _⟩ | ⟨pre, x, post, hl, hsel, hx, hpre, hpost⟩
  · exact absurd hd0free (hall d0 hd0)
  · have hxl : x ∈ directions := by rw [hl]; simp
    refine ⟨x, hsel, hxl, hx, ?_⟩
    intro d1 hd1 hd1free
    have e1 := freePositions_eq buffer_depth buffer_level_neighbor d1 (hlvl d1 hd1).1
      (hlvl d1 hd1).2 hdepth
    have ex := freePositions_eq buffer_depth buffer_level_neighbor x (hlvl x hxl).1
      (hlvl x hxl).2 hdepth
    rw [← e1, ← ex]
    rw [hl] at hd1
    rcases List.mem_append.1 hd1 with h | h
    · exact hpre d1 h hd1free
    · rcases List.mem_cons.1 h with rfl | h
      · exact le_refl _
      · exact le_of_lt (hpost d1 h hd1free)

theorem selectionBufferLevel_most_free_witness :
    (∀ d ∈ [DIRECTION_NORTH, DIRECTION_EAST], inRange d) ∧
    selectionBufferLevel 4 (fun d => if d = DIRECTION_NORTH then 1 else 3)
      (fun _ => NOT_RESERVED) 0 [DIRECTION_NORTH, DIRECTION_EAST] = some DIRECTION_NORTH ∧
    ∃ d, selectionBufferLevel 4 (fun d => if d = DIRECTION_NORTH then 1 else 3)
        (fun _ => NOT_RESERVED) 0 [DIRECTION_NORTH, DIRECTION_EAST] = some d ∧
      d ∈ [DIRECTION_NORTH, DIRECTION_EAST] ∧ (fun _ => NOT_RESERVED) d = NOT_RESERVED ∧
      ∀ d1 ∈ [DIRECTION_NORTH, DIRECTION_EAST], (fun _ => NOT_RESERVED) d1 = NOT_RESERVED →
        4 - (fun d => if d = DIRECTION_NORTH then 1 else 3) d1 ≤
          4 - (fun d => if d = DIRECTION_NORTH then (1 : Int) else 3) d :=
  ⟨by decide, by decide,
    selectionBufferLevel_most_free 4 (fun d => if d = DIRECTION_NORTH then 1 else 3)
      (fun _ => NOT_RESERVED) 0 [DIRECTION_NORTH, DIRECTION_EAST] (by decide)
      ⟨DIRECTION_NORTH, by decide, rfl⟩ (by decide) (by decide)⟩

/-- C14 (amended): in `selectionBufferLevel`, when several unreserved candidates share
the maximal free-slot count, the one that comes last in the candidate list is
returned: every unreserved candidate after the returned one has strictly fewer free
slots, every unreserved candidate before it has at most as many. -/
theorem selectionBufferLevel_last_of_ties (buffer_depth : Int)
    (buffer_level_neighbor reservation_table : Int → Int) (rnd : Nat)
    (directions : List Int) (hr : ∀ d ∈ directions, inRange d)
    (hfree : ∃ d ∈ directions, reservation_table d = NOT_RESERVED)
    (hlvl : ∀ d ∈ directions, 0 ≤ buffer_level_neighbor d ∧
      buffer_level_neighbor d ≤ buffer_depth)
    (hdepth : buffer_depth < 2 ^ 32) :
    ∃ pre d post, directions = pre ++ d :: post ∧
      selectionBufferLevel buffer_depth buffer_level_neighbor reservation_table rnd
        directions = some d ∧
      reservation_table d = NOT_RESERVED ∧
      (∀ d1 ∈ pre, reservation_table d1 = NOT_RESERVED →
        buffer_depth - buffer_level_neighbor d1 ≤ buffer_depth - buffer_level_neighbor d) ∧
      (∀ d1 ∈ post, reservation_table d1 = NOT_RESERVED →
        buffer_depth - buffer_level_neighbor d1 < buffer_depth - buffer_level_neighbor d) := by
  obtain ⟨d0, hd0, hd0free⟩ := hfree
  have hne : directions ≠ [] := by intro h; rw [h] at hd0; simp at hd0
  rcases selectionBufferLevel_spec buffer_depth buffer_level_neighbor reservation_table rnd
    directions hne hr with ⟨hall, _⟩ | ⟨pre, x, post, hl, hsel, hx, hpre, hpost⟩
  · exact absurd hd0free (hall d0 hd0)
  · have hxl : x ∈ directions := by rw [hl]; simp
    have ex := freePositions_eq buffer_depth buffer_level_neighbor x (hlvl x hxl).1
      (hlvl x hxl).2 hdepth
    refine ⟨pre, x, post, hl, hsel, hx, ?_, ?_⟩
    · intro d1 hd1 hd1free
      have hd1l : d1 ∈ directions := by rw [hl]; simp [hd1]
      have e1 := freePositions_eq buffer_depth buffer_level_neighbor d1 (hlvl d1 hd1l).1
        (hlvl d1 hd1l).2 hdepth
      rw [← e1, ← ex]
      exact hpre d1 hd1 hd1free
    · intro d1 hd1 hd1free
      have hd1l : d1 ∈ directions := by rw [hl]; simp [hd1]
      have e1 := freePositions_eq buffer_depth buffer_level_neighbor d1 (hlvl d1 hd1l).1
        (hlvl d1 hd1l).2 hdepth
      rw [← e1, ← ex]
      exact hpost d1 hd1 hd1free

theorem selectionBufferLevel_last_of_ties_witness :
    (∀ d ∈ [DIRECTION_NORTH, DIRECTION_EAST], inRange d) ∧
    ∃ pre d post, [DIRECTION_NORTH, DIRECTION_EAST] = pre ++ d :: post ∧
      selectionBufferLevel 4 (fun _ => 1) (fun _ => NOT_RESERVED) 0
        [DIRECTION_NORTH, DIRECTION_EAST] = some d ∧
      (fun _ => NOT_RESERVED) d = NOT_RESERVED ∧
      (∀ d1 ∈ pre, (fun _ => NOT_RESERVED) d1 = NOT_RESERVED →
        4 - (fun _ => (1 : Int)) d1 ≤ 4 - (fun _ => (1 : Int)) d) ∧
      (∀ d1 ∈ post, (fun _ => NOT_RESERVED) d1 = NOT_RESERVED →
        4 - (fun _ => (1 : Int)) d1 < 4 - (fun _ => (1 : Int)) d) :=
  ⟨by decide,
    selectionBufferLevel_last_of_ties 4 (fun _ => 1) (fun _ => NOT_RESERVED) 0
      [DIRECTION_NORTH, DIRECTION_EAST] (by decide) ⟨DIRECTION_NORTH, by decide, rfl⟩
      (by decide) (by decide)⟩

/-- C14 (counterexample): with candidates NORTH then EAST, both unreserved and both
with 3 free slots out of 4, `selectionBufferLevel` returns EAST, the second one. -/
theorem selectionBufferLevel_tie_returns_second :
    (fun _ => NOT_RESERVED) DIRECTION_NORTH = NOT_RESERVED ∧
    (fun _ => NOT_RESERVED) DIRECTION_EAST = NOT_RESERVED ∧
    4 - (fun _ => (1 : Int)) DIRECTION_NORTH = 4 - (fun _ => (1 : Int)) DIRECTION_EAST ∧
    selectionBufferLevel 4 (fun _ => 1) (fun _ => NOT_RESERVED) 0
      [DIRECTION_NORTH, DIRECTION_EAST] = some DIRECTION_EAST ∧
    selectionBufferLevel 4 (fun _ => 1) (fun _ => NOT_RESERVED) 0
      [DIRECTION_NORTH, DIRECTION_EAST] ≠ some DIRECTION_NORTH := by
  decide

/-! ## Odd-Even routing: turns and minimality -/

theorem getNeighborId_valid (p : TGlobalParams) (c : TCoord) (h : inMesh p c) (d n : Int)
    (hn : getNeighborId p (coord2Id p c) d = some n) (hv : n ≠ NOT_VALID) :
    pointsInside p c d := by
  obtain ⟨hx0, hx1, hy0, hy1⟩ := h
  unfold getNeighborId at hn
  rw [id2Coord_coord2Id p c ⟨hx0, hx1, hy0, hy1⟩] at hn
  simp only at hn
  unfold pointsInside
  split_ifs at hn with h1 h2 h3 h4 h5 h6 h7 h8
  · exact absurd (Option.some.inj hn).symm hv
  · exact Or.inl ⟨h1, by omega⟩
  · exact absurd (Option.some.inj hn).symm hv
  · exact Or.inr (Or.inl ⟨h3, by omega⟩)
  · exact absurd (Option.some.inj hn).symm hv
  · exact Or.inr (Or.inr (Or.inl ⟨h5, by omega⟩))
  · exact absurd (Option.some.inj hn).symm hv
  · exact Or.inr (Or.inr (Or.inr ⟨h7, by omega⟩))

theorem routingOddEven_eq (c s d : TCoord) (l : List Int)
    (h : routingOddEven c s d = some l) : l = oddEvenDirections c s d := by
  unfold routingOddEven at h
  simp only at h
  split_ifs at h
  exact (Option.some.inj h).symm

theorem oddEven_no_east_then_vertical (cur src dst : TCoord) (hx : 0 ≤ cur.x)
    (hbetween : min src.x dst.x ≤ cur.x ∧ cur.x ≤ max src.x dst.x)
    (hE : DIRECTION_EAST ∈ oddEvenDirections cur src dst)
    (hne : ({ cur with x := cur.x + 1 } : TCoord) ≠ dst)
    (heven : (cur.x + 1) % 2 = 0) (d1 : Int)
    (hd1 : d1 ∈ oddEvenDirections { cur with x := cur.x + 1 } src dst) :
    d1 ≠ DIRECTION_NORTH ∧ d1 ≠ DIRECTION_SOUTH := by
  have hne2 : cur.x + 1 ≠ dst.x ∨ cur.y ≠ dst.y := by
    by_contra hcon
    push_neg at hcon
    exact hne (by cases cur; cases dst; simp_all)
  have t1 := tmod_two_of_nonneg cur.x hx
  have t2 := tmod_two_of_nonneg (cur.x + 1) (by omega)
  have hmin := min_le_iff.1 hbetween.1
  have hmax := le_max_iff.1 hbetween.2
  unfold oddEvenDirections at hE hd1
  simp only at hE hd1
  have hdx : dst.x > cur.x := by
    by_contra hc
    split_ifs at hE <;>
      simp [DIRECTION_NORTH, DIRECTION_EAST, DIRECTION_SOUTH, DIRECTION_WEST] at hE <;> omega
  have t3 := tmod_two_of_nonneg dst.x (by omega)
  split_ifs at hE <;>
    simp [DIRECTION_NORTH, DIRECTION_EAST, DIRECTION_SOUTH, DIRECTION_WEST] at hE <;>
    split_ifs at hd1 <;>
    simp [DIRECTION_NORTH, DIRECTION_EAST, DIRECTION_SOUTH, DIRECTION_WEST] at hd1 ⊢ <;>
    omega

theorem oddEven_no_vertical_then_west (cur src dst : TCoord) (hx : 0 ≤ cur.x) (d : Int)
    (hd : d ∈ oddEvenDirections cur src dst)
    (hv : d = DIRECTION_NORTH ∨ d = DIRECTION_SOUTH) (y1 : Int)
    (hodd : cur.x % 2 = 1)
    (hW : DIRECTION_WEST ∈ oddEvenDirections { cur with y := y1 } src dst) : False := by
  have t1 := tmod_two_of_nonneg cur.x hx
  unfold oddEvenDirections at hd hW
  simp only at hd hW
  have hdx : dst.x < cur.x := by
    by_contra hc
    split_ifs at hW <;>
      simp [DIRECTION_NORTH, DIRECTION_EAST, DIRECTION_SOUTH, DIRECTION_WEST] at hW <;> omega
  rcases hv with rfl | rfl <;>
    split_ifs at hd <;>
    simp [DIRECTION_NORTH, DIRECTION_EAST, DIRECTION_SOUTH, DIRECTION_WEST] at hd <;>
    omega

/-- C20: Odd-Even routing obeys the odd-even turn restrictions on consecutive hops.
For source, destination and current tile in the mesh with `current.x` between
`source.x` and `destination.x`: if `d` is returned at current, `next` is the
neighbour of current in direction `d`, `next` is not the destination and `d1` is
returned at `next`, then EAST followed by NORTH or SOUTH does not happen when `next`
is in an even column, and NORTH or SOUTH followed by WEST does not happen when `next`
is in an odd column. -/
theorem oddEven_turn_restrictions (p : TGlobalParams) (source destination current : TCoord)
    (_hs : inMesh p source) (_hd : inMesh p destination) (hc : inMesh p current)
    (hbetween : min source.x destination.x ≤ current.x ∧
      current.x ≤ max source.x destination.x)
    (l : List Int) (hl : routingOddEven current source destination = some l)
    (d : Int) (hdl : d ∈ l) (next : Int)
    (hnext : getNeighborId p (coord2Id p current) d = some next) (hvalid : next ≠ NOT_VALID)
    (hnd : next ≠ coord2Id p destination)
    (l1 : List Int) (hl1 : routingOddEven (id2Coord p next) source destination = some l1)
    (d1 : Int) (hd1 : d1 ∈ l1) :
    ¬ (d = DIRECTION_EAST ∧ (d1 = DIRECTION_NORTH ∨ d1 = DIRECTION_SOUTH) ∧
        (id2Coord p next).x % 2 = 0) ∧
    ¬ ((d = DIRECTION_NORTH ∨ d = DIRECTION_SOUTH) ∧ d1 = DIRECTION_WEST ∧
        (id2Coord p next).x % 2 = 1) := by
  have hpi := getNeighborId_valid p current hc d next hnext hvalid
  obtain ⟨c1, hc1, hn, hc1v⟩ := getNeighborId_of_pointsInside p current hc d hpi
  rw [hnext] at hn
  obtain rfl := Option.some.inj hn
  rw [id2Coord_coord2Id p c1 hc1] at hl1 ⊢
  have e := routingOddEven_eq _ _ _ _ hl
  have e1 := routingOddEven_eq _ _ _ _ hl1
  subst e e1
  have hne : c1 ≠ destination := fun h => hnd (by rw [h])
  constructor
  · rintro ⟨rfl, hv, heven⟩
    have hc1x : c1 = { current with x := current.x + 1 } := by
      rw [hc1v]; simp [DIRECTION_NORTH, DIRECTION_EAST, DIRECTION_SOUTH]
    rw [hc1x] at hd1 hne heven
    have := oddEven_no_east_then_vertical current source destination hc.1 hbetween hdl hne
      heven d1 hd1
    rcases hv with h | h
    · exact this.1 h
    · exact this.2 h
  · rintro ⟨hv, rfl, hodd⟩
    have hc1x : c1 = { current with y := c1.y } := by
      rw [hc1v]
      rcases hv with rfl | rfl <;> simp [DIRECTION_NORTH, DIRECTION_SOUTH]
    have hxx : c1.x = current.x := by rw [hc1x]
    rw [hxx] at hodd
    rw [hc1x] at hd1
    exact oddEven_no_vertical_then_west current source destination hc.1 d hdl hv c1.y hodd hd1

theorem oddEven_turn_restrictions_witness :
    inMesh mesh4oddEven ⟨0, 1⟩ ∧ inMesh mesh4oddEven ⟨3, 0⟩ ∧ inMesh mesh4oddEven ⟨1, 1⟩ ∧
    routingOddEven ⟨1, 1⟩ ⟨0, 1⟩ ⟨3, 0⟩ = some [DIRECTION_NORTH, DIRECTION_EAST] ∧
    getNeighborId mesh4oddEven (coord2Id mesh4oddEven ⟨1, 1⟩) DIRECTION_EAST = some 6 ∧
    routingOddEven (id2Coord mesh4oddEven 6) ⟨0, 1⟩ ⟨3, 0⟩ = some [DIRECTION_EAST] ∧
    (¬ (DIRECTION_EAST = DIRECTION_EAST ∧
        (DIRECTION_EAST = DIRECTION_NORTH ∨ DIRECTION_EAST = DIRECTION_SOUTH) ∧
        (id2Coord mesh4oddEven 6).x % 2 = 0) ∧
    ¬ ((DIRECTION_EAST = DIRECTION_NORTH ∨ DIRECTION_EAST = DIRECTION_SOUTH) ∧
        DIRECTION_EAST = DIRECTION_WEST ∧ (id2Coord mesh4oddEven 6).x % 2 = 1)) :=
  ⟨by decide, by decide, by decide, by decide, by decide, by decide,
    oddEven_turn_restrictions mesh4oddEven ⟨0, 1⟩ ⟨3, 0⟩ ⟨1, 1⟩ (by decide) (by decide)
      (by decide) (by decide) [DIRECTION_NORTH, DIRECTION_EAST] (by decide) DIRECTION_EAST
      (by decide) 6 (by decide) (by decide) (by decide) [DIRECTION_EAST] (by decide)
      DIRECTION_EAST (by decide)⟩

/-- C18 (failing input): Odd-Even routing in the 4×3 mesh, going west along the
destination's row from an even column. At current `(2, 1)` with destination `(0, 1)`
`routingOddEven` returns WEST and SOUTH; SOUTH leads to tile 10 at `(2, 2)`, at
distance 3 from the destination instead of 1 (current is at distance 2). At current
`(2, 2)` with destination `(0, 2)` the SOUTH it returns has no neighbour at all. -/
theorem oddEven_westbound_not_minimal :
    (inMesh mesh4oddEven ⟨2, 1⟩ ∧ inMesh mesh4oddEven ⟨0, 1⟩ ∧
      routingOddEven ⟨2, 1⟩ ⟨3, 1⟩ ⟨0, 1⟩ = some [DIRECTION_WEST, DIRECTION_SOUTH] ∧
      getNeighborId mesh4oddEven (coord2Id mesh4oddEven ⟨2, 1⟩) DIRECTION_SOUTH = some 10 ∧
      id2Coord mesh4oddEven 10 = ⟨2, 2⟩ ∧
      manhattan ⟨2, 1⟩ ⟨0, 1⟩ = 2 ∧ manhattan (id2Coord mesh4oddEven 10) ⟨0, 1⟩ = 3) ∧
    (inMesh mesh4oddEven ⟨2, 2⟩ ∧ inMesh mesh4oddEven ⟨0, 2⟩ ∧
      routingOddEven ⟨2, 2⟩ ⟨3, 2⟩ ⟨0, 2⟩ = some [DIRECTION_WEST, DIRECTION_SOUTH] ∧
      getNeighborId mesh4oddEven (coord2Id mesh4oddEven ⟨2, 2⟩) DIRECTION_SOUTH =
        some NOT_VALID) := by
  decide

/-- C10 (failing input): Odd-Even routing in the 3×1 mesh, router of tile 2 at
`(2, 0)`, head flit for tile 0 at `(0, 0)`. Both tiles are in the mesh and differ;
`routingOddEven` returns WEST and SOUTH, and SOUTH has no neighbour (`getNeighborId`
gives NOT_VALID). With `rand()` returning 1 `route` picks SOUTH, and in the first
cycle after reset `txProcess` pops the flit and writes it on the SOUTH port. -/
theorem oddEven_sends_flit_off_mesh :
    inMesh mesh3x1oddEven (id2Coord mesh3x1oddEven 2) ∧
    inMesh mesh3x1oddEven (id2Coord mesh3x1oddEven 0) ∧
    id2Coord mesh3x1oddEven 2 ≠ id2Coord mesh3x1oddEven 0 ∧
    routingOddEven (id2Coord mesh3x1oddEven 2) (id2Coord mesh3x1oddEven 2)
      (id2Coord mesh3x1oddEven 0) = some [DIRECTION_WEST, DIRECTION_SOUTH] ∧
    getNeighborId mesh3x1oddEven 2 DIRECTION_SOUTH = some NOT_VALID ∧
    route mesh3x1oddEven noTable (fun _ => 0) 1 (idleRouter 2) ⟨2, 2, 0, DIRECTION_LOCAL⟩ =
      some DIRECTION_SOUTH ∧
    (routerRun mesh3x1oddEven noTable westboundRun (resetRouter (idleRouter 2), [])).map
        (fun st => (st.2, st.1.buffer DIRECTION_LOCAL)) =
      some ([(DIRECTION_LOCAL, DIRECTION_SOUTH, flitWestbound)], []) := by
  refine ⟨by decide, by decide, by decide, by decide, by decide, by decide, by decide⟩

/-! ## The static scan counter across a mesh -/

theorem txOrder_head (start : Nat) : (txOrder start).head? = some (firstScanned start) := by
  rw [txOrder_eq]; rfl

/-- The static counter after the transmit phase of a mesh: one increment per router,
and the `k`-th router scanned from the value at the start of the phase plus `k`. -/
theorem meshTxPhase_counter (p : TGlobalParams) (table : Int → Int → List Int) :
    ∀ (routers : List (TxInputs × TRouter)) (start : Nat)
      (out : List (TRouter × List TxEvent × Nat)) (last : Nat),
      meshTxPhase p table routers start = some (out, last) →
      last = start + routers.length ∧
      out.map (fun x => x.2.2) = (List.range routers.length).map (fun k => start + k) := by
  intro routers
  induction routers with
  | nil =>
    intro start out last h
    simp only [meshTxPhase, Option.some.injEq, Prod.mk.injEq] at h
    obtain ⟨rfl, rfl⟩ := h
    simp
  | cons x rest ih =>
    intro start out last h
    obtain ⟨inp, r⟩ := x
    rw [meshTxPhase] at h
    split at h
    · exact Option.noConfusion h
    · rename_i r1 sent next htx
      split at h
      · exact Option.noConfusion h
      · rename_i out1 last1 hrest
        simp only [Option.some.injEq, Prod.mk.injEq] at h
        obtain ⟨rfl, rfl⟩ := h
        obtain ⟨_, hnext⟩ := txProcess_spec p table inp start r r1 sent next htx
        subst hnext
        obtain ⟨h1, h2⟩ := ih (start + 1) out1 last1 hrest
        refine ⟨by rw [h1, List.length_cons]; omega, ?_⟩
        rw [List.map_cons, h2, List.length_cons, List.range_succ_eq_map, List.map_cons,
          List.map_map]
        simp only [Nat.add_zero, List.cons.injEq, true_and]
        apply List.map_congr_left
        intro k _
        simp only [Function.comp]
        omega

/-- C15 (failing input): the 5×1 mesh. In each cycle the five calls of `txProcess`
advance the static `start_from_direction` by five, so in three consecutive cycles
router 0 scans from the values 0, 5 and 10 and starts each time at input NORTH: its
starting input does not advance, and input NORTH is the highest-priority one in every
cycle. -/
theorem start_direction_stuck_in_five_router_mesh :
    (meshTxPhase mesh5x1 noTable fiveRouters 0).map
        (fun x => (x.1.map (fun y => y.2.2), x.2)) = some ([0, 1, 2, 3, 4], 5) ∧
    (meshTxPhase mesh5x1 noTable fiveRouters 5).map
        (fun x => (x.1.map (fun y => y.2.2), x.2)) = some ([5, 6, 7, 8, 9], 10) ∧
    (meshTxPhase mesh5x1 noTable fiveRouters 10).map
        (fun x => (x.1.map (fun y => y.2.2), x.2)) = some ([10, 11, 12, 13, 14], 15) ∧
    (txOrder 0).head? = some DIRECTION_NORTH ∧ (txOrder 5).head? = some DIRECTION_NORTH ∧
    (txOrder 10).head? = some DIRECTION_NORTH ∧
    firstScanned 5 ≠ (firstScanned 0 + 1) % 5 := by
  decide

/-! ## Mesh assembly: results -/

theorem outChannel_eq (port : OutPort) (i j d : Int) (c : Channel)
    (h : outChannel port i j d = some c) :
    isExternal d ∧
    c = ⟨signalOf port, d, if d = DIRECTION_EAST then i + 1 else i,
      if d = DIRECTION_SOUTH then j + 1 else j⟩ := by
  cases port <;>
    simp only [outChannel, req_tx_channel, flit_tx_channel, ack_rx_channel,
      buffer_level_channel, NoP_data_out_channel] at h <;>
    split_ifs at h with h1 h2 h3 h4 <;>
    first
    | exact Option.noConfusion h
    | (obtain rfl := Option.some.inj h
       subst d
       exact ⟨by decide, by simp [signalOf, DIRECTION_NORTH, DIRECTION_EAST, DIRECTION_SOUTH,
         DIRECTION_WEST]⟩)

theorem signalOf_injective (a b : OutPort) (h : signalOf a = signalOf b) : a = b := by
  cases a <;> cases b <;> first | rfl | exact absurd h (by decide)

theorem outChannel_injective (port1 port2 : OutPort) (i1 j1 d1 i2 j2 d2 : Int) (c : Channel)
    (h1 : outChannel port1 i1 j1 d1 = some c) (h2 : outChannel port2 i2 j2 d2 = some c) :
    port1 = port2 ∧ i1 = i2 ∧ j1 = j2 ∧ d1 = d2 := by
  obtain ⟨_, e1⟩ := outChannel_eq port1 i1 j1 d1 c h1
  obtain ⟨_, e2⟩ := outChannel_eq port2 i2 j2 d2 c h2
  rw [e1] at e2
  simp only [Channel.mk.injEq] at e2
  obtain ⟨hs, hd, hi, hj⟩ := e2
  subst hd
  refine ⟨signalOf_injective _ _ hs, ?_, ?_, rfl⟩
  · split_ifs at hi <;> omega
  · split_ifs at hj <;> omega

/-- C16: in `buildMesh`, for every tile `(i, j)` and every direction `d` in which it
has a neighbour tile N, the channels bound to the tile's transmit side in direction
`d` are the channels bound to N's receive side in the reflex direction (`req_tx` and
`flit_tx` with `req_rx` and `flit_rx`, `ack_tx` with `ack_rx`, `buffer_level_neighbor`
with `buffer_level`, `NoP_data_in` with `NoP_data_out`); and no channel is bound to
two different writing tile ports. -/
theorem buildMesh_links_neighbours (p : TGlobalParams) (i j d n : Int)
    (hin : inMesh p ⟨i, j⟩)
    (hn : getNeighborId p (coord2Id p ⟨i, j⟩) d = some n) (hv : n ≠ NOT_VALID) :
    (∃ c, req_tx_channel i j d = some c ∧
      req_rx_channel (id2Coord p n).x (id2Coord p n).y (reflexDirection d) = some c) ∧
    (∃ c, flit_tx_channel i j d = some c ∧
      flit_rx_channel (id2Coord p n).x (id2Coord p n).y (reflexDirection d) = some c) ∧
    (∃ c, ack_tx_channel i j d = some c ∧
      ack_rx_channel (id2Coord p n).x (id2Coord p n).y (reflexDirection d) = some c) ∧
    (∃ c, buffer_level_neighbor_channel i j d = some c ∧
      buffer_level_channel (id2Coord p n).x (id2Coord p n).y (reflexDirection d) = some c) ∧
    (∃ c, NoP_data_in_channel i j d = some c ∧
      NoP_data_out_channel (id2Coord p n).x (id2Coord p n).y (reflexDirection d) = some c) ∧
    (∀ (port1 port2 : OutPort) (i1 j1 d1 i2 j2 d2 : Int) (c : Channel),
      outChannel port1 i1 j1 d1 = some c → outChannel port2 i2 j2 d2 = some c →
      port1 = port2 ∧ i1 = i2 ∧ j1 = j2 ∧ d1 = d2) := by
  have hpi := getNeighborId_valid p ⟨i, j⟩ hin d n hn hv
  obtain ⟨c1, hc1, hn1, hc1v⟩ := getNeighborId_of_pointsInside p ⟨i, j⟩ hin d hpi
  rw [hn] at hn1
  obtain rfl := Option.some.inj hn1
  rw [id2Coord_coord2Id p c1 hc1, hc1v]
  refine ⟨?_, ?_, ?_, ?_, ?_, outChannel_injective⟩ <;>
    rcases hpi with ⟨rfl, _⟩ | ⟨rfl, _⟩ | ⟨rfl, _⟩ | ⟨rfl, _⟩ <;>
    simp [req_tx_channel, req_rx_channel, flit_tx_channel, flit_rx_channel, ack_tx_channel,
      ack_rx_channel, buffer_level_neighbor_channel, buffer_level_channel,
      NoP_data_in_channel, NoP_data_out_channel, reflexDirection, DIRECTION_NORTH,
      DIRECTION_EAST, DIRECTION_SOUTH, DIRECTION_WEST]

theorem buildMesh_links_neighbours_witness :
    inMesh mesh2x2 ⟨0, 0⟩ ∧
    getNeighborId mesh2x2 (coord2Id mesh2x2 ⟨0, 0⟩) DIRECTION_EAST = some 1 ∧
    (1 : Int) ≠ NOT_VALID ∧
    req_tx_channel 0 0 DIRECTION_EAST = some ⟨Signal.req, DIRECTION_EAST, 1, 0⟩ ∧
    req_rx_channel 1 0 DIRECTION_WEST = some ⟨Signal.req, DIRECTION_EAST, 1, 0⟩ ∧
    ((∃ c, req_tx_channel 0 0 DIRECTION_EAST = some c ∧
      req_rx_channel (id2Coord mesh2x2 1).x (id2Coord mesh2x2 1).y
        (reflexDirection DIRECTION_EAST) = some c) ∧
    (∃ c, flit_tx_channel 0 0 DIRECTION_EAST = some c ∧
      flit_rx_channel (id2Coord mesh2x2 1).x (id2Coord mesh2x2 1).y
        (reflexDirection DIRECTION_EAST) = some c) ∧
    (∃ c, ack_tx_channel 0 0 DIRECTION_EAST = some c ∧
      ack_rx_channel (id2Coord mesh2x2 1).x (id2Coord mesh2x2 1).y
        (reflexDirection DIRECTION_EAST) = some c) ∧
    (∃ c, buffer_level_neighbor_channel 0 0 DIRECTION_EAST = some c ∧
      buffer_level_channel (id2Coord mesh2x2 1).x (id2Coord mesh2x2 1).y
        (reflexDirection DIRECTION_EAST) = some c) ∧
    (∃ c, NoP_data_in_channel 0 0 DIRECTION_EAST = some c ∧
      NoP_data_out_channel (id2Coord mesh2x2 1).x (id2Coord mesh2x2 1).y
        (reflexDirection DIRECTION_EAST) = some c) ∧
    (∀ (port1 port2 : OutPort) (i1 j1 d1 i2 j2 d2 : Int) (c : Channel),
      outChannel port1 i1 j1 d1 = some c → outChannel port2 i2 j2 d2 = some c →
      port1 = port2 ∧ i1 = i2 ∧ j1 = j2 ∧ d1 = d2)) :=
  ⟨by decide, by decide, by decide, by decide, by decide,
    buildMesh_links_neighbours mesh2x2 0 0 DIRECTION_EAST 1 (by decide) (by decide)
      (by decide)⟩

/-- C17 (failing input): the 2×2 mesh, tile `(0, 0)`, side NORTH, where it has no
neighbour. The `req`, `buffer_level` and `NoP_data` lines the tile reads there are
among the tied-off channels, but the line read by `ack_tx[NORTH]`,
`ack_to_south[0][0]`, is not: the loop assigns `ack_to_north[0][0]`, the line the tile
itself drives through `ack_rx[NORTH]`. The same holds on side WEST and, for tile
`(1, 1)`, on sides SOUTH and EAST. -/
theorem border_ack_line_not_tied_off :
    getNeighborId mesh2x2 (coord2Id mesh2x2 ⟨0, 0⟩) DIRECTION_NORTH = some NOT_VALID ∧
    (∃ c, req_rx_channel 0 0 DIRECTION_NORTH = some c ∧ c ∈ zeroedChannels mesh2x2) ∧
    (∃ c, buffer_level_neighbor_channel 0 0 DIRECTION_NORTH = some c ∧
      c ∈ zeroedChannels mesh2x2) ∧
    (∃ c, NoP_data_in_channel 0 0 DIRECTION_NORTH = some c ∧
      c ∈ emptyNoPChannels mesh2x2) ∧
    ack_tx_channel 0 0 DIRECTION_NORTH = some ⟨Signal.ack, DIRECTION_SOUTH, 0, 0⟩ ∧
    (⟨Signal.ack, DIRECTION_SOUTH, 0, 0⟩ : Channel) ∉ zeroedChannels mesh2x2 ∧
    ack_rx_channel 0 0 DIRECTION_NORTH = some ⟨Signal.ack, DIRECTION_NORTH, 0, 0⟩ ∧
    (⟨Signal.ack, DIRECTION_NORTH, 0, 0⟩ : Channel) ∈ zeroedChannels mesh2x2 ∧
    (getNeighborId mesh2x2 (coord2Id mesh2x2 ⟨0, 0⟩) DIRECTION_WEST = some NOT_VALID ∧
      ack_tx_channel 0 0 DIRECTION_WEST = some ⟨Signal.ack, DIRECTION_EAST, 0, 0⟩ ∧
      (⟨Signal.ack, DIRECTION_EAST, 0, 0⟩ : Channel) ∉ zeroedChannels mesh2x2) ∧
    (getNeighborId mesh2x2 (coord2Id mesh2x2 ⟨1, 1⟩) DIRECTION_SOUTH = some NOT_VALID ∧
      ack_tx_channel 1 1 DIRECTION_SOUTH = some ⟨Signal.ack, DIRECTION_NORTH, 1, 2⟩ ∧
      (⟨Signal.ack, DIRECTION_NORTH, 1, 2⟩ : Channel) ∉ zeroedChannels mesh2x2) ∧
    (getNeighborId mesh2x2 (coord2Id mesh2x2 ⟨1, 1⟩) DIRECTION_EAST = some NOT_VALID ∧
      ack_tx_channel 1 1 DIRECTION_EAST = some ⟨Signal.ack, DIRECTION_WEST, 2, 1⟩ ∧
      (⟨Signal.ack, DIRECTION_WEST, 2, 1⟩ : Channel) ∉ zeroedChannels mesh2x2) := by
  refine ⟨by decide, ⟨_, rfl, by decide⟩, ⟨_, rfl, by decide⟩, ⟨_, rfl, by decide⟩,
    by decide, by decide, by decide, by decide, by decide, by decide, by decide⟩

/-! ## Negative-First turns, and reservations of a stalled head flit -/

/-- The two counter-clockwise turns that Negative-First routing never takes: NORTH
to WEST and SOUTH to EAST. -/
theorem negativeFirst_forbidden_turns (p : TGlobalParams) (current destination : TCoord)
    (d d1 : Int) (h : negativeFirstTurn p current destination d d1) :
    ¬ (d = DIRECTION_NORTH ∧ d1 = DIRECTION_WEST) ∧
    ¬ (d = DIRECTION_SOUTH ∧ d1 = DIRECTION_EAST) := by
  obtain ⟨hc, _, hd, next, hn, hv, _, hd1⟩ := h
  have hpi := getNeighborId_valid p current hc d next hn hv
  obtain ⟨c1, hc1, hn1, hc1v⟩ := getNeighborId_of_pointsInside p current hc d hpi
  rw [hn] at hn1
  obtain rfl := Option.some.inj hn1
  rw [id2Coord_coord2Id p c1 hc1] at hd1
  constructor
  · rintro ⟨rfl, rfl⟩
    have hx : c1.x = current.x := by rw [hc1v]; simp
    have hy : c1.y = current.y - 1 := by rw [hc1v]; simp
    unfold routingNegativeFirst routingXY at hd hd1
    rw [hx, hy] at hd1
    split_ifs at hd <;>
      simp [DIRECTION_NORTH, DIRECTION_EAST, DIRECTION_SOUTH, DIRECTION_WEST] at hd <;>
      split_ifs at hd1 <;>
      simp [DIRECTION_NORTH, DIRECTION_EAST, DIRECTION_SOUTH, DIRECTION_WEST] at hd1 <;>
      omega
  · rintro ⟨rfl, rfl⟩
    have hx : c1.x = current.x := by
      rw [hc1v]; simp [DIRECTION_NORTH, DIRECTION_SOUTH]
    have hy : c1.y = current.y + 1 := by
      rw [hc1v]; simp [DIRECTION_NORTH, DIRECTION_SOUTH]
    unfold routingNegativeFirst routingXY at hd hd1
    rw [hx, hy] at hd1
    split_ifs at hd <;>
      simp [DIRECTION_NORTH, DIRECTION_EAST, DIRECTION_SOUTH, DIRECTION_WEST] at hd <;>
      split_ifs at hd1 <;>
      simp [DIRECTION_NORTH, DIRECTION_EAST, DIRECTION_SOUTH, DIRECTION_WEST] at hd1 <;>
      omega

/-- C21 (failing input): Negative-First routing in the 3×3 mesh. Each of the four
clockwise turns is taken: NORTH to EAST at `(0, 2)` towards `(2, 0)`, EAST to SOUTH
at `(0, 0)` towards `(1, 1)`, SOUTH to WEST at `(2, 0)` towards `(0, 2)`, WEST to
NORTH at `(1, 1)` towards `(0, 0)`. -/
theorem negativeFirst_takes_every_clockwise_turn :
    negativeFirstTurn mesh3negativeFirst ⟨0, 2⟩ ⟨2, 0⟩ DIRECTION_NORTH DIRECTION_EAST ∧
    negativeFirstTurn mesh3negativeFirst ⟨0, 0⟩ ⟨1, 1⟩ DIRECTION_EAST DIRECTION_SOUTH ∧
    negativeFirstTurn mesh3negativeFirst ⟨2, 0⟩ ⟨0, 2⟩ DIRECTION_SOUTH DIRECTION_WEST ∧
    negativeFirstTurn mesh3negativeFirst ⟨1, 1⟩ ⟨0, 0⟩ DIRECTION_WEST DIRECTION_NORTH ∧
    routingNegativeFirst ⟨0, 2⟩ ⟨2, 0⟩ = [DIRECTION_NORTH, DIRECTION_EAST] ∧
    routingNegativeFirst ⟨0, 0⟩ ⟨1, 1⟩ = [DIRECTION_EAST] ∧
    routingNegativeFirst ⟨1, 0⟩ ⟨1, 1⟩ = [DIRECTION_SOUTH] ∧
    routingNegativeFirst ⟨2, 0⟩ ⟨0, 2⟩ = [DIRECTION_SOUTH, DIRECTION_WEST] ∧
    routingNegativeFirst ⟨1, 1⟩ ⟨0, 0⟩ = [DIRECTION_WEST] ∧
    routingNegativeFirst ⟨0, 1⟩ ⟨0, 0⟩ = [DIRECTION_NORTH] := by
  refine ⟨⟨by decide, by decide, by decide, 3, by decide, by decide, by decide, by decide⟩,
    ⟨by decide, by decide, by decide, 1, by decide, by decide, by decide, by decide⟩,
    ⟨by decide, by decide, by decide, 5, by decide, by decide, by decide, by decide⟩,
    ⟨by decide, by decide, by decide, 3, by decide, by decide, by decide, by decide⟩,
    by decide, by decide, by decide, by decide, by decide, by decide⟩

/-- C22 (failing run): fully adaptive routing with random selection, centre router of
a 3×3 mesh, run `splitWormRun` from reset. After three cycles the head of packet C,
at the front of input LOCAL, has reserved EAST and is stalled on the handshake; after
the fourth cycle it has reserved SOUTH as well, so LOCAL is the reserving input of two
outputs; after the sixth cycle the tail of C has been forwarded, the LOCAL buffer is
empty, and EAST is still reserved by LOCAL. -/
theorem input_reserves_two_outputs :
    (routerRun mesh3adaptive noTable (splitWormRun.take 3)
        (resetRouter (idleRouter 4), [])).map
        (fun st => (st.1.reservation_table DIRECTION_EAST,
          st.1.reservation_table DIRECTION_SOUTH, st.1.buffer DIRECTION_LOCAL)) =
      some (DIRECTION_LOCAL, NOT_RESERVED, [flitCH]) ∧
    (routerRun mesh3adaptive noTable (splitWormRun.take 4)
        (resetRouter (idleRouter 4), [])).map
        (fun st => (st.1.reservation_table DIRECTION_EAST,
          st.1.reservation_table DIRECTION_SOUTH, st.1.buffer DIRECTION_LOCAL)) =
      some (DIRECTION_LOCAL, DIRECTION_LOCAL, [flitCH]) ∧
    (routerRun mesh3adaptive noTable splitWormRun (resetRouter (idleRouter 4), [])).map
        (fun st => (st.1.reservation_table DIRECTION_EAST,
          st.1.reservation_table DIRECTION_SOUTH, st.1.buffer DIRECTION_LOCAL,
          takenFrom DIRECTION_LOCAL st.2)) =
      some (DIRECTION_LOCAL, NOT_RESERVED, [], [flitCH, flitCT]) := by
  refine ⟨by decide, by decide, by decide⟩

end Noxim
